import Mathlib

/-!
# Flow-channel settler and voucher tooling: a shallow embedding

The definitions below follow `flowchmgr/settler/settler.go` and `cli/flowch.go`.
Calls into the node API are modelled by explicit state passing: an API is a record
of transition functions over an arbitrary node state, and every call the embedded
code makes is appended, together with its reply, to a trace.

The namespace `Blockstore` follows `blockstore/buffered.go`; the namespace `Genesis`
follows `chain/gen/gen_actors.go`, `chain/gen/genesis/genesis.go` and
`cmd/epik-seed/genesis.go`.
-/

set_option autoImplicit false

namespace Flowch

/-! ## Data model -/

/-- An account identifier, compared by equality only (`address.Address`). -/
abbrev Address := Nat

/-- A content identifier of a chain message (`cid.Cid`). -/
abbrev Cid := Nat

/-- An error value (`error`), carried as its text. -/
abbrev Err := String

/-- A byte (`byte`). -/
abbrev Byte := Fin 256

/-- A byte string; `none` stands for a nil slice where the code passes `nil`. -/
abbrev Bytes := List Byte

/-- A method number of an actor (`abi.MethodNum`). -/
abbrev MethodNum := Nat

/-- The direction of a channel relative to the local node (`api.PCHDir`). -/
abbrev PCHDir := Nat

/-- Modelled from the spec: the constant `api.PCHUndef`, whose declaration is missing. -/
def PCHUndef : PCHDir := 0

/-- Modelled from the spec: the constant `api.PCHInbound` (the local node is payee), whose
declaration is missing. -/
def PCHInbound : PCHDir := 1

/-- Modelled from the spec: the constant `api.PCHOutbound`, whose declaration is missing. -/
def PCHOutbound : PCHDir := 2

/-- Modelled from the spec: the method table `flowch.Methods`, whose declaration is missing;
only the `Settle` entry is read by the settler. -/
structure MethodTable where
  Constructor : MethodNum
  UpdateChannelState : MethodNum
  Settle : MethodNum
  Collect : MethodNum
deriving DecidableEq, Repr

/-- Modelled from the spec: the method numbers of the flow-channel actor. -/
def Methods : MethodTable :=
  { Constructor := 1, UpdateChannelState := 2, Settle := 3, Collect := 4 }

/-- The fields of `types.Message` the settler reads, with sender and parameters. -/
structure Message where
  To : Address
  From : Address
  Method : MethodNum
  Params : Bytes
deriving DecidableEq, Repr

/-- A message receipt (`types.MessageReceipt`). -/
structure MessageReceipt where
  ExitCode : Int
  Return : Bytes
  GasUsed : Int
deriving DecidableEq, Repr

/-- A tipset, reduced to its height and the keys of its blocks. -/
structure TipSet where
  height : Nat
  cids : List Cid
deriving DecidableEq, Repr

/-- A merge instruction of a voucher. -/
structure Merge where
  Lane : Nat
  Nonce : Nat
deriving DecidableEq, Repr

/-- Modelled from the spec: the voucher type `flowch.SignedVoucher`, whose declaration is
missing: channel address, lane, nonce, cumulative amount, optional minimum settle height,
optional merge instructions and a detachable signature. -/
structure SignedVoucher where
  ChannelAddr : Address
  Lane : Nat
  Nonce : Nat
  Amount : Int
  MinSettleHeight : Nat
  Merges : List Merge
  Signature : Option Bytes
deriving DecidableEq, Repr

/-- The part of `api.FlowchStatus` the settler reads. -/
structure FlowchStatus where
  ControlAddr : Address
  Direction : PCHDir
deriving DecidableEq, Repr

/-- The result record of a message wait (`api.MsgLookup`). -/
structure MsgLookup where
  Message : Cid
  Receipt : MessageReceipt
  Height : Nat
deriving DecidableEq, Repr

/-- The pair `(*api.MsgLookup, error)` that `StateWaitMsg` hands back: the pointer may be
nil (`none`) and the error may be nil (`none`), independently. -/
structure WaitResult where
  lookup : Option MsgLookup
  err : Option Err
deriving DecidableEq, Repr

/-- The value of `build.MessageConfidence`. -/
def MessageConfidence : Nat := 5

/-! ## The node API and the trace of calls -/

/-- The operations of the node API on flow channels that `settler.go` and `cli/flowch.go`
name. The first six are the methods of the interface `settlerAPI`. -/
inductive Call where
  | FlowchList
  | FlowchStatus (ch : Address)
  | FlowchVoucherCheckSpendable (ch : Address) (sv : SignedVoucher) (secret proof : Option Bytes)
  | FlowchVoucherList (ch : Address)
  | FlowchVoucherSubmit (ch : Address) (sv : SignedVoucher) (secret proof : Option Bytes)
  | StateWaitMsg (c : Cid) (confidence : Nat)
  | FlowchGet (sender target : Address) (amt : Int)
  | FlowchGetWaitReady (sentinel : Cid)
  | FlowchAllocateLane (ch : Address)
  | FlowchVoucherCreate (ch : Address) (amt : Int) (lane : Nat)
  | FlowchVoucherAdd (ch : Address) (sv : SignedVoucher) (proof : Option Bytes) (minDelta : Int)
  | FlowchVoucherCheckValid (ch : Address) (sv : SignedVoucher)
  | FlowchSettle (ch : Address)
  | FlowchCollect (ch : Address)
deriving DecidableEq, Repr

/-- What a call answered. -/
inductive Reply where
  | addrs (r : Except Err (List Address))
  | status (r : Except Err FlowchStatus)
  | spendable (r : Except Err Bool)
  | vouchers (r : Except Err (List SignedVoucher))
  | msgCid (r : Except Err Cid)
  | waited (r : WaitResult)

/-- One entry of the trace: a call and its reply. -/
structure Event where
  call : Call
  reply : Reply

/-- The six methods of the interface `settlerAPI`. -/
def Call.isSettlerCall : Call → Bool
  | .FlowchList => true
  | .FlowchStatus _ => true
  | .FlowchVoucherCheckSpendable _ _ _ _ => true
  | .FlowchVoucherList _ => true
  | .FlowchVoucherSubmit _ _ _ _ => true
  | .StateWaitMsg _ _ => true
  | _ => false

/-- Modelled from the spec: which operations of the node API create, add or delete a locally
stored channel record or voucher (the implementations of the operations are missing):
channel creation and funding, lane allocation, voucher creation and voucher addition. -/
def Call.writesStore : Call → Bool
  | .FlowchGet _ _ _ => true
  | .FlowchAllocateLane _ => true
  | .FlowchVoucherCreate _ _ _ => true
  | .FlowchVoucherAdd _ _ _ _ => true
  | _ => false

/-- The interface `settlerAPI` over a node state `σ`: every method takes the state at the
time of the call and gives its answer and the state after the call. -/
structure SettlerAPI (σ : Type) where
  FlowchList : σ → Except Err (List Address) × σ
  FlowchStatus : Address → σ → Except Err FlowchStatus × σ
  FlowchVoucherCheckSpendable :
    Address → SignedVoucher → Option Bytes → Option Bytes → σ → Except Err Bool × σ
  FlowchVoucherList : Address → σ → Except Err (List SignedVoucher) × σ
  FlowchVoucherSubmit :
    Address → SignedVoucher → Option Bytes → Option Bytes → σ → Except Err Cid × σ
  StateWaitMsg : Cid → Nat → σ → WaitResult × σ

/-- A line of the error log: the two `log.Errorf` sites of the settler, and the report the
runtime prints when a goroutine dereferences a nil pointer. -/
inductive LogLine where
  | submittingVoucher (e : Err)
  | failedSubmittingVoucher (sv : SignedVoucher)
  | nilDereference
deriving DecidableEq, Repr

/-- The world a settler runs in: the node state, the calls made so far (oldest first) and
the lines written to the error log. -/
structure World (σ : Type) where
  st : σ
  trace : List Event
  logs : List LogLine

variable {σ : Type}

/-- Append one event to the trace and move to the state after the call. -/
def World.record (w : World σ) (s : σ) (c : Call) (r : Reply) : World σ :=
  { w with st := s, trace := w.trace ++ [⟨c, r⟩] }

/-- Write one line to the error log (`log.Errorf`). -/
def World.logError (w : World σ) (line : LogLine) : World σ :=
  { w with logs := w.logs ++ [line] }

/-- The call `pcs.api.FlowchList(pcs.ctx)`. -/
def callFlowchList (api : SettlerAPI σ) (w : World σ) :
    Except Err (List Address) × World σ :=
  let r := api.FlowchList w.st
  (r.1, w.record r.2 .FlowchList (.addrs r.1))

/-- The call `pcs.api.FlowchStatus(pcs.ctx, addr)`. -/
def callFlowchStatus (api : SettlerAPI σ) (addr : Address) (w : World σ) :
    Except Err FlowchStatus × World σ :=
  let r := api.FlowchStatus addr w.st
  (r.1, w.record r.2 (.FlowchStatus addr) (.status r.1))

/-- The call `api.FlowchVoucherList(ctx, ch)`. -/
def callFlowchVoucherList (api : SettlerAPI σ) (ch : Address) (w : World σ) :
    Except Err (List SignedVoucher) × World σ :=
  let r := api.FlowchVoucherList ch w.st
  (r.1, w.record r.2 (.FlowchVoucherList ch) (.vouchers r.1))

/-- The call `api.FlowchVoucherCheckSpendable(ctx, ch, voucher, secret, proof)`. -/
def callFlowchVoucherCheckSpendable (api : SettlerAPI σ) (ch : Address) (sv : SignedVoucher)
    (secret proof : Option Bytes) (w : World σ) : Except Err Bool × World σ :=
  let r := api.FlowchVoucherCheckSpendable ch sv secret proof w.st
  (r.1, w.record r.2 (.FlowchVoucherCheckSpendable ch sv secret proof) (.spendable r.1))

/-- The call `pcs.api.FlowchVoucherSubmit(pcs.ctx, ch, voucher, secret, proof)`. -/
def callFlowchVoucherSubmit (api : SettlerAPI σ) (ch : Address) (sv : SignedVoucher)
    (secret proof : Option Bytes) (w : World σ) : Except Err Cid × World σ :=
  let r := api.FlowchVoucherSubmit ch sv secret proof w.st
  (r.1, w.record r.2 (.FlowchVoucherSubmit ch sv secret proof) (.msgCid r.1))

/-- The call `pcs.api.StateWaitMsg(pcs.ctx, c, confidence)`. -/
def callStateWaitMsg (api : SettlerAPI σ) (c : Cid) (confidence : Nat) (w : World σ) :
    WaitResult × World σ :=
  let r := api.StateWaitMsg c confidence w.st
  (r.1, w.record r.2 (.StateWaitMsg c confidence) (.waited r.1))

/-! ## The settler (`flowchmgr/settler/settler.go`) -/

/-- The method `paymentChannelSettler.check`: the triple `(done, more, err)`. -/
def check (_ts : TipSet) : Bool × Bool × Option Err :=
  (false, true, none)

/-- The method `paymentChannelSettler.revertHandler`: it returns a nil error and touches
nothing. -/
def revertHandler (_api : SettlerAPI σ) (_ts : TipSet) (w : World σ) :
    Option Err × World σ :=
  (none, w)

/-- The loop of `matcher` over the tracked addresses. -/
def matcherLoop (api : SettlerAPI σ) (msg : Message) :
    List Address → World σ → (Bool × Option Err) × World σ
  | [], w => ((false, none), w)
  | addr :: rest, w =>
    if msg.To = addr then
      match callFlowchStatus api addr w with
      | (.error e, w1) => ((false, some e), w1)
      | (.ok status, w1) =>
        if status.Direction = PCHInbound then ((true, none), w1)
        else matcherLoop api msg rest w1
    else matcherLoop api msg rest w

/-- The method `paymentChannelSettler.matcher`: the pair `(matched, err)`. -/
def matcher (api : SettlerAPI σ) (msg : Message) (_ts : TipSet) (w : World σ) :
    (Bool × Option Err) × World σ :=
  if msg.Method ≠ Methods.Settle then ((false, none), w)
  else
    match callFlowchList api w with
    | (.error e, w1) => ((false, some e), w1)
    | (.ok trackedAddresses, w1) => matcherLoop api msg trackedAddresses w1

/-- The map `map[uint64]*flowch.SignedVoucher` from lane to voucher, as its entries; the
operations below keep the lanes pairwise distinct. -/
abbrev LaneMap := List (Nat × SignedVoucher)

/-- The lookup `bestByLane[lane]`. -/
def LaneMap.get? : LaneMap → Nat → Option SignedVoucher
  | [], _ => none
  | (k, v) :: rest, lane => if k = lane then some v else LaneMap.get? rest lane

/-- The assignment `bestByLane[lane] = v`. -/
def LaneMap.set : LaneMap → Nat → SignedVoucher → LaneMap
  | [], lane, v => [(lane, v)]
  | (k, b) :: rest, lane, v =>
    if k = lane then (lane, v) :: rest else (k, b) :: LaneMap.set rest lane v

/-- The order in which a `range` loop visits the entries of a map. The language leaves it
unspecified, so it is an input of the model: any rearrangement of the entries. -/
structure MapOrder where
  order : LaneMap → LaneMap
  perm : ∀ m : LaneMap, (order m).Perm m

/-- Modelled from the spec: the loop of the missing function `BestSpendableByLane` over the
stored vouchers; a spendable voucher replaces the one kept for its lane when none is kept
or when its amount is greater. -/
def bestSpendableLoop (api : SettlerAPI σ) (ch : Address) :
    List SignedVoucher → LaneMap → World σ → Except Err LaneMap × World σ
  | [], bestByLane, w => (.ok bestByLane, w)
  | voucher :: rest, bestByLane, w =>
    match callFlowchVoucherCheckSpendable api ch voucher none none w with
    | (.error e, w1) => (.error e, w1)
    | (.ok spendable, w1) =>
      if spendable then
        match bestByLane.get? voucher.Lane with
        | none => bestSpendableLoop api ch rest (bestByLane.set voucher.Lane voucher) w1
        | some best =>
          if voucher.Amount > best.Amount then
            bestSpendableLoop api ch rest (bestByLane.set voucher.Lane voucher) w1
          else bestSpendableLoop api ch rest bestByLane w1
      else bestSpendableLoop api ch rest bestByLane w1

/-- Modelled from the spec: the function `flowchmgr.BestSpendableByLane`, whose source is
missing. Per lane it gives the best voucher whose conditions are currently
satisfiable: it lists the vouchers of the channel, asks for each whether it is spendable,
and keeps for each lane the spendable voucher of greatest amount. -/
def BestSpendableByLane (api : SettlerAPI σ) (ch : Address) (w : World σ) :
    Except Err LaneMap × World σ :=
  match callFlowchVoucherList api ch w with
  | (.error e, w1) => (.error e, w1)
  | (.ok vouchers, w1) => bestSpendableLoop api ch vouchers [] w1

/-- How a run of `messageHandler` ends: it returns the pair `(more, err)`, or the process
is brought down by a nil dereference before the handler returns. -/
inductive HandlerResult where
  | returned (more : Bool) (err : Option Err)
  | panicked
deriving DecidableEq, Repr

/-- The body of the goroutine started for one submitted voucher. The flag is `true` when
the goroutine dereferences a nil `msgLookup`. -/
def waitGoroutine (api : SettlerAPI σ) (voucher : SignedVoucher) (submitMessageCID : Cid)
    (w : World σ) : Bool × World σ :=
  match callStateWaitMsg api submitMessageCID MessageConfidence w with
  | (r, w1) =>
    let w2 := match r.err with
      | some e => w1.logError (.submittingVoucher e)
      | none => w1
    match r.lookup with
    | none => (true, w2.logError .nilDereference)
    | some msgLookup =>
      if msgLookup.Receipt.ExitCode ≠ 0 then (false, w2.logError (.failedSubmittingVoucher voucher))
      else (false, w2)

/-- Run started goroutines to completion, oldest first. A nil dereference in one of them
ends the process: the flag is `true` and the goroutines after it do not finish. -/
def runGoroutines (api : SettlerAPI σ) :
    List (SignedVoucher × Cid) → World σ → Bool × World σ
  | [], w => (false, w)
  | (voucher, c) :: rest, w =>
    match waitGoroutine api voucher c w with
    | (true, w1) => (true, w1)
    | (false, w1) => runGoroutines api rest w1

/-- The loop of `messageHandler` over the vouchers, followed by `wg.Wait()`.
`pending` holds the goroutines started and not yet finished. The goroutines run
concurrently with the loop; `sched j` says how many of the pending goroutines finish
(oldest first) after the goroutine number `j` was started and before the loop goes on,
and the rest finish during `wg.Wait()`. When a submission fails the handler returns at
once and the goroutines left behind finish afterwards. -/
def submitLoop (api : SettlerAPI σ) (sched : Nat → Nat) (ch : Address) :
    Nat → List (SignedVoucher × Cid) → List SignedVoucher → World σ →
      HandlerResult × World σ
  | _, pending, [], w =>
    match runGoroutines api pending w with
    | (true, w1) => (.panicked, w1)
    | (false, w1) => (.returned true none, w1)
  | j, pending, voucher :: rest, w =>
    match callFlowchVoucherSubmit api ch voucher none none w with
    | (.error e, w1) => (.returned true (some e), (runGoroutines api pending w1).2)
    | (.ok submitMessageCID, w1) =>
      match runGoroutines api ((pending ++ [(voucher, submitMessageCID)]).take (sched j)) w1 with
      | (true, w2) => (.panicked, w2)
      | (false, w2) =>
        submitLoop api sched ch (j + 1)
          ((pending ++ [(voucher, submitMessageCID)]).drop (sched j)) rest w2

/-- The method `paymentChannelSettler.messageHandler`. -/
def messageHandler (api : SettlerAPI σ) (ord : MapOrder) (sched : Nat → Nat)
    (msg : Message) (rec : MessageReceipt) (_ts : TipSet) (_curH : Nat) (w : World σ) :
    HandlerResult × World σ :=
  if rec.ExitCode ≠ 0 then (.returned true none, w)
  else
    match BestSpendableByLane api msg.To w with
    | (.error e, w1) => (.returned true (some e), w1)
    | (.ok bestByLane, w1) =>
      submitLoop api sched msg.To 0 [] ((ord.order bestByLane).map Prod.snd) w1

/-! ## Reading the trace -/

/-- The error a reply carries, if any. -/
def Reply.failure? : Reply → Option Err
  | .addrs (.error e) => some e
  | .status (.error e) => some e
  | .spendable (.error e) => some e
  | .vouchers (.error e) => some e
  | .msgCid (.error e) => some e
  | .waited r => r.err
  | _ => none

/-- The message id and confidence of a `StateWaitMsg` call. -/
def Event.waited? : Event → Option (Cid × Nat)
  | ⟨.StateWaitMsg c confidence, _⟩ => some (c, confidence)
  | _ => none

/-! ## Concrete nodes used to evaluate the code -/

/-- A voucher of channel 7 with the given lane, nonce and amount. -/
def voucherOf (lane nonce : Nat) (amt : Int) : SignedVoucher :=
  { ChannelAddr := 7, Lane := lane, Nonce := nonce, Amount := amt, MinSettleHeight := 0,
    Merges := [], Signature := none }

/-- A node that tracks channels 7 (inbound) and 8 (outbound), stores three vouchers on two
lanes of channel 7, accepts every submission and confirms every message. Its state counts
the calls made. -/
def goodNode : SettlerAPI Nat :=
  { FlowchList := fun s => (.ok [7, 8], s + 1)
    FlowchStatus := fun a s =>
      (.ok ⟨0, if a = 7 then PCHInbound else PCHOutbound⟩, s + 1)
    FlowchVoucherCheckSpendable := fun _ _ _ _ s => (.ok true, s + 1)
    FlowchVoucherList := fun _ s =>
      (.ok [voucherOf 0 1 10, voucherOf 1 1 5, voucherOf 0 2 20], s + 1)
    FlowchVoucherSubmit := fun _ v _ _ s => (.ok (100 + v.Lane), s + 1)
    StateWaitMsg := fun c _ s => (⟨some ⟨c, ⟨0, [], 0⟩, 1⟩, none⟩, s + 1) }

/-- A node whose channel list cannot be read. -/
def listFailsNode : SettlerAPI Nat :=
  { goodNode with FlowchList := fun s => (.error "store closed", s + 1) }

/-- A node on which waiting for a message fails: the wait hands back an error and no
lookup. -/
def waitFailsNode : SettlerAPI Nat :=
  { goodNode with StateWaitMsg := fun _ _ s => (⟨none, some "wait failed"⟩, s + 1) }

/-- The world before any call. -/
def freshWorld : World Nat := ⟨0, [], []⟩

/-- A map order that visits the entries as stored. -/
def storedOrder : MapOrder := ⟨id, fun _ => List.Perm.refl _⟩

/-- A map order that visits the entries from the last stored to the first. -/
def reverseOrder : MapOrder := ⟨List.reverse, fun m => List.reverse_perm m⟩

/-- A settle message for channel 7. -/
def settleMsg : Message := { To := 7, From := 1, Method := Methods.Settle, Params := [] }

/-- A receipt with exit code 0. -/
def okReceipt : MessageReceipt := { ExitCode := 0, Return := [], GasUsed := 0 }

/-- A receipt with a non-zero exit code. -/
def failedReceipt : MessageReceipt := { ExitCode := 16, Return := [], GasUsed := 0 }

/-- A tipset at height 10. -/
def someTipSet : TipSet := { height := 10, cids := [] }

/-- A node whose voucher store cannot be read. -/
def voucherListFailsNode : SettlerAPI Nat :=
  { goodNode with FlowchVoucherList := fun _ s => (.error "store closed", s + 1) }

/-! ## The voucher tooling (`cli/flowch.go`) -/

/-- The conversion `byte(x)` of an unsigned integer: the low eight bits. -/
def byteOf (x : Nat) : Byte := ⟨x % 256, Nat.mod_lt x (by decide)⟩

/-- The alphabet of `base64.RawURLEncoding` (the library constant `encodeURL`). -/
def encodeURL : List Char :=
  "ABCDEFGHIJKLMNOPQRSTUVWXYZabcdefghijklmnopqrstuvwxyz0123456789-_".toList

/-- The character that stands for a six-bit value. -/
def encodeChar (n : Nat) : Char := encodeURL.getD n 'A'

/-- The six-bit value a character stands for, if it is in the alphabet. -/
def decodeChar (c : Char) : Option Nat :=
  let i := encodeURL.indexOf c
  if i < 64 then some i else none

/-- The six-bit values of `Encoding.Encode` without padding: three bytes give four values,
a rest of two bytes gives three and a rest of one byte gives two. -/
def encodeQuanta : Bytes → List Nat
  | a :: b :: c :: rest =>
    let val := a.val * 65536 + b.val * 256 + c.val
    (val / 262144 % 64) :: (val / 4096 % 64) :: (val / 64 % 64) :: (val % 64) ::
      encodeQuanta rest
  | [a, b] =>
    let val := a.val * 65536 + b.val * 256
    [val / 262144 % 64, val / 4096 % 64, val / 64 % 64]
  | [a] =>
    let val := a.val * 65536
    [val / 262144 % 64, val / 4096 % 64]
  | [] => []

/-- The bytes `Encoding.Decode` gives for six-bit values without padding: four values give
three bytes, a rest of three values gives two bytes, a rest of two gives one, and a rest
of one value is corrupt input. -/
def decodeQuanta : List Nat → Except Err Bytes
  | s0 :: s1 :: s2 :: s3 :: rest =>
    let val := s0 * 262144 + s1 * 4096 + s2 * 64 + s3
    match decodeQuanta rest with
    | .error e => .error e
    | .ok out => .ok (byteOf (val / 65536) :: byteOf (val / 256) :: byteOf val :: out)
  | [s0, s1, s2] =>
    let val := s0 * 262144 + s1 * 4096 + s2 * 64
    .ok [byteOf (val / 65536), byteOf (val / 256)]
  | [s0, s1] =>
    let val := s0 * 262144 + s1 * 4096
    .ok [byteOf (val / 65536)]
  | [_] => .error "illegal base64 data"
  | [] => .ok []

/-- The six-bit values of a run of characters; a character outside the alphabet is corrupt
input. -/
def decodeChars : List Char → Except Err (List Nat)
  | [] => .ok []
  | c :: cs =>
    match decodeChar c with
    | none => .error "illegal base64 data"
    | some n =>
      match decodeChars cs with
      | .error e => .error e
      | .ok ns => .ok (n :: ns)

/-- The library function `base64.RawURLEncoding.EncodeToString`. -/
def EncodeToString (src : Bytes) : String :=
  String.mk ((encodeQuanta src).map encodeChar)

/-- The library function `base64.RawURLEncoding.DecodeString`; the decoder skips carriage
returns and line feeds. -/
def DecodeString (s : String) : Except Err Bytes :=
  match decodeChars (s.data.filter (fun c => c ≠ '\r' ∧ c ≠ '\n')) with
  | .error e => .error e
  | .ok ns => decodeQuanta ns

/-- The CBOR serialisation of vouchers (`MarshalCBOR`, `UnmarshalCBOR`). It is generated
code of a library outside the repository, so it is a parameter of the model. -/
structure VoucherCodec where
  MarshalCBOR : SignedVoucher → Except Err Bytes
  UnmarshalCBOR : Bytes → Except Err SignedVoucher

/-- The function `FlowEncodedString`. -/
def FlowEncodedString (codec : VoucherCodec) (sv : SignedVoucher) : Except Err String :=
  match codec.MarshalCBOR sv with
  | .error e => .error e
  | .ok buf => .ok (EncodeToString buf)

/-- Modelled from the spec: the function `flowch.DecodeSignedVoucher`, whose source is
missing. It reads a voucher from its text form: the text is decoded with the
unpadded URL-safe base64 encoding and the bytes are decoded as the binary form of a
voucher. -/
def DecodeSignedVoucher (codec : VoucherCodec) (s : String) : Except Err SignedVoucher :=
  match DecodeString s with
  | .error e => .error e
  | .ok data => codec.UnmarshalCBOR data

/-- The comparison that `flowsortVouchers` hands to `sort.Slice`. -/
def voucherLess (a b : SignedVoucher) : Bool :=
  if a.Lane = b.Lane then decide (a.Nonce < b.Nonce) else decide (a.Lane < b.Lane)

/-- Move `x` to the left past the elements it is less than: `sorted` is the part of the
slice already in order, last element first. -/
def insertLeft {α : Type} (less : α → α → Bool) (x : α) : List α → List α
  | [] => [x]
  | y :: ys => if less x y then y :: insertLeft less x ys else x :: y :: ys

/-- The library function `sort.Slice`, as the insertion sort the library runs on short
slices: each element in turn is moved left while it is less than its left neighbour. The
sorted part is kept last element first. -/
def sortSlice {α : Type} (less : α → α → Bool) (data : List α) : List α :=
  (data.foldl (fun sorted x => insertLeft less x sorted) []).reverse

/-- The function `flowsortVouchers`. -/
def flowsortVouchers (vouchers : List SignedVoucher) : List SignedVoucher :=
  sortSlice voucherLess vouchers

/-- The text `fmt.Fprintf(w, "Lane %d, Nonce %d: %s", v.Lane, v.Nonce, v.Amount.String())`
writes. -/
def voucherText (v : SignedVoucher) : String :=
  "Lane " ++ toString v.Lane ++ ", Nonce " ++ toString v.Nonce ++ ": " ++ toString v.Amount

/-- The function `flowoutputVoucher`: the writer is the list of the pieces written so far. -/
def flowoutputVoucher (codec : VoucherCodec) (w : List String) (v : SignedVoucher)
    (exportEnc : Bool) : Option Err × List String :=
  if exportEnc then
    match FlowEncodedString codec v with
    | .error e => (some e, w)
    | .ok enc => (none, w ++ [voucherText v, "; " ++ enc, "\n"])
  else (none, w ++ [voucherText v, "\n"])

/-- The loop of the two printing commands over the sorted vouchers. -/
def printVouchers (codec : VoucherCodec) (exportEnc : Bool) :
    List SignedVoucher → List String → Option Err × List String
  | [], w => (none, w)
  | v :: rest, w =>
    match flowoutputVoucher codec w v exportEnc with
    | (some e, w1) => (some e, w1)
    | (none, w1) => printVouchers codec exportEnc rest w1

/-- The action of `flowchVoucherListCmd` once the channel address is parsed and the node
API is obtained: the returned error and the writer, and the world after the call. -/
def flowchVoucherListCmd (api : SettlerAPI σ) (codec : VoucherCodec) (ch : Address)
    (exportEnc : Bool) (out : List String) (w : World σ) :
    (Option Err × List String) × World σ :=
  match callFlowchVoucherList api ch w with
  | (.error e, w1) => ((some e, out), w1)
  | (.ok vouchers, w1) => (printVouchers codec exportEnc (flowsortVouchers vouchers) out, w1)

/-- The action of `flowchVoucherBestSpendableCmd` once the channel address is parsed and
the node API is obtained. -/
def flowchVoucherBestSpendableCmd (api : SettlerAPI σ) (codec : VoucherCodec) (ord : MapOrder)
    (ch : Address) (exportEnc : Bool) (out : List String) (w : World σ) :
    (Option Err × List String) × World σ :=
  match BestSpendableByLane api ch w with
  | (.error e, w1) => ((some e, out), w1)
  | (.ok vouchersByLane, w1) =>
    (printVouchers codec exportEnc
      (flowsortVouchers ((ord.order vouchersByLane).map Prod.snd)) out, w1)

/-- A two-byte stand-in for the voucher serialisation, used to evaluate the code: it keeps
the low bytes of lane and nonce. -/
def laneNonceCodec : VoucherCodec :=
  { MarshalCBOR := fun v => .ok [byteOf v.Lane, byteOf v.Nonce]
    UnmarshalCBOR := fun b =>
      match b with
      | [l, n] => .ok (voucherOf l.val n.val 0)
      | _ => .error "unexpected length" }

/-! ## The binary form of a voucher

The wire format of a voucher is a canonical binary encoding of its fields, written by
`MarshalCBOR` and read by `UnmarshalCBOR`. The two methods are generated code of a library
outside the repository. They are modelled here as the CBOR encoding of the voucher as an
array of its seven fields, with the shortest head for every item. -/

/-- The `k` low bytes of a number, the most significant first. -/
def beBytes : Nat → Nat → Bytes
  | 0, _ => []
  | k + 1, n => byteOf (n / 256 ^ k) :: beBytes k n

/-- The number that bytes write, the most significant first. -/
def beNat (b : Bytes) : Nat :=
  b.foldl (fun acc x => acc * 256 + x.val) 0

/-- Modelled from the spec: the head of a CBOR item: the major type in the top three bits of
the first byte and the argument in the shortest of the five forms. -/
def cborHead (major n : Nat) : Bytes :=
  if n < 24 then [byteOf (major * 32 + n)]
  else if n < 256 then byteOf (major * 32 + 24) :: beBytes 1 n
  else if n < 65536 then byteOf (major * 32 + 25) :: beBytes 2 n
  else if n < 4294967296 then byteOf (major * 32 + 26) :: beBytes 4 n
  else byteOf (major * 32 + 27) :: beBytes 8 n

/-- The argument of a head that is written in `k` bytes after the first byte; an argument
below `least` has a shorter form and is refused. -/
def readArg (k least major : Nat) (rest : Bytes) : Except Err (Nat × Nat × Bytes) :=
  if rest.length < k then .error "unexpected EOF"
  else if beNat (rest.take k) < least then .error "cbor input was not canonical"
  else .ok (major, beNat (rest.take k), rest.drop k)

/-- Modelled from the spec: the reader of the head of a CBOR item: the major type, the
argument and the bytes after the head. -/
def readHead : Bytes → Except Err (Nat × Nat × Bytes)
  | [] => .error "unexpected EOF"
  | first :: rest =>
    if first.val % 32 < 24 then .ok (first.val / 32, first.val % 32, rest)
    else if first.val % 32 = 24 then readArg 1 24 (first.val / 32) rest
    else if first.val % 32 = 25 then readArg 2 256 (first.val / 32) rest
    else if first.val % 32 = 26 then readArg 4 65536 (first.val / 32) rest
    else if first.val % 32 = 27 then readArg 8 4294967296 (first.val / 32) rest
    else .error "invalid header"

/-- An unsigned integer field: an item of major type 0. -/
def readUint (b : Bytes) : Except Err (Nat × Bytes) :=
  match readHead b with
  | .error e => .error e
  | .ok (major, n, rest) =>
    if major ≠ 0 then .error "wrong type for uint64 field" else .ok (n, rest)

/-- A byte string: an item of major type 2 followed by as many bytes as its argument
says. -/
def cborBytes (b : Bytes) : Bytes :=
  cborHead 2 b.length ++ b

/-- The reader of a byte string of at most `most` bytes. -/
def readBytes (most : Nat) (b : Bytes) : Except Err (Bytes × Bytes) :=
  match readHead b with
  | .error e => .error e
  | .ok (major, n, rest) =>
    if major ≠ 2 then .error "expected byte array"
    else if most < n then .error "byte array too large"
    else if rest.length < n then .error "unexpected EOF"
    else .ok (rest.take n, rest.drop n)

/-- The number of bytes of a number, none for 0; numbers of more than `fuel` bytes count as
of `fuel` bytes. -/
def byteLen : Nat → Nat → Nat
  | 0, _ => 0
  | fuel + 1, n => if n = 0 then 0 else byteLen fuel (n / 256) + 1

/-- The longest serialised big integer (`BigIntMaxSerializedLen`). -/
def BigIntMaxSerializedLen : Nat := 128

/-- Modelled from the spec: the bytes of a big integer: none for 0, otherwise a sign byte, 0
for a positive and 1 for a negative number, and the bytes of the magnitude, the most
significant first. -/
def bigIntBytes (a : Int) : Bytes :=
  if a = 0 then []
  else
    (if 0 < a then byteOf 0 else byteOf 1) ::
      beBytes (byteLen BigIntMaxSerializedLen a.natAbs) a.natAbs

/-- Modelled from the spec: the big integer that bytes write. -/
def readBigInt : Bytes → Except Err Int
  | [] => .ok 0
  | sign :: magnitude =>
    if sign.val = 0 then .ok (beNat magnitude)
    else if sign.val = 1 then .ok (-(beNat magnitude : Int))
    else .error "big int prefix should be either 0 or 1"

/-- Modelled from the spec: the variable-length form of an unsigned integer
(`binary.PutUvarint`): seven bits in a byte, the least significant first, and the top bit
set in every byte but the last. -/
def uvarint : Nat → Nat → Bytes
  | 0, x => [byteOf x]
  | fuel + 1, x =>
    if x < 128 then [byteOf x] else byteOf (x % 128 + 128) :: uvarint fuel (x / 128)

/-- Modelled from the spec: the reader of the variable-length form, which has to end with
the bytes and to be the shortest form. -/
def fromUvarint : Bytes → Except Err Nat
  | [] => .error "varints malformed, could not reach the end"
  | b :: rest =>
    if b.val < 128 then
      match rest with
      | [] => .ok b.val
      | _ :: _ => .error "invalid address payload"
    else
      match fromUvarint rest with
      | .error e => .error e
      | .ok m => if m = 0 then .error "varint not minimally encoded" else .ok (b.val - 128 + 128 * m)

/-- Modelled from the spec: the bytes of an address. The model has id addresses only: the
protocol byte 0 and the id in the variable-length form. -/
def addressBytes (a : Address) : Bytes :=
  byteOf 0 :: uvarint 9 a

/-- Modelled from the spec: the address that bytes write. -/
def readAddress : Bytes → Except Err Address
  | [] => .error "invalid address length"
  | protocol :: payload =>
    if protocol.val ≠ 0 then .error "unknown address protocol"
    else
      match fromUvarint payload with
      | .error e => .error e
      | .ok id =>
        if 2 ^ 63 ≤ id then .error "id addresses must be less than 2^63" else .ok id

/-- The longest array that the generated code writes or reads (`cbg.MaxLength`). -/
def MaxLength : Nat := 8192

/-- The longest serialised signature (`crypto.SignatureMaxLength`). -/
def SignatureMaxLength : Nat := 200

/-- The longest serialised address. -/
def MaxAddressLength : Nat := 64

/-- The byte of the CBOR item null, which stands for a nil pointer. -/
def CborNull : Byte := byteOf 246

/-- Modelled from the spec: the binary form of a merge instruction: an array of the lane
and the nonce. -/
def marshalMerge (m : Merge) : Bytes :=
  cborHead 4 2 ++ cborHead 0 m.Lane ++ cborHead 0 m.Nonce

/-- Modelled from the spec: the reader of a merge instruction. -/
def readMerge (b : Bytes) : Except Err (Merge × Bytes) :=
  match readHead b with
  | .error e => .error e
  | .ok (major, n, rest) =>
    if major ≠ 4 then .error "cbor input should be of type array"
    else if n ≠ 2 then .error "cbor input had wrong number of fields"
    else
      match readUint rest with
      | .error e => .error e
      | .ok (lane, rest1) =>
        match readUint rest1 with
        | .error e => .error e
        | .ok (nonce, rest2) => .ok ({ Lane := lane, Nonce := nonce }, rest2)

/-- The reader of `k` merge instructions in a row. -/
def readMerges : Nat → Bytes → Except Err (List Merge × Bytes)
  | 0, b => .ok ([], b)
  | k + 1, b =>
    match readMerge b with
    | .error e => .error e
    | .ok (m, rest) =>
      match readMerges k rest with
      | .error e => .error e
      | .ok (ms, rest1) => .ok (m :: ms, rest1)

/-- Modelled from the spec: the binary form of the signature: null for no signature,
otherwise the byte string of the signature, which starts with the byte of its type. -/
def marshalSignature : Option Bytes → Bytes
  | none => [CborNull]
  | some sig => cborBytes sig

/-- Modelled from the spec: the reader of the signature: the type is 1 (secp256k1) or 2
(BLS). -/
def readSignature : Bytes → Except Err (Option Bytes × Bytes)
  | [] => .error "unexpected EOF"
  | first :: rest =>
    if first = CborNull then .ok (none, rest)
    else
      match readBytes SignatureMaxLength (first :: rest) with
      | .error e => .error e
      | .ok ([], _) => .error "string empty"
      | .ok (typ :: data, rest1) =>
        if typ.val = 1 ∨ typ.val = 2 then .ok (some (typ :: data), rest1)
        else .error "invalid signature type in cbor input"

/-- Modelled from the spec: the reader of the minimum settle height, a signed integer; the
model has no negative heights and refuses them. -/
def readEpoch (b : Bytes) : Except Err (Nat × Bytes) :=
  match readHead b with
  | .error e => .error e
  | .ok (major, n, rest) =>
    if major = 0 then
      if 2 ^ 63 ≤ n then .error "int64 positive overflow" else .ok (n, rest)
    else if major = 1 then .error "negative height"
    else .error "wrong type for int64 field"

/-- Modelled from the spec: the method `MarshalCBOR` of a voucher, whose source is missing:
the array of the seven fields. It fails for an amount of more than
`BigIntMaxSerializedLen` bytes and for more than `MaxLength` merge instructions. -/
def MarshalCBOR (v : SignedVoucher) : Except Err Bytes :=
  if BigIntMaxSerializedLen < (bigIntBytes v.Amount).length then
    .error "big integer too long"
  else if MaxLength < v.Merges.length then
    .error "Slice value in field t.Merges was too long"
  else
    .ok (cborHead 4 7 ++ cborBytes (addressBytes v.ChannelAddr) ++ cborHead 0 v.Lane ++
      cborHead 0 v.Nonce ++ cborBytes (bigIntBytes v.Amount) ++
      cborHead 0 v.MinSettleHeight ++ cborHead 4 v.Merges.length ++
      v.Merges.flatMap marshalMerge ++ marshalSignature v.Signature)

/-- The reader of the head of the array of merge instructions and of the instructions. -/
def readMergeArray (b : Bytes) : Except Err (List Merge × Bytes) :=
  match readHead b with
  | .error e => .error e
  | .ok (major, n, rest) =>
    if major ≠ 4 then .error "expected cbor array"
    else if MaxLength < n then .error "t.Merges: array too large"
    else readMerges n rest

/-- The reader of the channel address: a byte string that holds the bytes of the address. -/
def readAddressField (b : Bytes) : Except Err (Address × Bytes) :=
  match readBytes MaxAddressLength b with
  | .error e => .error e
  | .ok (addr, rest) =>
    match readAddress addr with
    | .error e => .error e
    | .ok channelAddr => .ok (channelAddr, rest)

/-- The reader of the amount: a byte string that holds the bytes of the big integer. -/
def readAmountField (b : Bytes) : Except Err (Int × Bytes) :=
  match readBytes BigIntMaxSerializedLen b with
  | .error e => .error e
  | .ok (amt, rest) =>
    match readBigInt amt with
    | .error e => .error e
    | .ok amount => .ok (amount, rest)

/-- Modelled from the spec: the method `UnmarshalCBOR` of a voucher, whose source is
missing: the fields are read one after the other; bytes after the voucher are left
unread. -/
def UnmarshalCBOR (b : Bytes) : Except Err SignedVoucher :=
  match readHead b with
  | .error e => .error e
  | .ok (major, n, rest) =>
    if major ≠ 4 then .error "cbor input should be of type array"
    else if n ≠ 7 then .error "cbor input had wrong number of fields"
    else
      match readAddressField rest with
      | .error e => .error e
      | .ok (channelAddr, rest1) =>
      match readUint rest1 with
      | .error e => .error e
      | .ok (lane, rest2) =>
      match readUint rest2 with
      | .error e => .error e
      | .ok (nonce, rest3) =>
      match readAmountField rest3 with
      | .error e => .error e
      | .ok (amount, rest4) =>
      match readEpoch rest4 with
      | .error e => .error e
      | .ok (minSettleHeight, rest5) =>
      match readMergeArray rest5 with
      | .error e => .error e
      | .ok (merges, rest6) =>
      match readSignature rest6 with
      | .error e => .error e
      | .ok (signature, _) =>
        .ok
          { ChannelAddr := channelAddr, Lane := lane, Nonce := nonce, Amount := amount,
            MinSettleHeight := minSettleHeight, Merges := merges, Signature := signature }

/-- The serialisation of vouchers as modelled above. -/
def cborCodec : VoucherCodec :=
  { MarshalCBOR := MarshalCBOR, UnmarshalCBOR := UnmarshalCBOR }

/-- A signature that has its type byte, 1 or 2, and at most `SignatureMaxLength` bytes in
all; no signature counts as one. -/
def validSignature : Option Bytes → Bool
  | none => true
  | some [] => false
  | some (typ :: data) =>
    decide ((typ :: data).length ≤ SignatureMaxLength) && (typ.val == 1 || typ.val == 2)

/-- A validly constructed voucher: every field holds a value of its type and the voucher
can be serialised. The address is an id below 2^63, lane and nonce are unsigned 64-bit
numbers, the amount has at most `BigIntMaxSerializedLen` bytes with its sign, the height is
a non-negative signed 64-bit number, there are at most `MaxLength` merge instructions, of
unsigned 64-bit numbers, and the signature, if there is one, is valid. -/
def SignedVoucher.Valid (v : SignedVoucher) : Prop :=
  v.ChannelAddr < 2 ^ 63 ∧ v.Lane < 2 ^ 64 ∧ v.Nonce < 2 ^ 64 ∧
  (bigIntBytes v.Amount).length ≤ BigIntMaxSerializedLen ∧ v.MinSettleHeight < 2 ^ 63 ∧
  v.Merges.length ≤ MaxLength ∧ (∀ m ∈ v.Merges, m.Lane < 2 ^ 64 ∧ m.Nonce < 2 ^ 64) ∧
  validSignature v.Signature = true

instance (v : SignedVoucher) : Decidable v.Valid := by
  unfold SignedVoucher.Valid
  infer_instance

/-- A signed voucher of channel 1000 with two merge instructions. -/
def signedVoucher : SignedVoucher :=
  { ChannelAddr := 1000, Lane := 3, Nonce := 300, Amount := 70000, MinSettleHeight := 25,
    Merges := [⟨1, 2⟩, ⟨2, 65536⟩], Signature := some [1, 170, 187, 204] }

/-! ## The channel commands (`cli/flowch.go`) -/

/-- The result `api.ChannelInfo` of `FlowchGet`: the channel address and the id of the message
to wait for. -/
structure ChannelInfo where
  Channel : Address
  WaitSentinel : Cid
deriving DecidableEq, Repr

/-- The result `api.VoucherCreateResult` of `FlowchVoucherCreate`: the voucher, nil when the
funds do not suffice, and the shortfall. -/
structure VoucherCreateResult where
  Voucher : Option SignedVoucher
  Shortfall : Int
deriving DecidableEq, Repr

/-- The snapshot `api.ChannelAvailableFunds`; the channel address and the wait sentinel are
pointers that may be nil. -/
structure ChannelAvailableFunds where
  Channel : Option Address
  From : Address
  To : Address
  ConfirmedAmt : Int
  PendingAmt : Int
  PendingWaitSentinel : Option Cid
  QueuedAmt : Int
  VoucherReedeemedAmt : Int
deriving DecidableEq, Repr

/-- The methods of the full node API that the channel commands call, over a node state `σ`;
the methods of `settlerAPI` are among them. -/
structure FullNodeAPI (σ : Type) extends SettlerAPI σ where
  FlowchGet : Address → Address → Int → σ → Except Err ChannelInfo × σ
  FlowchGetWaitReady : Cid → σ → Except Err Address × σ
  ClientRetrieveTryRestartInsufficientFunds : Address → σ → Option Err × σ
  FlowchSettle : Address → σ → Except Err Cid × σ
  FlowchCollect : Address → σ → Except Err Cid × σ
  FlowchVoucherCreate : Address → Int → Nat → σ → Except Err VoucherCreateResult × σ

/-- How the action of a command ends: it returns an error value (nil is `none`), or it
dereferences a nil pointer. -/
inductive CmdResult where
  | returned (err : Option Err)
  | panicked
deriving DecidableEq, Repr

/-- The action of `flowchAddFundsCmd` once the arguments are parsed and the node API is
obtained: how it ends, the writer, and the node state. -/
def flowchAddFundsCmd (api : FullNodeAPI σ) (sender target : Address) (amt : Int)
    (restartRetrievals : Bool) (out : List String) (s : σ) :
    (Option Err × List String) × σ :=
  match api.FlowchGet sender target amt s with
  | (.error e, s1) => ((some e, out), s1)
  | (.ok info, s1) =>
    match api.FlowchGetWaitReady info.WaitSentinel s1 with
    | (.error e, s2) => ((some e, out), s2)
    | (.ok chAddr, s2) =>
      if restartRetrievals then
        match api.ClientRetrieveTryRestartInsufficientFunds chAddr s2 with
        | (err, s3) => ((err, out ++ [toString chAddr ++ "\n"]), s3)
      else ((none, out ++ [toString chAddr ++ "\n"]), s2)

/-- The action of `flowchSettleCmd` once the channel address is parsed and the node API is
obtained. -/
def flowchSettleCmd (api : FullNodeAPI σ) (ch : Address) (out : List String) (s : σ) :
    (CmdResult × List String) × σ :=
  match api.FlowchSettle ch s with
  | (.error e, s1) => ((.returned (some e), out), s1)
  | (.ok mcid, s1) =>
    match api.StateWaitMsg mcid MessageConfidence s1 with
    | (r, s2) =>
      match r.err with
      | some _ => ((.returned none, out), s2)
      | none =>
        match r.lookup with
        | none => ((.panicked, out), s2)
        | some mwait =>
          if mwait.Receipt.ExitCode ≠ 0 then
            ((.returned (some ("settle message execution failed (exit code " ++
              toString mwait.Receipt.ExitCode ++ ")")), out), s2)
          else ((.returned none, out ++ ["Settled channel " ++ toString ch ++ "\n"]), s2)

/-- The action of `flowchCloseCmd` (the command `collect`) once the channel address is parsed
and the node API is obtained. -/
def flowchCloseCmd (api : FullNodeAPI σ) (ch : Address) (out : List String) (s : σ) :
    (CmdResult × List String) × σ :=
  match api.FlowchCollect ch s with
  | (.error e, s1) => ((.returned (some e), out), s1)
  | (.ok mcid, s1) =>
    match api.StateWaitMsg mcid MessageConfidence s1 with
    | (r, s2) =>
      match r.err with
      | some _ => ((.returned none, out), s2)
      | none =>
        match r.lookup with
        | none => ((.panicked, out), s2)
        | some mwait =>
          if mwait.Receipt.ExitCode ≠ 0 then
            ((.returned (some ("collect message execution failed (exit code " ++
              toString mwait.Receipt.ExitCode ++ ")")), out), s2)
          else
            ((.returned none, out ++ ["Collected funds for channel " ++ toString ch ++ "\n"]),
              s2)

/-- The action of `flowchVoucherSubmitCmd` once the channel address and the voucher are
parsed and the node API is obtained. -/
def flowchVoucherSubmitCmd (api : FullNodeAPI σ) (ch : Address) (sv : SignedVoucher)
    (out : List String) (s : σ) : (CmdResult × List String) × σ :=
  match api.FlowchVoucherSubmit ch sv none none s with
  | (.error e, s1) => ((.returned (some e), out), s1)
  | (.ok mcid, s1) =>
    match api.StateWaitMsg mcid MessageConfidence s1 with
    | (r, s2) =>
      match r.err with
      | some e => ((.returned (some e), out), s2)
      | none =>
        match r.lookup with
        | none => ((.panicked, out), s2)
        | some mwait =>
          if mwait.Receipt.ExitCode ≠ 0 then
            ((.returned (some ("message execution failed (exit code " ++
              toString mwait.Receipt.ExitCode ++ ")")), out), s2)
          else ((.returned none, out ++ ["channel updated successfully\n"]), s2)

/-- The action of `flowchVoucherCreateCmd` once the arguments are parsed and the node API is
obtained. -/
def flowchVoucherCreateCmd (api : FullNodeAPI σ) (codec : VoucherCodec) (ch : Address)
    (amt : Int) (lane : Nat) (out : List String) (s : σ) :
    (Option Err × List String) × σ :=
  match api.FlowchVoucherCreate ch amt lane s with
  | (.error e, s1) => ((some e, out), s1)
  | (.ok v, s1) =>
    match v.Voucher with
    | none =>
      ((some ("Could not create voucher: insufficient funds in channel, shortfall: " ++
        toString v.Shortfall), out), s1)
    | some voucher =>
      match FlowEncodedString codec voucher with
      | .error e => ((some e, out), s1)
      | .ok enc => ((none, out ++ [enc ++ "\n"]), s1)

/-- The slice `nameValues` that `flowchStatus` builds for a channel that has an address. -/
def statusNameValues (channel : Address) (avail : ChannelAvailableFunds) :
    List (String × String) :=
  [("Channel", toString channel),
   ("From", toString avail.From),
   ("To", toString avail.To),
   ("Confirmed Amt", toString avail.ConfirmedAmt),
   ("Pending Amt", toString avail.PendingAmt),
   ("Queued Amt", toString avail.QueuedAmt),
   ("Voucher Redeemed Amt", toString avail.VoucherReedeemedAmt)] ++
  (match avail.PendingWaitSentinel with
   | some sentinel => [("Add Funds Wait Sentinel", toString sentinel)]
   | none => [])

/-- One write to the writer of `flowchStatus`: a call of `fmt.Fprint` or `fmt.Fprintf` with
its format and the texts of its arguments, or the text `formatNameValues(nameValues)`. The
helper `formatNameValues` lays out name and value pairs and is defined in a missing file, so
its text is kept as the pairs it is given. -/
inductive Piece where
  | printf (format : String) (args : List String)
  | table (nameValues : List (String × String))
deriving DecidableEq, Repr

/-- The function `flowchStatus`: the writer is the list of the writes made so far. -/
def flowchStatus (writer : List Piece) (avail : ChannelAvailableFunds) : List Piece :=
  match avail.Channel with
  | none =>
    match avail.PendingWaitSentinel with
    | some sentinel =>
      writer ++ [.printf "Creating channel\n" [],
        .printf "  From:          %s\n" [toString avail.From],
        .printf "  To:            %s\n" [toString avail.To],
        .printf "  Pending Amt:   %d\n" [toString avail.PendingAmt],
        .printf "  Wait Sentinel: %s\n" [toString sentinel]]
    | none =>
      writer ++ [.printf "Channel does not exist\n" [],
        .printf "  From: %s\n" [toString avail.From],
        .printf "  To:   %s\n" [toString avail.To]]
  | some channel =>
    writer ++
      [match avail.PendingWaitSentinel with
        | some _ => .printf "Adding Funds to channel\n" []
        | none => .printf "Channel exists\n" [],
       .table (statusNameValues channel avail)]

/-- The four headers of `flowchStatus`. -/
def statusHeaders : List Piece :=
  [.printf "Channel does not exist\n" [], .printf "Creating channel\n" [],
   .printf "Channel exists\n" [], .printf "Adding Funds to channel\n" []]

/-- The name a format lists: the text between the leading blanks and the first colon, if
the format has a colon. -/
def formatLabel (format : String) : Option String :=
  let body := format.data.dropWhile (fun c => c = ' ')
  if ':' ∈ body then some (String.mk (body.takeWhile (fun c => c ≠ ':'))) else none

/-- The names a write lists. -/
def Piece.labels : Piece → List String
  | .printf format _ => (formatLabel format).toList
  | .table nameValues => nameValues.map Prod.fst

/-- The names a run of writes lists. -/
def listedLabels (pieces : List Piece) : List String :=
  pieces.flatMap Piece.labels

/-- A full node that creates channel 7, confirms every message with exit code 0 and creates
the voucher asked for when the amount is at most 100. -/
def cliNode : FullNodeAPI Nat :=
  { goodNode with
    FlowchGet := fun _ _ _ s => (.ok ⟨7, 55⟩, s + 1)
    FlowchGetWaitReady := fun c s => (if c = 55 then .ok 7 else .error "unknown sentinel", s + 1)
    ClientRetrieveTryRestartInsufficientFunds := fun _ s => (none, s + 1)
    FlowchSettle := fun ch s => (.ok (200 + ch), s + 1)
    FlowchCollect := fun ch s => (.ok (300 + ch), s + 1)
    FlowchVoucherCreate := fun _ amt lane s =>
      (if amt ≤ 100 then .ok ⟨some (voucherOf lane 1 amt), 0⟩ else .ok ⟨none, amt - 100⟩,
        s + 1) }

/-- A full node on which waiting for a message fails: the wait hands back an error and no
lookup. -/
def cliWaitFailsNode : FullNodeAPI Nat :=
  { cliNode with StateWaitMsg := fun _ _ s => (⟨none, some "wait failed"⟩, s + 1) }

/-- A full node on which every message is executed with exit code 16. -/
def cliExitCodeNode : FullNodeAPI Nat :=
  { cliNode with StateWaitMsg := fun c _ s => (⟨some ⟨c, ⟨16, [], 0⟩, 1⟩, none⟩, s + 1) }

/-- A full node on which the confirmation of the channel message fails. -/
def cliNotReadyNode : FullNodeAPI Nat :=
  { cliNode with FlowchGetWaitReady := fun _ s => (.error "context deadline exceeded", s + 1) }

/-! ## The channel manager, from the spec -/

/-- Modelled from the spec: the state of one lane, whose declaration is missing: the lane
id, the current nonce, the best voucher if any, and the vouchers by nonce. -/
structure LaneState where
  LaneID : Nat
  CurrentNonce : Nat
  BestVoucher : Option SignedVoucher
  History : List SignedVoucher
deriving DecidableEq, Repr

/-- Modelled from the spec: the channel record, whose declaration is missing. The lanes are
the entries of the map from lane id to lane state. -/
structure FlowChannel where
  ChannelAddress : Option Address
  From : Address
  To : Address
  ConfirmedAmount : Int
  PendingAmount : Int
  QueuedAmount : Int
  NextLaneID : Nat
  Lanes : List LaneState
  PendingWaitSentinel : Option Cid
deriving DecidableEq, Repr

/-- Modelled from the spec: the lookup of a lane in the missing lane map. -/
def findLane : List LaneState → Nat → Option LaneState
  | [], _ => none
  | x :: rest, lane => if x.LaneID = lane then some x else findLane rest lane

/-- Modelled from the spec: the update of a lane in the missing lane map. -/
def setLane : List LaneState → LaneState → List LaneState
  | [], ls => [ls]
  | x :: rest, ls => if x.LaneID = ls.LaneID then ls :: rest else x :: setLane rest ls

/-- Modelled from the spec: the state of a lane of a channel record (the missing manager
keeps it in the record); a lane with no entry yet has nonce 0 and no voucher. -/
def FlowChannel.lane (ch : FlowChannel) (lane : Nat) : LaneState :=
  (findLane ch.Lanes lane).getD ⟨lane, 0, none, []⟩

/-- Modelled from the spec: the amount of the best voucher of a lane in the missing manager,
0 when the lane has none. -/
def LaneState.bestAmount (ls : LaneState) : Int :=
  match ls.BestVoucher with
  | none => 0
  | some v => v.Amount

/-- Modelled from the spec: in the missing manager, the sum of the best-voucher amounts
over all lanes of the channel. -/
def FlowChannel.spendableTotal (ch : FlowChannel) : Int :=
  (ch.Lanes.map LaneState.bestAmount).sum

/-- Modelled from the spec: in the missing manager, the sum of the best-voucher amounts
over all lanes except the one being updated. -/
def FlowChannel.otherLanesTotal (ch : FlowChannel) (lane : Nat) : Int :=
  ((ch.Lanes.filter (fun ls => ls.LaneID ≠ lane)).map LaneState.bestAmount).sum

/-- Modelled from the spec: the funds the missing `CreateVoucher` can back on a lane:
Confirmed + Pending minus the best-voucher amounts of all other lanes. -/
def FlowChannel.available (ch : FlowChannel) (lane : Nat) : Int :=
  ch.ConfirmedAmount + ch.PendingAmount - ch.otherLanesTotal lane

/-- Modelled from the spec: what the missing manager does to a lane when it stores a
voucher: the voucher becomes the best voucher of the lane, its nonce the current nonce,
and it is appended to the history. -/
def LaneState.store (ls : LaneState) (sv : SignedVoucher) : LaneState :=
  { ls with CurrentNonce := sv.Nonce, BestVoucher := some sv, History := ls.History ++ [sv] }

/-- Modelled from the spec: the result of the missing `CreateVoucher`, a voucher or a
shortfall. -/
inductive CreateResult where
  | voucher (sv : SignedVoucher)
  | shortfall (amount : Int)
deriving DecidableEq, Repr

/-- Modelled from the spec: the manager operation `CreateVoucher(ref, lane, amount)`, whose
source is missing. The amount is the new cumulative total of the lane. If it exceeds the
available funds the result is the shortfall `amount - available` and the record does not
change. Otherwise the nonce is the current nonce of the lane plus one, the voucher is
signed by the signer, stored as the new best voucher of the lane, appended to its history,
and returned. -/
def CreateVoucher (sign : Address → SignedVoucher → Bytes) (ref : Address)
    (ch : FlowChannel) (lane : Nat) (amount : Int) : CreateResult × FlowChannel :=
  if amount > ch.available lane then (.shortfall (amount - ch.available lane), ch)
  else
    let ls := ch.lane lane
    let unsigned : SignedVoucher :=
      { ChannelAddr := ref, Lane := lane, Nonce := ls.CurrentNonce + 1, Amount := amount,
        MinSettleHeight := 0, Merges := [], Signature := none }
    let sv := { unsigned with Signature := some (sign ch.From unsigned) }
    (.voucher sv, { ch with Lanes := setLane ch.Lanes (ls.store sv) })

/-- Modelled from the spec: the manager operation `CheckValid(voucher)`, whose source is
missing. The check of the signature against the key of the counter-party and the re-read
of the on-chain state belong to external collaborators and are the parameter `verify`; the
nonce must exceed the last accepted nonce of the lane. -/
def CheckValid (verify : SignedVoucher → Option Err) (ch : FlowChannel)
    (voucher : SignedVoucher) : Option Err :=
  match verify voucher with
  | some e => some e
  | none =>
    if voucher.Nonce > (ch.lane voucher.Lane).CurrentNonce then none else some "StaleNonce"

/-- Modelled from the spec: the manager operation `AddVoucher(ref, voucher, proof)`, whose
source is missing. It runs `CheckValid`; if the voucher is valid and its amount is greater
than the amount of the best voucher of the lane, or the lane has no best voucher, it
replaces the best voucher and returns the incremental gain; otherwise it rejects the
voucher and leaves the record unchanged. -/
def AddVoucher (verify : SignedVoucher → Option Err) (ch : FlowChannel)
    (voucher : SignedVoucher) (_proof : Option Bytes) : Except Err Int × FlowChannel :=
  match CheckValid verify ch voucher with
  | some e => (.error e, ch)
  | none =>
    let ls := ch.lane voucher.Lane
    match ls.BestVoucher with
    | none =>
      (.ok voucher.Amount, { ch with Lanes := setLane ch.Lanes (ls.store voucher) })
    | some best =>
      if voucher.Amount > best.Amount then
        (.ok (voucher.Amount - best.Amount),
          { ch with Lanes := setLane ch.Lanes (ls.store voucher) })
      else (.error "NotIncreasing", ch)

/-- A signer that signs with the two bytes 1 and 2. -/
def fixedSigner : Address → SignedVoucher → Bytes := fun _ _ => [1, 2]

/-- A channel record with 100 confirmed and one lane, lane 0, without vouchers. -/
def oneLaneChannel : FlowChannel :=
  { ChannelAddress := some 7, From := 1, To := 2, ConfirmedAmount := 100, PendingAmount := 0,
    QueuedAmount := 0, NextLaneID := 1, Lanes := [⟨0, 0, none, []⟩],
    PendingWaitSentinel := none }

/-- A channel record with 100 confirmed, 20 pending, an empty lane 0 and a best voucher of
30 on lane 1. -/
def twoLaneChannel : FlowChannel :=
  { ChannelAddress := some 7, From := 1, To := 2, ConfirmedAmount := 100, PendingAmount := 20,
    QueuedAmount := 0, NextLaneID := 2,
    Lanes := [⟨0, 0, none, []⟩, ⟨1, 1, some (voucherOf 1 1 30), [voucherOf 1 1 30]⟩],
    PendingWaitSentinel := none }

end Flowch

namespace Blockstore

open Flowch

/-! ## The buffered blockstore (`blockstore/buffered.go`) -/

/-- A block (`block.Block`): its cid and its raw data. -/
structure Block where
  Cid : Cid
  RawData : Bytes
deriving DecidableEq, Repr

/-- The error value `ErrNotFound`, compared by equality. -/
def ErrNotFound : Err := "blockstore: block not found"

/-- Modelled from the spec: the interface `Blockstore`, whose declaration is missing, over a
store state `β`. Reads answer from the state, writes give the error and the new state;
`GetSize` gives the size and the error it returns together, since the buffered store looks
at both. `viewable` says whether the store also implements the interface `Viewer`. -/
structure Store (β : Type) where
  Get : Cid → β → Except Err Block
  Has : Cid → β → Except Err Bool
  GetSize : Cid → β → Int × Option Err
  Put : Block → β → Option Err × β
  PutMany : List Block → β → Option Err × β
  DeleteBlock : Cid → β → Option Err × β
  viewable : Bool

/-- Modelled from the spec: the method `View` of the interface `Viewer`, whose declaration
is missing: the store hands the raw data of the block to the callback and returns what the
callback returns, or returns its own error, without calling the callback, when it cannot
give the block. `calls` lists the data the callback was called on so far. -/
def Store.View {β : Type} (st : Store β) (c : Cid) (callback : Bytes → Option Err)
    (calls : List Bytes) (b : β) : Option Err × List Bytes :=
  match st.Get c b with
  | .error err => (some err, calls)
  | .ok blk => (callback blk.RawData, calls ++ [blk.RawData])

/-- The type `BufferedBlockstore`; a viewer field is `true` when it is not nil. -/
structure BufferedBlockstore (ρ ω : Type) where
  read : Store ρ
  write : Store ω
  readviewer : Bool
  writeviewer : Bool

variable {ρ ω : Type}

/-- The function `NewBuffered`; `buf` is the store it writes to, a new memory store or, when
buffering is disabled, the base store. -/
def NewBuffered (base : Store ρ) (buf : Store ω) : BufferedBlockstore ρ ω :=
  { read := base, write := buf, readviewer := base.viewable, writeviewer := buf.viewable }

/-- The function `NewTieredBstore`: it leaves both viewers nil. -/
def NewTieredBstore (r : Store ρ) (w : Store ω) : BufferedBlockstore ρ ω :=
  { read := r, write := w, readviewer := false, writeviewer := false }

/-- The method `BufferedBlockstore.Get`. -/
def BufferedBlockstore.Get (bs : BufferedBlockstore ρ ω) (c : Cid) (r : ρ) (w : ω) :
    Except Err Block :=
  match bs.write.Get c w with
  | .error err => if err ≠ ErrNotFound then .error err else bs.read.Get c r
  | .ok out => .ok out

/-- The method `BufferedBlockstore.View`: the returned error and the data the callback was
called on. -/
def BufferedBlockstore.View (bs : BufferedBlockstore ρ ω) (c : Cid)
    (callback : Bytes → Option Err) (calls : List Bytes) (r : ρ) (w : ω) :
    Option Err × List Bytes :=
  if bs.writeviewer = false ∨ bs.readviewer = false then
    match bs.Get c r w with
    | .error err => (some err, calls)
    | .ok blk => (callback blk.RawData, calls ++ [blk.RawData])
  else
    match bs.write.View c callback calls w with
    | (some err, calls1) =>
      if err = ErrNotFound then bs.read.View c callback calls1 r else (some err, calls1)
    | (none, calls1) => (none, calls1)

/-- The lookup of a block in a list of blocks. -/
def findBlock : List Block → Cid → Option Block
  | [], _ => none
  | blk :: rest, c => if blk.Cid = c then some blk else findBlock rest c

/-- A store that keeps its blocks in a list, the newest first, and never fails except with
`ErrNotFound`; it stands for the memory store and implements `Viewer`. -/
def listStore : Store (List Block) :=
  { Get := fun c b =>
      match findBlock b c with
      | some blk => .ok blk
      | none => .error ErrNotFound
    Has := fun c b => .ok (findBlock b c).isSome
    GetSize := fun c b =>
      match findBlock b c with
      | some blk => (blk.RawData.length, none)
      | none => (0, some ErrNotFound)
    Put := fun blk b => (none, blk :: b)
    PutMany := fun blks b => (none, blks.reverse ++ b)
    DeleteBlock := fun c b => (none, b.filter (fun blk => blk.Cid ≠ c))
    viewable := true }

/-- A block with cid 1 and three bytes of data. -/
def blockOne : Block := { Cid := 1, RawData := [10, 20, 30] }

/-- A callback that reports `ErrNotFound` whatever data it is given. -/
def notFoundCallback : Bytes → Option Err := fun _ => some ErrNotFound

/-- The method `BufferedBlockstore.GetSize`: the size and the error it returns. -/
def BufferedBlockstore.GetSize (bs : BufferedBlockstore ρ ω) (c : Cid) (r : ρ) (w : ω) :
    Int × Option Err :=
  let (s, err) := bs.read.GetSize c r
  if err = some ErrNotFound ∨ s = 0 then bs.write.GetSize c w else (s, err)

/-- The method `BufferedBlockstore.Has`. -/
def BufferedBlockstore.Has (bs : BufferedBlockstore ρ ω) (c : Cid) (r : ρ) (w : ω) :
    Except Err Bool :=
  match bs.write.Has c w with
  | .error err => .error err
  | .ok has => if has then .ok true else bs.read.Has c r

/-! The methods that write act on the memory `μ` that holds both stores: the two stores may
be one and the same store (`NewBuffered` with buffering disabled), so a write to one can be
a write to the other. A read in the memory `m` is `bs.Get c m m`. -/

variable {μ : Type}

/-- The method `BufferedBlockstore.Put`: the error it returns and the memory after it. -/
def BufferedBlockstore.Put (bs : BufferedBlockstore μ μ) (blk : Block) (m : μ) :
    Option Err × μ :=
  match bs.read.Has blk.Cid m with
  | .error err => (some err, m)
  | .ok has => if has then (none, m) else bs.write.Put blk m

/-- The method `BufferedBlockstore.PutMany`. -/
def BufferedBlockstore.PutMany (bs : BufferedBlockstore μ μ) (blks : List Block) (m : μ) :
    Option Err × μ :=
  bs.write.PutMany blks m

/-- The method `BufferedBlockstore.DeleteBlock`. -/
def BufferedBlockstore.DeleteBlock (bs : BufferedBlockstore μ μ) (c : Cid) (m : μ) :
    Option Err × μ :=
  match bs.read.DeleteBlock c m with
  | (some err, m1) => (some err, m1)
  | (none, m1) => bs.write.DeleteBlock c m1

/-- A store that lives in the first part of a memory of two parts and leaves the second
part alone. -/
def Store.onFst (st : Store ρ) : Store (ρ × ω) :=
  { Get := fun c m => st.Get c m.1
    Has := fun c m => st.Has c m.1
    GetSize := fun c m => st.GetSize c m.1
    Put := fun blk m => ((st.Put blk m.1).1, ((st.Put blk m.1).2, m.2))
    PutMany := fun blks m => ((st.PutMany blks m.1).1, ((st.PutMany blks m.1).2, m.2))
    DeleteBlock := fun c m => ((st.DeleteBlock c m.1).1, ((st.DeleteBlock c m.1).2, m.2))
    viewable := st.viewable }

/-- A store that lives in the second part of a memory of two parts and leaves the first
part alone. -/
def Store.onSnd (st : Store ω) : Store (ρ × ω) :=
  { Get := fun c m => st.Get c m.2
    Has := fun c m => st.Has c m.2
    GetSize := fun c m => st.GetSize c m.2
    Put := fun blk m => ((st.Put blk m.2).1, (m.1, (st.Put blk m.2).2))
    PutMany := fun blks m => ((st.PutMany blks m.2).1, (m.1, (st.PutMany blks m.2).2))
    DeleteBlock := fun c m => ((st.DeleteBlock c m.2).1, (m.1, (st.DeleteBlock c m.2).2))
    viewable := st.viewable }

/-- A store that behaves as a correct key-value map: `content b` is the table of the data
held under each cid in the state `b`. The reads answer from the table and fail only with
`ErrNotFound`, for a cid the table lacks; a `Put` that returns nil has set the entry of the
block and no other. -/
structure Store.IsMap {β : Type} (st : Store β) (content : β → Cid → Option Bytes) :
    Prop where
  get_some : ∀ c b d, content b c = some d → st.Get c b = .ok ⟨c, d⟩
  get_none : ∀ c b, content b c = none → st.Get c b = .error ErrNotFound
  has : ∀ c b, st.Has c b = .ok (content b c).isSome
  getSize_some : ∀ c b d, content b c = some d → st.GetSize c b = ((d.length : Int), none)
  getSize_none : ∀ c b, content b c = none → (st.GetSize c b).2 = some ErrNotFound
  put : ∀ blk b, (st.Put blk b).1 = none →
    ∀ c, content (st.Put blk b).2 c = if c = blk.Cid then some blk.RawData else content b c

/-- The table of a list of blocks: the data of the first block with the cid. -/
def listContent (b : List Block) (c : Cid) : Option Bytes :=
  (findBlock b c).map (fun blk => blk.RawData)

/-- A block with cid 2 and no data. -/
def emptyBlock : Block := { Cid := 2, RawData := [] }

/-- A buffered blockstore over two distinct list stores: the read store in the first part
of the memory, the write store in the second. -/
def tieredListStore : BufferedBlockstore (List Block × List Block) (List Block × List Block) :=
  NewTieredBstore (Store.onFst listStore) (Store.onSnd listStore)

end Blockstore

namespace Genesis

open Flowch

/-! ## Genesis allocation and the seed commands
(`chain/gen/gen_actors.go`, `cmd/epik-seed/genesis.go`) -/

/-- The constant `build.EpkPrecision`: the number of attoEPK in one EPK. -/
def EpkPrecision : Nat := 1000000000000000000

/-- The constant `genesis.MinerStart`. -/
def MinerStart : Nat := 1000

/-- Modelled from the spec: the helper `types.FromEpk`, whose source is missing: the amount
of whole EPK as attoEPK. -/
def FromEpk (i : Nat) : Int := (i : Int) * (EpkPrecision : Int)

/-- The kind of a genesis actor (`genesis.ActorType`). -/
inductive ActorType where
  | TAccount
  | TMultisig
deriving DecidableEq, Repr

/-- The fraction `builtin.BigFrac`. -/
structure BigFrac where
  Numerator : Int
  Denominator : Int
deriving DecidableEq, Repr

/-- The meta data of a genesis actor: the owner of an account (`genesis.AccountMeta`) or the
parameters of a multisig (`genesis.MultisigMeta`). -/
inductive ActorMeta where
  | account (Owner : String)
  | multisig (Signers : List String) (Threshold : Nat) (VestingDuration : Nat)
      (VestingStart : Nat) (InitialVestedTarget : Option BigFrac)
deriving DecidableEq, Repr

/-- A genesis actor (`genesis.Actor`); `Typ` is its field `Type`. -/
structure Actor where
  Typ : ActorType
  Balance : Int
  Meta : ActorMeta
deriving DecidableEq, Repr

/-- The variable `DefaultFundraisingAccountActor`. The constant `builtin.EpochsInDay` is
declared in a library outside the repository and is a parameter. -/
def DefaultFundraisingAccountActor (EpochsInDay : Nat) : Actor :=
  { Typ := .TMultisig
    Balance := FromEpk 100000000
    Meta := .multisig ["t1dnas3yoc5bvz5evcuocb7tudimn2tpz63ajlk4y"] 1 (90 * 7 * EpochsInDay) 0
      (some ⟨1, 8⟩) }

/-- The amount the comment on the balance of `DefaultFundraisingAccountActor` states: 150M
EPK. -/
def fundraisingCommentEpk : Nat := 150000000

/-- A preseal miner (`genesis.Miner`), reduced to its id, owner and worker. -/
structure Miner where
  ID : String
  Owner : String
  Worker : String
deriving DecidableEq, Repr

/-- A multisig actor without signers and without balance. -/
def emptyMultisig : Actor :=
  { Typ := .TMultisig, Balance := 0, Meta := .multisig [] 0 0 0 none }

/-- The genesis template (`genesis.Template`), reduced to the accounts, the miners, the
network name and the four actors that `MakeInitialStateTree` sets up at fixed addresses; a
template that does not name one of the four has `emptyMultisig` there. -/
structure Template where
  Accounts : List Actor
  Miners : List Miner
  NetworkName : String
  FirstGovernorAccountActor : Actor := emptyMultisig
  FoundationAccountActor : Actor := emptyMultisig
  FundraisingAccountActor : Actor := emptyMultisig
  TeamAccountActor : Actor := emptyMultisig
deriving DecidableEq, Repr

/-- The two functions of the address library that the add-miner command calls,
`address.NewFromString` and `address.IDFromAddress`; the library is outside the repository
and is a parameter. -/
structure AddressLib (A : Type) where
  NewFromString : String → Except Err A
  IDFromAddress : A → Except Err Nat

variable {A : Type}

/-- The loop of `genesisAddMinerCmd` over the entries of the preseal map, in the order the
loop visits them: the template with the miners added, or the error the loop returns. -/
def addMinerLoop (lib : AddressLib A) : List (String × Miner) → Template → Except Err Template
  | [], template => .ok template
  | (mn, miner) :: rest, template =>
    let id := MinerStart + (template.Miners.length + 1)
    match lib.NewFromString mn with
    | .error e => .error ("parsing miner address: " ++ e)
    | .ok maddr =>
      match lib.IDFromAddress maddr with
      | .error e => .error ("getting miner id from address: " ++ e)
      | .ok mid =>
        if mid ≠ id then
          .error ("tried to set miner t0" ++ toString mid ++ " as t0" ++ toString id)
        else
          addMinerLoop lib rest
            { template with
              Miners := template.Miners ++ [miner]
              Accounts := template.Accounts ++
                [{ Typ := .TAccount, Balance := 2002 * (EpkPrecision : Int),
                   Meta := .account miner.Owner }] }

/-- The action of `genesisAddMinerCmd` once the template file and the preseal file are read
and parsed: the returned error, and the template written to the template file if the
command gets as far as writing it. `writeErr` is what `ioutil.WriteFile` returns. -/
def genesisAddMinerCmd (lib : AddressLib A) (template : Template)
    (miners : List (String × Miner)) (writeErr : Option Err) : Option Err × Option Template :=
  match addMinerLoop lib miners template with
  | .error e => (some e, none)
  | .ok template1 => (writeErr, some template1)

/-- The number that a run of decimal digits writes, after the digits read so far. -/
def digitsValue : List Char → Nat → Option Nat
  | [], acc => some acc
  | c :: cs, acc =>
    if 48 ≤ c.toNat ∧ c.toNat ≤ 57 then digitsValue cs (acc * 10 + (c.toNat - 48)) else none

/-- A stand-in for the address library: the text `t0` followed by digits is the id address
with that number; any other text that starts with `t` is a key address, which has no id. -/
def textAddressLib : AddressLib (Option Nat) :=
  { NewFromString := fun s =>
      match s.data with
      | 't' :: '0' :: digits =>
        match digitsValue digits 0 with
        | some n => .ok (some n)
        | none => .error "invalid address payload"
      | 't' :: _ => .ok none
      | _ => .error "unknown address network"
    IDFromAddress := fun a =>
      match a with
      | some n => .ok n
      | none => .error "cannot get id from non id address" }

/-- A template that already has one miner. -/
def oneMinerTemplate : Template :=
  { Accounts := [], Miners := [⟨"t01001", "t1aaa", "t1bbb"⟩], NetworkName := "localnet" }

/-! ## The initial state tree (`chain/gen/genesis/genesis.go`) -/

/-- The constant `build.EpkBase`: the number of EPK there are. -/
def EpkBase : Nat := 1000000000

/-- The conversion `int64(x)` of an unsigned 64-bit number. -/
def toInt64 (x : Nat) : Int :=
  if x % 2 ^ 64 < 2 ^ 63 then ((x % 2 ^ 64 : Nat) : Int) else ((x % 2 ^ 64 : Nat) : Int) - 2 ^ 64

/-- An actor of the state tree (`types.Actor`), reduced to its code and its balance. -/
structure TreeActor where
  Code : String
  Balance : Int
deriving DecidableEq, Repr

/-- The code of an account actor (`builtin2.AccountActorCodeID`). -/
def AccountActorCodeID : String := "account"

/-- The code of a multisig actor (`builtin2.MultisigActorCodeID`). -/
def MultisigActorCodeID : String := "multisig"

/-- The map `keyIDs` from a key address to its id address. -/
abbrev KeyIDs := String → Option Nat

/-- Modelled from the spec: the state tree of the package `state`, whose source is missing:
the actors by id address, the one set last first. Its operations, and the object store that
holds the state of the actors, are taken never to fail. -/
structure StateTree where
  actors : List (Nat × TreeActor)
deriving DecidableEq, Repr

/-- Modelled from the spec: the function `state.NewStateTree`: the tree without actors. -/
def NewStateTree : StateTree := ⟨[]⟩

/-- Modelled from the spec: the method `SetActor` at an id address: the actor takes the place
of the one the address had, if it had one. -/
def StateTree.SetActor (st : StateTree) (addr : Nat) (act : TreeActor) : StateTree :=
  ⟨(addr, act) :: st.actors.filter (fun p => p.1 ≠ addr)⟩

/-- The actor at an id address, if there is one. -/
def StateTree.GetActorID (st : StateTree) (addr : Nat) : Option TreeActor :=
  (st.actors.find? (fun p => p.1 = addr)).map (fun p => p.2)

/-- Modelled from the spec: the method `GetActor` at a key address: the address is resolved
to its id address through the table of the init actor, which `SetupInitActor` also hands
back as `keyIDs`; `none` is the error it returns for an address without actor. -/
def StateTree.GetActor (st : StateTree) (keyIDs : KeyIDs) (e : String) : Option TreeActor :=
  (keyIDs e).bind st.GetActorID

/-- Modelled from the spec: the method `ForEach`: the callback runs on every actor of the
tree, one after the other. -/
def StateTree.ForEach {α : Type} (st : StateTree) (f : α → Nat → TreeActor → α) (init : α) : α :=
  st.actors.foldl (fun acc p => f acc p.1 p.2) init

/-- The sum of the balances of all actors of a tree, as the `ForEach` loop of
`MakeInitialStateTree` adds them up in `totalEpkAllocated`. -/
def StateTree.totalBalance (st : StateTree) : Int :=
  st.ForEach (fun total _ act => total + act.Balance) 0

/-- The sum of the balances held at one id address: 0 if the address has no actor. -/
def StateTree.balanceAt (st : StateTree) (addr : Nat) : Int :=
  ((st.actors.filter (fun p => p.1 = addr)).map (fun p => p.2.Balance)).sum

/-- The id addresses of the package `builtin` that `MakeInitialStateTree` uses; the package
is outside the sources and the addresses are parameters. -/
structure Builtin where
  SystemActorAddr : Nat
  InitActorAddr : Nat
  RewardActorAddr : Nat
  CronActorAddr : Nat
  StoragePowerActorAddr : Nat
  StorageMarketActorAddr : Nat
  GovernActorAddr : Nat
  BurntFundsActorAddr : Nat
  ExpertFundsActorAddr : Nat
  RetrieveFundsActorAddr : Nat
  VoteFundsActorAddr : Nat
  KnowledgeFundsActorAddr : Nat
  FirstGovernorAddress : Nat
  FundraisingAddress : Nat
  TeamAddress : Nat
  FoundationAddress : Nat
deriving DecidableEq, Repr

/-- What the set-up functions of the package return, whose sources are missing, and the
text `types.EPK` prints an amount as; they are parameters. `SetupInitActor` is given the
network name and the actors, and returns the first free id, the init actor and `keyIDs`;
`SetupGovernActor` is given the address of the foundation. -/
structure Setup where
  SetupSystemActor : Except Err TreeActor
  SetupInitActor : String → List Actor → Except Err (Nat × TreeActor × KeyIDs)
  SetupRewardActor : Except Err TreeActor
  SetupCronActor : Except Err TreeActor
  SetupStoragePowerActor : Except Err TreeActor
  SetupStorageMarketActor : Except Err TreeActor
  SetupGovernActor : Nat → Except Err TreeActor
  SetupVoteActor : Except Err TreeActor
  EPK : Int → String

/-- The function `SetupKnowledgeActor` (`f053_knowledgefund.go`): an actor without
balance. -/
def SetupKnowledgeActor (_initialPayee : Nat) : Except Err TreeActor :=
  .ok { Code := "knowledgefund", Balance := 0 }

/-- The error `xerrors.Errorf(msg + ": %w", err)` in place of the error `err`. -/
def wrapErr {α : Type} (msg : String) : Except Err α → Except Err α
  | .ok a => .ok a
  | .error e => .error (msg ++ ": " ++ e)

/-- The owner that `json.Unmarshal` reads from the meta data into a `genesis.AccountMeta`:
the undefined address, written as the empty text, when the meta data has no owner. -/
def ActorMeta.Owner : ActorMeta → String
  | .account owner => owner
  | .multisig _ _ _ _ _ => ""

/-- The signers that `json.Unmarshal` reads from the meta data into a
`genesis.MultisigMeta`: none when the meta data has no signers. -/
def ActorMeta.Signers : ActorMeta → List String
  | .account _ => []
  | .multisig signers _ _ _ _ => signers

/-- The function `createAccountActor`. -/
def createAccountActor (state : StateTree) (info : Actor) (keyIDs : KeyIDs) :
    Except Err StateTree :=
  match keyIDs info.Meta.Owner with
  | none => .error ("no registered ID for account actor: " ++ info.Meta.Owner)
  | some ida => .ok (state.SetActor ida { Code := AccountActorCodeID, Balance := info.Balance })

/-- The loop of `createMultisigAccount` over the signers: a signer that has no actor yet
gets an account actor without balance at its id address. -/
def createSigners (keyIDs : KeyIDs) : List String → StateTree → Except Err StateTree
  | [], state => .ok state
  | e :: rest, state =>
    match keyIDs e with
    | none => .error ("no registered key ID for signer: " ++ e)
    | some idAddress =>
      match state.GetActor keyIDs e with
      | some _ => createSigners keyIDs rest state
      | none =>
        createSigners keyIDs rest
          (state.SetActor idAddress { Code := AccountActorCodeID, Balance := 0 })

/-- The function `createMultisigAccount`. -/
def createMultisigAccount (state : StateTree) (ida : Nat) (info : Actor) (keyIDs : KeyIDs) :
    Except Err StateTree :=
  if info.Typ ≠ .TMultisig then
    .error "can only call createMultisigAccount with multisig Actor info"
  else
    match createSigners keyIDs info.Meta.Signers state with
    | .error e => .error e
    | .ok state1 =>
      .ok (state1.SetActor ida { Code := MultisigActorCodeID, Balance := info.Balance })

/-- The loop of `MakeInitialStateTree` over the accounts of the template; a multisig gets
the next free id, which stays far below the bound of `address.NewIDAddress`. -/
def createAccounts (keyIDs : KeyIDs) : List Actor → Nat → StateTree → Except Err StateTree
  | [], _, state => .ok state
  | info :: rest, idStart, state =>
    match info.Typ with
    | .TAccount =>
      match wrapErr "failed to create account actor" (createAccountActor state info keyIDs) with
      | .error e => .error e
      | .ok state1 => createAccounts keyIDs rest idStart state1
    | .TMultisig =>
      match createMultisigAccount state idStart info keyIDs with
      | .error e => .error e
      | .ok state1 => createAccounts keyIDs rest (idStart + 1) state1

/-- The first part of `MakeInitialStateTree`, up to the three multisig accounts of the
governor, the fundraising and the team: the state tree before the balances are summed, and
`keyIDs`. -/
def stateBeforeFoundation (B : Builtin) (S : Setup) (template : Template) :
    Except Err (StateTree × KeyIDs) := do
  let state := NewStateTree
  let sysact ← wrapErr "setup init actor" S.SetupSystemActor
  let state := state.SetActor B.SystemActorAddr sysact
  let (idStart, initact, keyIDs) ← wrapErr "setup init actor"
    (S.SetupInitActor template.NetworkName
      (template.Accounts ++ [template.FirstGovernorAccountActor,
        template.FoundationAccountActor, template.FundraisingAccountActor,
        template.TeamAccountActor]))
  let state := state.SetActor B.InitActorAddr initact
  let rewact ← wrapErr "setup init actor" S.SetupRewardActor
  let state := state.SetActor B.RewardActorAddr rewact
  let cronact ← wrapErr "setup cron actor" S.SetupCronActor
  let state := state.SetActor B.CronActorAddr cronact
  let spact ← wrapErr "setup storage power actor" S.SetupStoragePowerActor
  let state := state.SetActor B.StoragePowerActorAddr spact
  let marketact ← wrapErr "setup storage market actor" S.SetupStorageMarketActor
  let state := state.SetActor B.StorageMarketActorAddr marketact
  let governact ← wrapErr "setup govern actor" (S.SetupGovernActor B.FoundationAddress)
  let state := state.SetActor B.GovernActorAddr governact
  let state := state.SetActor B.BurntFundsActorAddr
    { Code := AccountActorCodeID, Balance := 0 }
  let state := state.SetActor B.ExpertFundsActorAddr
    { Code := AccountActorCodeID, Balance := 0 }
  let state := state.SetActor B.RetrieveFundsActorAddr
    { Code := AccountActorCodeID, Balance := 0 }
  let voteact ← wrapErr "setup vote actor" S.SetupVoteActor
  let state := state.SetActor B.VoteFundsActorAddr voteact
  let knowact ← wrapErr "setup knowledge actor" (SetupKnowledgeActor B.FirstGovernorAddress)
  let state := state.SetActor B.KnowledgeFundsActorAddr knowact
  let state ← createAccounts keyIDs template.Accounts idStart state
  let state ← wrapErr "failed to set up govern account"
    (createMultisigAccount state B.FirstGovernorAddress template.FirstGovernorAccountActor
      keyIDs)
  let state ← wrapErr "failed to set up fundraising account"
    (createMultisigAccount state B.FundraisingAddress template.FundraisingAccountActor keyIDs)
  let state ← wrapErr "failed to set up team account"
    (createMultisigAccount state B.TeamAddress template.TeamAccountActor keyIDs)
  return (state, keyIDs)

/-- The error of `MakeInitialStateTree` for a negative balance of the foundation. -/
def overallocated (S : Setup) (totalEpkAllocated : Int) : Err :=
  "somehow overallocated epk (allocated = " ++ S.EPK totalEpkAllocated ++ ")"

/-- The foundation actor of the template with the balance `MakeInitialStateTree` assigns to
it. -/
def withBalance (info : Actor) (balance : Int) : Actor :=
  { info with Balance := balance }

/-- The function `MakeInitialStateTree`: the state tree and `keyIDs`, or the error. -/
def MakeInitialStateTree (B : Builtin) (S : Setup) (template : Template) :
    Except Err (StateTree × KeyIDs) :=
  match stateBeforeFoundation B S template with
  | .error e => .error e
  | .ok (state, keyIDs) =>
    let totalEpkAllocated := state.totalBalance
    let totalEpk := toInt64 EpkBase * toInt64 EpkPrecision
    let foundation := withBalance template.FoundationAccountActor (totalEpk - totalEpkAllocated)
    if foundation.Balance < 0 then
      .error (overallocated S totalEpkAllocated)
    else
      match wrapErr "failed to set up foundation account"
          (createMultisigAccount state B.FoundationAddress foundation keyIDs) with
      | .error e => .error e
      | .ok state1 => .ok (state1, keyIDs)

/-- Stand-in values for the addresses of the package `builtin`. -/
def exampleBuiltin : Builtin :=
  { SystemActorAddr := 0, InitActorAddr := 1, RewardActorAddr := 2, CronActorAddr := 3,
    StoragePowerActorAddr := 4, StorageMarketActorAddr := 5, GovernActorAddr := 6,
    BurntFundsActorAddr := 99, ExpertFundsActorAddr := 7, RetrieveFundsActorAddr := 8,
    VoteFundsActorAddr := 9, KnowledgeFundsActorAddr := 10, FirstGovernorAddress := 80,
    FundraisingAddress := 81, TeamAddress := 82, FoundationAddress := 83 }

/-- Stand-in ids of two key addresses, from `AccountStart` on. -/
def exampleKeyIDs : KeyIDs := fun e =>
  if e = "t1aaa" then some 100
  else if e = "t1dnas3yoc5bvz5evcuocb7tudimn2tpz63ajlk4y" then some 101
  else none

/-- Stand-in set-up functions: the reward actor holds the 700M EPK of storage mining, the
other actors hold nothing, and the init actor knows the two key addresses of
`exampleKeyIDs`. -/
def exampleSetup : Setup :=
  { SetupSystemActor := .ok ⟨"system", 0⟩
    SetupInitActor := fun _ _ => .ok (102, ⟨"init", 0⟩, exampleKeyIDs)
    SetupRewardActor := .ok ⟨"reward", FromEpk 700000000⟩
    SetupCronActor := .ok ⟨"cron", 0⟩
    SetupStoragePowerActor := .ok ⟨"storagepower", 0⟩
    SetupStorageMarketActor := .ok ⟨"storagemarket", 0⟩
    SetupGovernActor := fun _ => .ok ⟨"govern", 0⟩
    SetupVoteActor := .ok ⟨"vote", 0⟩
    EPK := fun a => toString a }

/-- A multisig actor of one signer with the balance of `epk` whole EPK. -/
def exampleMultisig (epk : Nat) : Actor :=
  { Typ := .TMultisig, Balance := FromEpk epk
    Meta := .multisig ["t1dnas3yoc5bvz5evcuocb7tudimn2tpz63ajlk4y"] 1 0 0 none }

/-- A template with one account of 5 EPK, a fundraising account of 100M EPK, a team account
of 50M EPK, and a foundation account for which the template says 100M EPK. -/
def exampleTemplate : Template :=
  { Accounts := [{ Typ := .TAccount, Balance := FromEpk 5, Meta := .account "t1aaa" }]
    Miners := []
    NetworkName := "localnet"
    FirstGovernorAccountActor := exampleMultisig 0
    FoundationAccountActor := exampleMultisig 100000000
    FundraisingAccountActor := exampleMultisig 100000000
    TeamAccountActor := exampleMultisig 50000000 }

/-- The template `exampleTemplate` with a fundraising account of 500M EPK, which is more
than there is left. -/
def greedyTemplate : Template :=
  { Accounts := [{ Typ := .TAccount, Balance := FromEpk 5, Meta := .account "t1aaa" }]
    Miners := []
    NetworkName := "localnet"
    FirstGovernorAccountActor := exampleMultisig 0
    FoundationAccountActor := exampleMultisig 100000000
    FundraisingAccountActor := exampleMultisig 500000000
    TeamAccountActor := exampleMultisig 50000000 }

/-- The state tree of a run on the stand-in values before the balances are summed, or the
empty tree if the run fails before. -/
def priorOf (template : Template) : StateTree :=
  match stateBeforeFoundation exampleBuiltin exampleSetup template with
  | .ok (state, _) => state
  | .error _ => NewStateTree

/-- The state tree that a run on the stand-in values returns, or the empty tree if the run
fails. -/
def resultOf (template : Template) : StateTree :=
  match MakeInitialStateTree exampleBuiltin exampleSetup template with
  | .ok (state, _) => state
  | .error _ => NewStateTree

/-! ## The multisig table of the seed command (`cmd/epik-seed/genesis.go`) -/

/-- The white space of `unicode.IsSpace`, which `strings.TrimSpace` cuts off. -/
def isSpace (c : Char) : Bool :=
  c.toNat = 9 || c.toNat = 10 || c.toNat = 11 || c.toNat = 12 || c.toNat = 13 ||
  c.toNat = 32 || c.toNat = 133 || c.toNat = 160 || c.toNat = 5760 ||
  (8192 ≤ c.toNat && c.toNat ≤ 8202) || c.toNat = 8232 || c.toNat = 8233 ||
  c.toNat = 8239 || c.toNat = 8287 || c.toNat = 12288

/-- The library function `strings.TrimSpace`: the text without the white space at its two
ends. -/
def TrimSpace (s : String) : String :=
  ⟨((s.data.dropWhile isSpace).reverse.dropWhile isSpace).reverse⟩

/-- The pieces of a run of characters between the occurrences of the separator. -/
def splitChars (sep : Char) : List Char → List (List Char)
  | [] => [[]]
  | c :: cs =>
    if c = sep then [] :: splitChars sep cs
    else
      match splitChars sep cs with
      | [] => [[c]]
      | piece :: pieces => (c :: piece) :: pieces

/-- The library function `strings.Split` for a separator of one character. -/
def Split (s : String) (sep : Char) : List String :=
  (splitChars sep s.data).map String.mk

/-- The text between double quotes, as `%q` prints a text without special characters. -/
def quote (s : String) : String :=
  String.mk ([Char.ofNat 34] ++ s.data ++ [Char.ofNat 34])

/-- The library function `strconv.Atoi` where `int` has 64 bits: an optional sign and then
one or more decimal digits, of a value from -2^63 to 2^63 - 1. -/
def Atoi (s : String) : Except Err Int :=
  let syntaxError : Err := "strconv.Atoi: parsing " ++ quote s ++ ": invalid syntax"
  let rangeError : Err := "strconv.Atoi: parsing " ++ quote s ++ ": value out of range"
  match s.data with
  | [] => .error syntaxError
  | '-' :: digits =>
    match digits, digitsValue digits 0 with
    | [], _ => .error syntaxError
    | _ :: _, none => .error syntaxError
    | _ :: _, some n => if 2 ^ 63 < n then .error rangeError else .ok (-(n : Int))
  | '+' :: digits =>
    match digits, digitsValue digits 0 with
    | [], _ => .error syntaxError
    | _ :: _, none => .error syntaxError
    | _ :: _, some n => if 2 ^ 63 - 1 < n then .error rangeError else .ok (n : Int)
  | digits =>
    match digitsValue digits 0 with
    | none => .error syntaxError
    | some n => if 2 ^ 63 - 1 < n then .error rangeError else .ok (n : Int)

/-- A row of the multisig table as the seed command keeps it (`GenAccountEntry`). -/
structure GenAccountEntry (A : Type) where
  Version : Int
  ID : String
  Amount : Int
  VestingMonths : Int
  CustodianID : Int
  M : Int
  N : Int
  Addresses : List A
  Typ : String
  Sig1 : String
  Sig2 : String
  InitialVestedNum : Int
  InitialVestedDen : Int
deriving DecidableEq, Repr

/-- What a function that can also panic comes to: a value, a returned error, or a panic. -/
inductive Outcome (α : Type) where
  | ok (a : α)
  | failed (err : Err)
  | panicked
deriving DecidableEq, Repr

/-- The sequencing of two steps: the second runs only after a value of the first. -/
def Outcome.bind {α β : Type} (x : Outcome α) (f : α → Outcome β) : Outcome β :=
  match x with
  | .ok a => f a
  | .failed err => .failed err
  | .panicked => .panicked

instance : Monad Outcome where
  pure := Outcome.ok
  bind := Outcome.bind

/-- A step that returns a value or an error: on the error the function returns the error
`xerrors.Errorf(msg + ": %w", err)`. -/
def orFail {α : Type} (msg : String) : Except Err α → Outcome α
  | .ok a => .ok a
  | .error e => .failed (msg ++ ": " ++ e)

/-- A step that returns a value or an error: on the error the function returns that
error. -/
def orReturn {α : Type} : Except Err α → Outcome α
  | .ok a => .ok a
  | .error e => .failed e

/-- The field `e[n]` of a row: an index past the end of the row panics. -/
def field (e : List String) (n : Nat) : Outcome String :=
  match e.get? n with
  | some s => .ok s
  | none => .panicked

/-- The loop of `parseMultisigCsv` over the addresses of a row. -/
def parseAddrs (lib : AddressLib A) (i : Nat) : List String → Nat → List A → Outcome (List A)
  | [], _, addrs => .ok addrs
  | a :: rest, j, addrs =>
    match lib.NewFromString a with
    | .error err =>
      .failed ("failed to parse address " ++ toString j ++ " in row " ++ toString i ++ " (" ++
        quote a ++ "): " ++ err)
    | .ok addr => parseAddrs lib i rest (j + 1) (addrs ++ [addr])

/-- The part of `parseMultisigCsv` that reads the initial vested fraction from the trimmed
field: the numerator and the denominator, or the error it returns. -/
def parseInitialVested (initialVestedStr : String) : Except Err (Int × Int) :=
  if initialVestedStr.length > 0 then
    match Split initialVestedStr '/' with
    | [num, den] =>
      match Atoi (TrimSpace num) with
      | .error err => .error ("Numerator be integer: " ++ err)
      | .ok initialNum =>
        match Atoi (TrimSpace den) with
        | .error err => .error ("Denominator be integer: " ++ err)
        | .ok initialDen =>
          if initialNum < 0 ∨ initialDen ≤ 0 ∨ initialNum > initialDen then
            .error ("illegal numerator " ++ toString initialNum ++ " or denominator " ++
              toString initialDen)
          else .ok (initialNum, initialDen)
    | _ => .error "failed to parse initial vested"
  else .ok (0, 0)

/-- The body of the loop of `parseMultisigCsv` for the row `e`, the `i`-th after the header:
the entry it appends, or how the function ends. `ParseEPK` is the function `types.ParseEPK`,
whose source is missing and which is a parameter. -/
def parseRow (lib : AddressLib A) (ParseEPK : String → Except Err Int) (i : Nat)
    (e : List String) : Outcome (GenAccountEntry A) := do
  let e7 ← field e 7
  let addrs ← parseAddrs lib i (Split (TrimSpace e7) ':') 0 []
  let e11 ← field e 11
  let initial ← orReturn (parseInitialVested (TrimSpace e11))
  let e2 ← field e 2
  let balance ← orFail "failed to parse account balance" (ParseEPK (TrimSpace e2))
  let e3 ← field e 3
  let vesting ← orFail ("failed to parse vesting duration for record " ++ toString i)
    (Atoi (TrimSpace e3))
  let e4 ← field e 4
  let custodianID ← orFail ("failed to parse custodianID in record " ++ toString i)
    (Atoi (TrimSpace e4))
  let e5 ← field e 5
  let threshold ← orFail ("failed to parse multisigM in record " ++ toString i)
    (Atoi (TrimSpace e5))
  let e6 ← field e 6
  let num ← orFail "Number of addresses be integer" (Atoi (TrimSpace e6))
  let e0 ← field e 0
  if e0 ≠ "1" then Outcome.failed "record version must be 1" else
  let e1 ← field e 1
  let e8 ← field e 8
  let e9 ← field e 9
  let e10 ← field e 10
  pure
    { Version := 1, ID := e1, Amount := balance, VestingMonths := vesting,
      CustodianID := custodianID, M := threshold, N := num, Addresses := addrs, Typ := e8,
      Sig1 := e9, Sig2 := e10, InitialVestedNum := initial.1, InitialVestedDen := initial.2 }

/-- The loop of `parseMultisigCsv` over the rows after the header. -/
def parseRows (lib : AddressLib A) (ParseEPK : String → Except Err Int) :
    List (List String) → Nat → List (GenAccountEntry A) → Outcome (List (GenAccountEntry A))
  | [], _, entries => .ok entries
  | e :: rest, i, entries =>
    match parseRow lib ParseEPK i e with
    | .ok entry => parseRows lib ParseEPK rest (i + 1) (entries ++ [entry])
    | .failed err => .failed err
    | .panicked => .panicked

/-- The function `parseMultisigCsv`; `records` is what opening the file and `ReadAll` give:
the records of the file or an error. The slice `records[1:]` of no records panics. -/
def parseMultisigCsv (lib : AddressLib A) (ParseEPK : String → Except Err Int)
    (records : Except Err (List (List String))) : Outcome (List (GenAccountEntry A)) :=
  match records with
  | .error err => .failed ("read multisig csv: " ++ err)
  | .ok [] => .panicked
  | .ok (_ :: rows) => parseRows lib ParseEPK rows 0 []

/-- The claim's form of an initial vested field: the text is `num/den`, each part an integer
as `strconv.Atoi` reads it with the white space around it left out, with
`0 ≤ num ≤ den` and `den > 0`. -/
def IsVestedFraction (s : String) (num den : Int) : Prop :=
  ∃ a b, Split s '/' = [a, b] ∧ Atoi (TrimSpace a) = .ok num ∧ Atoi (TrimSpace b) = .ok den ∧
    0 ≤ num ∧ num ≤ den ∧ 0 < den

/-- What the claim says of a row and the entry made of it: the initial vested field, white
space at its ends apart, is empty and the entry has 0 and 0, or it is not empty, has the
form `num/den` and the entry has these two integers. -/
def vestedMatches (e : List String) (entry : GenAccountEntry A) : Prop :=
  ∃ f, e.get? 11 = some f ∧
    ((TrimSpace f = "" ∧ entry.InitialVestedNum = 0 ∧ entry.InitialVestedDen = 0) ∨
     (TrimSpace f ≠ "" ∧
       IsVestedFraction (TrimSpace f) entry.InitialVestedNum entry.InitialVestedDen))

/-- A row whose initial vested field, white space at its ends apart, is neither empty nor of
the form `num/den`. -/
def vestedIllFormed (e : List String) : Prop :=
  ∃ f, e.get? 11 = some f ∧ TrimSpace f ≠ "" ∧ ¬ ∃ num den, IsVestedFraction (TrimSpace f) num den

/-- A stand-in for `types.ParseEPK`: a run of digits is that number of whole EPK. -/
def exampleParseEPK (s : String) : Except Err Int :=
  match s.data, digitsValue s.data 0 with
  | _ :: _, some n => .ok (FromEpk n)
  | _, _ => .error "failed to parse as a decimal number"

/-- The header of the multisig table. -/
def exampleHeader : List String :=
  ["version", "id", "amount", "vesting", "custodian", "m", "n", "addresses", "type", "sig1",
    "sig2", "initial"]

/-- A table with a header and two rows: one with the initial vested fraction 1/8 and one
without. -/
def exampleCsv : List (List String) :=
  [exampleHeader,
   ["1", "a1", "100", "12", "3", "1", "2", "t0100:t0101", "custodian", "s1", "s2", " 1 / 8 "],
   ["1", "a2", "50", "6", "4", "1", "1", "t0102", "custodian", "s3", "s4", "  "]]

/-- The table `exampleCsv` with the initial vested field of its second row set to 9/8. -/
def illFormedCsv : List (List String) :=
  [exampleHeader,
   ["1", "a1", "100", "12", "3", "1", "2", "t0100:t0101", "custodian", "s1", "s2", " 1 / 8 "],
   ["1", "a2", "50", "6", "4", "1", "1", "t0102", "custodian", "s3", "s4", "9/8"]]

/-- The entries that `parseMultisigCsv` makes of a table on the stand-in libraries; none if
it makes none. -/
def entriesOf (records : List (List String)) : List (GenAccountEntry (Option Nat)) :=
  match parseMultisigCsv textAddressLib exampleParseEPK (.ok records) with
  | .ok entries => entries
  | _ => []

end Genesis

/-! # Theorems -/

namespace Flowch

variable {σ : Type}

/-! ## The matcher -/

theorem matcherLoop_of_status (api : SettlerAPI σ) (msg : Message) (d : PCHDir)
    (hstatus : ∀ s, ∃ st s', api.FlowchStatus msg.To s = (.ok st, s') ∧ st.Direction = d)
    (l : List Address) (w : World σ) :
    (matcherLoop api msg l w).1 = (decide (msg.To ∈ l ∧ d = PCHInbound), none) := by
  induction l generalizing w with
  | nil => simp [matcherLoop]
  | cons addr rest ih =>
    unfold matcherLoop
    by_cases hto : msg.To = addr
    · obtain ⟨st, s', hst, hd⟩ := hstatus w.st
      rw [hto] at hst
      simp only [hto, if_true, callFlowchStatus, hst]
      by_cases hin : st.Direction = PCHInbound
      · have : d = PCHInbound := by rw [← hd]; exact hin
        simp [hin, this]
      · have : d ≠ PCHInbound := by rw [← hd]; exact hin
        simp only [hin, if_false]
        rw [ih]
        simp [this]
    · simp only [hto, if_false]
      rw [ih]
      have : ¬ addr = msg.To := fun h => hto h.symm
      simp [List.mem_cons, hto]

theorem matcherLoop_trace (api : SettlerAPI σ) (msg : Message)
    (l : List Address) (w : World σ) :
    ∃ evs, (matcherLoop api msg l w).2.trace = w.trace ++ evs ∧
      ∀ ev ∈ evs, ∀ e, ev.reply.failure? = some e →
        (matcherLoop api msg l w).1 = (false, some e) := by
  induction l generalizing w with
  | nil => exact ⟨[], by simp [matcherLoop]⟩
  | cons addr rest ih =>
    unfold matcherLoop
    by_cases hto : msg.To = addr
    · simp only [hto, if_true, callFlowchStatus]
      rcases hst : api.FlowchStatus addr w.st with ⟨r, s'⟩
      cases r with
      | error e =>
        refine ⟨[⟨.FlowchStatus addr, .status (.error e)⟩], by simp [World.record], ?_⟩
        intro ev hev e' hf
        simp only [List.mem_singleton] at hev
        subst hev
        simp only [Reply.failure?, Option.some.injEq] at hf
        simp [hf]
      | ok st =>
        simp only
        by_cases hin : st.Direction = PCHInbound
        · refine ⟨[⟨.FlowchStatus addr, .status (.ok st)⟩], by simp [hin, World.record], ?_⟩
          intro ev hev e' hf
          simp only [List.mem_singleton] at hev
          subst hev
          simp [Reply.failure?] at hf
        · simp only [hin, if_false]
          obtain ⟨evs, htr, hfail⟩ := ih (w.record s' (.FlowchStatus addr) (.status (.ok st)))
          refine ⟨⟨.FlowchStatus addr, .status (.ok st)⟩ :: evs, ?_, ?_⟩
          · rw [htr]; simp [World.record]
          intro ev hev e' hf
          rcases List.mem_cons.mp hev with h | h
          · subst h
            simp [Reply.failure?] at hf
          · exact hfail ev h e' hf
    · simp only [hto, if_false]
      exact ih w

/-- C1: when `FlowchList` answers the list `l` and `FlowchStatus` answers for the target of
the message with direction `d`, `matcher` reports no error and `matched` is true exactly
when the method is `Settle`, the target is in `l` and `d` is inbound; and whenever a call
that `matcher` makes (`FlowchList` or the status lookup) fails, it returns `(false, e)`
with `e` the error of that call. -/
theorem matcher_spec (api : SettlerAPI σ) (msg : Message) (ts : TipSet) (w : World σ) :
    (∀ (l : List Address) (s1 : σ) (d : PCHDir),
      api.FlowchList w.st = (.ok l, s1) →
      (∀ s, ∃ st s', api.FlowchStatus msg.To s = (.ok st, s') ∧ st.Direction = d) →
      (matcher api msg ts w).1.2 = none ∧
      ((matcher api msg ts w).1.1 = true ↔
        (msg.Method = Methods.Settle ∧ msg.To ∈ l ∧ d = PCHInbound))) ∧
    (∃ evs, (matcher api msg ts w).2.trace = w.trace ++ evs ∧
      ∀ ev ∈ evs, ∀ e, ev.reply.failure? = some e →
        (matcher api msg ts w).1 = (false, some e)) := by
  constructor
  · intro l s1 d hlist hstatus
    unfold matcher
    by_cases hm : msg.Method = Methods.Settle
    · simp only [hm, ne_eq, not_true_eq_false, if_false, callFlowchList, hlist]
      rw [matcherLoop_of_status api msg d hstatus]
      simp
    · simp [hm]
  · unfold matcher
    by_cases hm : msg.Method = Methods.Settle
    · simp only [hm, ne_eq, not_true_eq_false, if_false, callFlowchList]
      rcases hl : api.FlowchList w.st with ⟨r, s1⟩
      cases r with
      | error e =>
        refine ⟨[⟨.FlowchList, .addrs (.error e)⟩], by simp [World.record], ?_⟩
        intro ev hev e' hf
        simp only [List.mem_singleton] at hev
        subst hev
        simp only [Reply.failure?, Option.some.injEq] at hf
        simp [hf]
      | ok l =>
        simp only
        obtain ⟨evs, htr, hfail⟩ := matcherLoop_trace api msg l (w.record s1 .FlowchList (.addrs (.ok l)))
        refine ⟨⟨.FlowchList, .addrs (.ok l)⟩ :: evs, ?_, ?_⟩
        · rw [htr]; simp [World.record]
        intro ev hev e' hf
        rcases List.mem_cons.mp hev with h | h
        · subst h
          simp [Reply.failure?] at hf
        · exact hfail ev h e' hf
    · exact ⟨[], by simp [hm]⟩

/-- C1 at concrete nodes: a settle message to the tracked inbound channel 7 matches, and
a failed `FlowchList` gives `(false, e)`. -/
theorem matcher_spec_witness :
    ((matcher goodNode settleMsg someTipSet freshWorld).1.2 = none ∧
      ((matcher goodNode settleMsg someTipSet freshWorld).1.1 = true ↔
        (settleMsg.Method = Methods.Settle ∧ settleMsg.To ∈ [7, 8] ∧ PCHInbound = PCHInbound))) ∧
    (matcher listFailsNode settleMsg someTipSet freshWorld).1 = (false, some "store closed") :=
  ⟨(matcher_spec goodNode settleMsg someTipSet freshWorld).1 [7, 8] 1 PCHInbound rfl
      (fun _ => ⟨_, _, rfl, rfl⟩),
    by
      obtain ⟨evs, htr, h⟩ := (matcher_spec listFailsNode settleMsg someTipSet freshWorld).2
      have hevs : evs = [⟨.FlowchList, .addrs (.error "store closed")⟩] := by
        have h0 : (matcher listFailsNode settleMsg someTipSet freshWorld).2.trace =
            [⟨.FlowchList, .addrs (.error "store closed")⟩] := rfl
        rw [h0] at htr
        simpa [freshWorld] using htr.symm
      exact h ⟨.FlowchList, .addrs (.error "store closed")⟩
        (by rw [hevs]; exact List.mem_singleton_self _) "store closed" rfl⟩

/-! ## The goroutines of the handler -/

theorem waitGoroutine_trace (api : SettlerAPI σ) (v : SignedVoucher) (c : Cid) (w : World σ) :
    (waitGoroutine api v c w).2.trace =
      w.trace ++ [⟨.StateWaitMsg c MessageConfidence,
        .waited (api.StateWaitMsg c MessageConfidence w.st).1⟩] := by
  unfold waitGoroutine callStateWaitMsg
  rcases api.StateWaitMsg c MessageConfidence w.st with ⟨⟨lookup, err⟩, s'⟩
  cases lookup <;> cases err <;> simp [World.record, World.logError] <;> split <;> simp

theorem waitGoroutine_flag (api : SettlerAPI σ) (v : SignedVoucher) (c : Cid) (w : World σ) :
    (waitGoroutine api v c w).1 =
      (api.StateWaitMsg c MessageConfidence w.st).1.lookup.isNone := by
  unfold waitGoroutine callStateWaitMsg
  rcases api.StateWaitMsg c MessageConfidence w.st with ⟨⟨lookup, err⟩, s'⟩
  cases lookup <;> cases err <;> simp [World.record, World.logError] <;> split <;> simp

/-- The events of goroutines are waits, in the order of the goroutines up to the first one
that faults. -/
theorem runGoroutines_trace (api : SettlerAPI σ) (gs : List (SignedVoucher × Cid)) (w : World σ) :
    ∃ evs, (runGoroutines api gs w).2.trace = w.trace ++ evs ∧
      (∀ ev ∈ evs, ∃ c r, ev = ⟨.StateWaitMsg c MessageConfidence, .waited r⟩) ∧
      ((∀ c n s, (api.StateWaitMsg c n s).1.lookup ≠ none) →
        (runGoroutines api gs w).1 = false ∧
        evs.filterMap Event.waited? = gs.map (fun p => (p.2, MessageConfidence))) ∧
      ((runGoroutines api gs w).1 = true →
        ∃ ev ∈ evs, ∃ c n e, ev = ⟨.StateWaitMsg c n, .waited ⟨none, e⟩⟩) := by
  induction gs generalizing w with
  | nil => exact ⟨[], by simp [runGoroutines]⟩
  | cons g rest ih =>
    obtain ⟨v, c⟩ := g
    unfold runGoroutines
    have htr := waitGoroutine_trace api v c w
    have hfl := waitGoroutine_flag api v c w
    rcases hg : waitGoroutine api v c w with ⟨flag, w1⟩
    rw [hg] at htr hfl
    simp only at htr hfl
    cases flag with
    | true =>
      refine ⟨_, htr, ?_, ?_, ?_⟩
      · intro ev hev
        simp only [List.mem_singleton] at hev
        exact ⟨_, _, hev⟩
      · intro hwait
        have := hwait c MessageConfidence w.st
        cases hlk : (api.StateWaitMsg c MessageConfidence w.st).1.lookup with
        | none => exact absurd hlk this
        | some l => rw [hlk] at hfl; simp at hfl
      · intro _
        refine ⟨_, List.mem_singleton_self _, c, MessageConfidence,
          (api.StateWaitMsg c MessageConfidence w.st).1.err, ?_⟩
        rcases hr : (api.StateWaitMsg c MessageConfidence w.st).1 with ⟨lookup, err⟩
        rw [hr] at hfl
        cases lookup with
        | none => rfl
        | some l => simp at hfl
    | false =>
      obtain ⟨evs, htr2, hall, hok, hbad⟩ := ih w1
      refine ⟨⟨.StateWaitMsg c MessageConfidence,
        .waited (api.StateWaitMsg c MessageConfidence w.st).1⟩ :: evs, ?_, ?_, ?_, ?_⟩
      · simp only
        rw [htr2, htr, List.append_assoc]
        rfl
      · intro ev hev
        rcases List.mem_cons.mp hev with h | h
        · exact ⟨_, _, h⟩
        · exact hall ev h
      · intro hwait
        obtain ⟨h1, h2⟩ := hok hwait
        refine ⟨h1, ?_⟩
        simp [List.filterMap_cons, Event.waited?, h2]
      · intro hflag
        obtain ⟨ev, hev, hex⟩ := hbad hflag
        exact ⟨ev, List.mem_cons_of_mem _ hev, hex⟩

/-- Every run of the loop makes only submissions of the listed vouchers (for the channel,
without secret or proof) and waits, and it ends by returning `more = true` unless a wait
handed back no lookup. -/
theorem submitLoop_trace (api : SettlerAPI σ) (sched : Nat → Nat) (ch : Address)
    (vs : List SignedVoucher) :
    ∀ (j : Nat) (pending : List (SignedVoucher × Cid)) (w : World σ),
      ∃ evs, (submitLoop api sched ch j pending vs w).2.trace = w.trace ++ evs ∧
        (∀ ev ∈ evs, (∃ c r, ev = ⟨.StateWaitMsg c MessageConfidence, .waited r⟩) ∨
          (∃ u r, u ∈ vs ∧ ev = ⟨.FlowchVoucherSubmit ch u none none, .msgCid r⟩)) ∧
        ((∃ err, (submitLoop api sched ch j pending vs w).1 = .returned true err) ∨
          ((submitLoop api sched ch j pending vs w).1 = .panicked ∧
            ∃ ev ∈ evs, ∃ c n e, ev = ⟨.StateWaitMsg c n, .waited ⟨none, e⟩⟩)) := by
  induction vs with
  | nil =>
    intro j pending w
    unfold submitLoop
    obtain ⟨evs, htr, hall, _, hbad⟩ := runGoroutines_trace api pending w
    rcases hrun : runGoroutines api pending w with ⟨flag, w1⟩
    rw [hrun] at htr hbad
    simp only at htr hbad
    refine ⟨evs, ?_, fun ev hev => Or.inl (hall ev hev), ?_⟩
    · cases flag <;> exact htr
    · cases flag with
      | false => exact Or.inl ⟨none, rfl⟩
      | true => exact Or.inr ⟨rfl, hbad rfl⟩
  | cons v rest ih =>
    intro j pending w
    unfold submitLoop
    simp only [callFlowchVoucherSubmit]
    rcases hs : api.FlowchVoucherSubmit ch v none none w.st with ⟨r, s'⟩
    cases r with
    | error e =>
      simp only
      obtain ⟨evs, htr, hall, _, _⟩ := runGoroutines_trace api pending
        (w.record s' (.FlowchVoucherSubmit ch v none none) (.msgCid (.error e)))
      refine ⟨⟨.FlowchVoucherSubmit ch v none none, .msgCid (.error e)⟩ :: evs, ?_, ?_,
        Or.inl ⟨some e, rfl⟩⟩
      · rw [htr]; simp [World.record]
      · intro ev hev
        rcases List.mem_cons.mp hev with h | h
        · exact Or.inr ⟨v, _, List.mem_cons_self _ _, h⟩
        · exact Or.inl (hall ev h)
    | ok c =>
      simp only
      obtain ⟨evs1, htr1, hall1, _, hbad1⟩ := runGoroutines_trace api
        ((pending ++ [(v, c)]).take (sched j))
        (w.record s' (.FlowchVoucherSubmit ch v none none) (.msgCid (.ok c)))
      rcases hrun : runGoroutines api ((pending ++ [(v, c)]).take (sched j))
        (w.record s' (.FlowchVoucherSubmit ch v none none) (.msgCid (.ok c))) with ⟨flag, w2⟩
      rw [hrun] at htr1 hbad1
      simp only at htr1 hbad1
      cases flag with
      | true =>
        simp only
        refine ⟨⟨.FlowchVoucherSubmit ch v none none, .msgCid (.ok c)⟩ :: evs1, ?_, ?_, ?_⟩
        · rw [htr1]; simp [World.record]
        · intro ev hev
          rcases List.mem_cons.mp hev with h | h
          · exact Or.inr ⟨v, _, List.mem_cons_self _ _, h⟩
          · exact Or.inl (hall1 ev h)
        · obtain ⟨ev, hev, hex⟩ := hbad1 rfl
          exact Or.inr ⟨trivial, ev, List.mem_cons_of_mem _ hev, hex⟩
      | false =>
        simp only
        obtain ⟨evs2, htr2, hall2, hres2⟩ := ih (j + 1)
          ((pending ++ [(v, c)]).drop (sched j)) w2
        refine ⟨⟨.FlowchVoucherSubmit ch v none none, .msgCid (.ok c)⟩ :: (evs1 ++ evs2),
          ?_, ?_, ?_⟩
        · rw [htr2, htr1]; simp [World.record]
        · intro ev hev
          rcases List.mem_cons.mp hev with h | h
          · exact Or.inr ⟨v, _, List.mem_cons_self _ _, h⟩
          · rcases List.mem_append.mp h with h1 | h2
            · exact Or.inl (hall1 ev h1)
            · rcases hall2 ev h2 with hw | ⟨u, r, hu, hev2⟩
              · exact Or.inl hw
              · exact Or.inr ⟨u, r, List.mem_cons_of_mem _ hu, hev2⟩
        · rcases hres2 with hret | ⟨hp, ev, hev, hex⟩
          · exact Or.inl hret
          · exact Or.inr ⟨hp, ev,
              List.mem_cons_of_mem _ (List.mem_append.mpr (Or.inr hev)), hex⟩

theorem bestSpendableLoop_calls (api : SettlerAPI σ) (ch : Address)
    (vs : List SignedVoucher) :
    ∀ (best : LaneMap) (w : World σ),
      ∃ evs, (bestSpendableLoop api ch vs best w).2.trace = w.trace ++ evs ∧
        ∀ ev ∈ evs, ∃ v r, ev = ⟨.FlowchVoucherCheckSpendable ch v none none, .spendable r⟩ := by
  induction vs with
  | nil => intro best w; exact ⟨[], by simp [bestSpendableLoop]⟩
  | cons v rest ih =>
    intro best w
    unfold bestSpendableLoop
    simp only [callFlowchVoucherCheckSpendable]
    rcases hs : api.FlowchVoucherCheckSpendable ch v none none w.st with ⟨r, s'⟩
    have step : ∀ best', ∃ evs,
        (bestSpendableLoop api ch rest best'
          (w.record s' (.FlowchVoucherCheckSpendable ch v none none) (.spendable r))).2.trace =
          w.trace ++ evs ∧
        ∀ ev ∈ evs, ∃ v r, ev = ⟨.FlowchVoucherCheckSpendable ch v none none, .spendable r⟩ := by
      intro best'
      obtain ⟨evs, htr, hall⟩ := ih best'
        (w.record s' (.FlowchVoucherCheckSpendable ch v none none) (.spendable r))
      refine ⟨⟨.FlowchVoucherCheckSpendable ch v none none, .spendable r⟩ :: evs, ?_, ?_⟩
      · rw [htr]; simp [World.record]
      · intro ev hev
        rcases List.mem_cons.mp hev with h | h
        · exact ⟨v, r, h⟩
        · exact hall ev h
    cases r with
    | error e =>
      refine ⟨[⟨.FlowchVoucherCheckSpendable ch v none none, .spendable (.error e)⟩],
        by simp [World.record], ?_⟩
      intro ev hev
      exact ⟨v, _, List.mem_singleton.mp hev⟩
    | ok spendable =>
      simp only
      cases spendable with
      | false => simpa using step best
      | true =>
        simp only [if_true]
        cases hget : best.get? v.Lane with
        | none => simpa using step (best.set v.Lane v)
        | some b =>
          simp only
          by_cases hgt : v.Amount > b.Amount
          · simpa [hgt] using step (best.set v.Lane v)
          · simpa [hgt] using step best

theorem bestSpendableByLane_calls (api : SettlerAPI σ) (ch : Address) (w : World σ) :
    ∃ evs, (BestSpendableByLane api ch w).2.trace = w.trace ++ evs ∧
      ∀ ev ∈ evs, ev.call.isSettlerCall = true := by
  unfold BestSpendableByLane
  simp only [callFlowchVoucherList]
  rcases hs : api.FlowchVoucherList ch w.st with ⟨r, s'⟩
  cases r with
  | error e =>
    refine ⟨[⟨.FlowchVoucherList ch, .vouchers (.error e)⟩], by simp [World.record], ?_⟩
    intro ev hev
    rw [List.mem_singleton.mp hev]
    rfl
  | ok vs =>
    simp only
    obtain ⟨evs, htr, hall⟩ := bestSpendableLoop_calls api ch vs []
      (w.record s' (.FlowchVoucherList ch) (.vouchers (.ok vs)))
    refine ⟨⟨.FlowchVoucherList ch, .vouchers (.ok vs)⟩ :: evs, ?_, ?_⟩
    · rw [htr]; simp [World.record]
    · intro ev hev
      rcases List.mem_cons.mp hev with h | h
      · rw [h]; rfl
      · obtain ⟨v, r, rfl⟩ := hall ev h
        rfl

theorem matcherLoop_calls (api : SettlerAPI σ) (msg : Message) (l : List Address) :
    ∀ w : World σ, ∃ evs, (matcherLoop api msg l w).2.trace = w.trace ++ evs ∧
      ∀ ev ∈ evs, ev.call.isSettlerCall = true := by
  induction l with
  | nil => intro w; exact ⟨[], by simp [matcherLoop]⟩
  | cons addr rest ih =>
    intro w
    unfold matcherLoop
    by_cases hto : msg.To = addr
    · simp only [hto, if_true, callFlowchStatus]
      rcases hst : api.FlowchStatus addr w.st with ⟨r, s'⟩
      cases r with
      | error e =>
        refine ⟨[⟨.FlowchStatus addr, .status (.error e)⟩], by simp [World.record], ?_⟩
        intro ev hev
        rw [List.mem_singleton.mp hev]
        rfl
      | ok st =>
        simp only
        by_cases hin : st.Direction = PCHInbound
        · refine ⟨[⟨.FlowchStatus addr, .status (.ok st)⟩], by simp [hin, World.record], ?_⟩
          intro ev hev
          rw [List.mem_singleton.mp hev]
          rfl
        · simp only [hin, if_false]
          obtain ⟨evs, htr, hall⟩ := ih (w.record s' (.FlowchStatus addr) (.status (.ok st)))
          refine ⟨⟨.FlowchStatus addr, .status (.ok st)⟩ :: evs, ?_, ?_⟩
          · rw [htr]; simp [World.record]
          · intro ev hev
            rcases List.mem_cons.mp hev with h | h
            · rw [h]; rfl
            · exact hall ev h
    · simp only [hto, if_false]
      exact ih w

theorem matcher_calls (api : SettlerAPI σ) (msg : Message) (ts : TipSet) (w : World σ) :
    ∃ evs, (matcher api msg ts w).2.trace = w.trace ++ evs ∧
      ∀ ev ∈ evs, ev.call.isSettlerCall = true := by
  unfold matcher
  by_cases hm : msg.Method = Methods.Settle
  · simp only [hm, ne_eq, not_true_eq_false, if_false, callFlowchList]
    rcases hl : api.FlowchList w.st with ⟨r, s1⟩
    cases r with
    | error e =>
      refine ⟨[⟨.FlowchList, .addrs (.error e)⟩], by simp [World.record], ?_⟩
      intro ev hev
      rw [List.mem_singleton.mp hev]
      rfl
    | ok l =>
      simp only
      obtain ⟨evs, htr, hall⟩ := matcherLoop_calls api msg l
        (w.record s1 .FlowchList (.addrs (.ok l)))
      refine ⟨⟨.FlowchList, .addrs (.ok l)⟩ :: evs, ?_, ?_⟩
      · rw [htr]; simp [World.record]
      · intro ev hev
        rcases List.mem_cons.mp hev with h | h
        · rw [h]; rfl
        · exact hall ev h
  · exact ⟨[], by simp [hm]⟩

/-- Every run of the handler makes settler calls only, and it ends by returning
`more = true` unless a wait handed back no lookup. -/
theorem messageHandler_trace (api : SettlerAPI σ) (ord : MapOrder) (sched : Nat → Nat)
    (msg : Message) (rec : MessageReceipt) (ts : TipSet) (curH : Nat) (w : World σ) :
    ∃ evs, (messageHandler api ord sched msg rec ts curH w).2.trace = w.trace ++ evs ∧
      (∀ ev ∈ evs, ev.call.isSettlerCall = true) ∧
      ((∃ err, (messageHandler api ord sched msg rec ts curH w).1 = .returned true err) ∨
        ((messageHandler api ord sched msg rec ts curH w).1 = .panicked ∧
          ∃ ev ∈ evs, ∃ c n e, ev = ⟨.StateWaitMsg c n, .waited ⟨none, e⟩⟩)) := by
  unfold messageHandler
  by_cases hexit : rec.ExitCode = 0
  · simp only [hexit, ne_eq, not_true_eq_false, if_false]
    obtain ⟨evs1, htr1, hall1⟩ := bestSpendableByLane_calls api msg.To w
    rcases hb : BestSpendableByLane api msg.To w with ⟨r, w1⟩
    rw [hb] at htr1
    simp only at htr1
    cases r with
    | error e =>
      exact ⟨evs1, htr1, hall1, Or.inl ⟨some e, rfl⟩⟩
    | ok best =>
      simp only
      obtain ⟨evs2, htr2, hall2, hres2⟩ := submitLoop_trace api sched msg.To
        ((ord.order best).map Prod.snd) 0 [] w1
      refine ⟨evs1 ++ evs2, ?_, ?_, ?_⟩
      · rw [htr2, htr1, List.append_assoc]
      · intro ev hev
        rcases List.mem_append.mp hev with h | h
        · exact hall1 ev h
        · rcases hall2 ev h with ⟨c, r, rfl⟩ | ⟨u, r, _, rfl⟩ <;> rfl
      · rcases hres2 with hret | ⟨hp, ev, hev, hex⟩
        · exact Or.inl hret
        · exact Or.inr ⟨hp, ev, List.mem_append.mpr (Or.inr hev), hex⟩
  · exact ⟨[], by simp [hexit], by simp, Or.inl ⟨none, by simp [hexit]⟩⟩

/-! ## The message handler -/

/-- C5: `check` returns `(done, more, err) = (false, true, nil)` for every tipset, and
every run of `messageHandler` that returns, returns `more = true`: a run ends with
`more = true`, or it does not return at all because a wait handed back no lookup; with a
receipt of non-zero exit code and with a failed voucher lookup it returns `(true, nil)` and
`(true, e)`. -/
theorem settler_keeps_watching (api : SettlerAPI σ) (ord : MapOrder) (sched : Nat → Nat)
    (msg : Message) (rec : MessageReceipt) (ts : TipSet) (curH : Nat) (w : World σ) :
    check ts = (false, true, none) ∧
    (∀ more err, (messageHandler api ord sched msg rec ts curH w).1 = .returned more err →
      more = true) ∧
    ((∃ err, (messageHandler api ord sched msg rec ts curH w).1 = .returned true err) ∨
      ((messageHandler api ord sched msg rec ts curH w).1 = .panicked ∧
        ∃ ev ∈ (messageHandler api ord sched msg rec ts curH w).2.trace,
          ∃ c n e, ev = ⟨.StateWaitMsg c n, .waited ⟨none, e⟩⟩)) ∧
    (rec.ExitCode ≠ 0 →
      (messageHandler api ord sched msg rec ts curH w).1 = .returned true none) ∧
    (∀ e w1, rec.ExitCode = 0 → BestSpendableByLane api msg.To w = (.error e, w1) →
      (messageHandler api ord sched msg rec ts curH w).1 = .returned true (some e)) := by
  obtain ⟨evs, htr, _, hres⟩ := messageHandler_trace api ord sched msg rec ts curH w
  refine ⟨rfl, ?_, ?_, ?_, ?_⟩
  · intro more err h
    rcases hres with ⟨err', h'⟩ | ⟨hp, _⟩
    · rw [h] at h'
      injection h'
    · rw [h] at hp
      exact absurd hp (by simp)
  · rcases hres with hret | ⟨hp, ev, hev, hex⟩
    · exact Or.inl hret
    · refine Or.inr ⟨hp, ev, ?_, hex⟩
      rw [htr]
      exact List.mem_append.mpr (Or.inr hev)
  · intro hexit
    unfold messageHandler
    simp [hexit]
  · intro e w1 hexit hbest
    unfold messageHandler
    simp [hexit, hbest]

/-- C6: for a settle message whose receipt has a non-zero exit code, `messageHandler`
returns `(true, nil)` and leaves the world as it was: no call is added to the trace, the
node state and the log are unchanged. -/
theorem messageHandler_ignores_failed_settle (api : SettlerAPI σ) (ord : MapOrder)
    (sched : Nat → Nat) (msg : Message) (rec : MessageReceipt) (ts : TipSet) (curH : Nat)
    (w : World σ) (hexit : rec.ExitCode ≠ 0) :
    messageHandler api ord sched msg rec ts curH w = (.returned true none, w) := by
  unfold messageHandler
  simp [hexit]

/-- C7: every call made by a run of `matcher`, `messageHandler` or `revertHandler` is one
of the six methods of `settlerAPI` (`check` is a pure function that makes none), and so
none of them creates, adds or deletes a stored channel record or voucher. -/
theorem settler_calls_only_settlerAPI (api : SettlerAPI σ) (ord : MapOrder)
    (sched : Nat → Nat) (msg : Message) (rec : MessageReceipt) (ts : TipSet) (curH : Nat)
    (w : World σ) :
    (∃ evs, (matcher api msg ts w).2.trace = w.trace ++ evs ∧
      ∀ ev ∈ evs, ev.call.isSettlerCall = true ∧ ev.call.writesStore = false) ∧
    (∃ evs, (messageHandler api ord sched msg rec ts curH w).2.trace = w.trace ++ evs ∧
      ∀ ev ∈ evs, ev.call.isSettlerCall = true ∧ ev.call.writesStore = false) ∧
    (revertHandler api ts w).2.trace = w.trace := by
  have hframe : ∀ c : Call, c.isSettlerCall = true → c.writesStore = false := by
    intro c hc
    cases c <;> first | rfl | exact absurd hc (by simp [Call.isSettlerCall])
  refine ⟨?_, ?_, rfl⟩
  · obtain ⟨evs, htr, hall⟩ := matcher_calls api msg ts w
    exact ⟨evs, htr, fun ev hev => ⟨hall ev hev, hframe _ (hall ev hev)⟩⟩
  · obtain ⟨evs, htr, hall, _⟩ := messageHandler_trace api ord sched msg rec ts curH w
    exact ⟨evs, htr, fun ev hev => ⟨hall ev hev, hframe _ (hall ev hev)⟩⟩

/-- C8: for every tipset `revertHandler` returns a nil error and leaves the world as it
was: no call is made and nothing changes. -/
theorem revertHandler_noop (api : SettlerAPI σ) (ts : TipSet) (w : World σ) :
    revertHandler api ts w = (none, w) := rfl

/-- C4, the code at the failing input: the receipt of the settle message has exit code 0,
the vouchers are submitted, and the wait for the first message id hands back an error and
no lookup. The goroutine logs the error and then dereferences the nil lookup: the handler
does not return `(true, nil)`. -/
theorem failed_wait_is_dereferenced :
    (waitFailsNode.StateWaitMsg 100 MessageConfidence 0).1 = ⟨none, some "wait failed"⟩ ∧
    (messageHandler waitFailsNode storedOrder (fun _ => 0) settleMsg okReceipt someTipSet 0
      freshWorld).1 = .panicked ∧
    (messageHandler waitFailsNode storedOrder (fun _ => 0) settleMsg okReceipt someTipSet 0
      freshWorld).2.logs = [.submittingVoucher "wait failed", .nilDereference] ∧
    (messageHandler waitFailsNode storedOrder (fun _ => 0) settleMsg okReceipt someTipSet 0
      freshWorld).1 ≠ .returned true none :=
  ⟨rfl, rfl, rfl, by decide⟩

/-- C5 at concrete nodes: a receipt of non-zero exit code and a failed voucher lookup. -/
theorem settler_keeps_watching_witness :
    (messageHandler goodNode storedOrder (fun _ => 0) settleMsg failedReceipt someTipSet 0
      freshWorld).1 = .returned true none ∧
    (messageHandler voucherListFailsNode storedOrder (fun _ => 0) settleMsg okReceipt
      someTipSet 0 freshWorld).1 = .returned true (some "store closed") :=
  ⟨(settler_keeps_watching goodNode storedOrder (fun _ => 0) settleMsg failedReceipt
      someTipSet 0 freshWorld).2.2.2.1 (by decide),
    (settler_keeps_watching voucherListFailsNode storedOrder (fun _ => 0) settleMsg okReceipt
      someTipSet 0 freshWorld).2.2.2.2 "store closed"
      (BestSpendableByLane voucherListFailsNode settleMsg.To freshWorld).2 rfl rfl⟩

/-- C6 at a concrete node: the receipt has exit code 16. -/
theorem messageHandler_ignores_failed_settle_witness :
    failedReceipt.ExitCode ≠ 0 ∧
    messageHandler goodNode storedOrder (fun _ => 0) settleMsg failedReceipt someTipSet 0
      freshWorld = (.returned true none, freshWorld) :=
  ⟨by decide, messageHandler_ignores_failed_settle goodNode storedOrder (fun _ => 0) settleMsg
    failedReceipt someTipSet 0 freshWorld (by decide)⟩

/-! ## Sorting and printing vouchers -/

theorem insertLeft_perm {α : Type} (less : α → α → Bool) (x : α) (l : List α) :
    (insertLeft less x l).Perm (x :: l) := by
  induction l with
  | nil => exact List.Perm.refl _
  | cons y ys ih =>
    unfold insertLeft
    by_cases h : less x y = true
    · simp only [h, if_true]
      exact (List.Perm.cons y ih).trans (List.Perm.swap x y ys)
    · simp only [h]
      exact List.Perm.refl _

theorem foldl_insertLeft_perm {α : Type} (less : α → α → Bool) (data : List α) :
    ∀ acc : List α,
      (data.foldl (fun sorted x => insertLeft less x sorted) acc).Perm (data ++ acc) := by
  induction data with
  | nil => intro acc; exact List.Perm.refl _
  | cons x rest ih =>
    intro acc
    simp only [List.foldl_cons, List.cons_append]
    refine (ih (insertLeft less x acc)).trans ?_
    exact ((insertLeft_perm less x acc).append_left rest).trans List.perm_middle

theorem sortSlice_perm {α : Type} (less : α → α → Bool) (data : List α) :
    (sortSlice less data).Perm data := by
  unfold sortSlice
  refine (List.reverse_perm _).trans ?_
  simpa using foldl_insertLeft_perm less data []

theorem insertLeft_pairwise {α : Type} (less : α → α → Bool)
    (hasymm : ∀ a b, less a b = true → less b a = false)
    (hneg : ∀ a b c, less a b = false → less b c = false → less a c = false)
    (x : α) (l : List α) (hl : l.Pairwise (fun a b => less a b = false)) :
    (insertLeft less x l).Pairwise (fun a b => less a b = false) := by
  induction l with
  | nil => simp [insertLeft]
  | cons y ys ih =>
    unfold insertLeft
    obtain ⟨hy, hys⟩ := List.pairwise_cons.mp hl
    by_cases h : less x y = true
    · simp only [h, if_true]
      refine List.pairwise_cons.mpr ⟨?_, ih hys⟩
      intro z hz
      rcases List.mem_cons.mp ((insertLeft_perm less x ys).mem_iff.mp hz) with hzx | hzy
      · rw [hzx]; exact hasymm x y h
      · exact hy z hzy
    · have h' : less x y = false := by simpa using h
      simp only [h']
      refine List.pairwise_cons.mpr ⟨?_, hl⟩
      intro z hz
      rcases List.mem_cons.mp hz with hzy | hzys
      · rw [hzy]; exact h'
      · exact hneg x y z h' (hy z hzys)

theorem foldl_insertLeft_pairwise {α : Type} (less : α → α → Bool)
    (hasymm : ∀ a b, less a b = true → less b a = false)
    (hneg : ∀ a b c, less a b = false → less b c = false → less a c = false)
    (data : List α) :
    ∀ acc : List α, acc.Pairwise (fun a b => less a b = false) →
      (data.foldl (fun sorted x => insertLeft less x sorted) acc).Pairwise
        (fun a b => less a b = false) := by
  induction data with
  | nil => intro acc h; exact h
  | cons x rest ih =>
    intro acc h
    simp only [List.foldl_cons]
    exact ih _ (insertLeft_pairwise less hasymm hneg x acc h)

theorem sortSlice_pairwise {α : Type} (less : α → α → Bool)
    (hasymm : ∀ a b, less a b = true → less b a = false)
    (hneg : ∀ a b c, less a b = false → less b c = false → less a c = false)
    (data : List α) :
    (sortSlice less data).Pairwise (fun a b => less b a = false) := by
  unfold sortSlice
  rw [List.pairwise_reverse]
  exact foldl_insertLeft_pairwise less hasymm hneg data [] List.Pairwise.nil

theorem voucherLess_false_iff (a b : SignedVoucher) :
    voucherLess b a = false ↔
      (a.Lane < b.Lane ∨ (a.Lane = b.Lane ∧ a.Nonce ≤ b.Nonce)) := by
  unfold voucherLess
  by_cases h : b.Lane = a.Lane
  · simp only [h, if_true, decide_eq_false_iff_not, Nat.not_lt]
    constructor
    · intro hn; exact Or.inr ⟨trivial, hn⟩
    · rintro (hlt | ⟨_, hn⟩)
      · exact absurd hlt (Nat.lt_irrefl _)
      · exact hn
  · simp only [h, if_false, decide_eq_false_iff_not, Nat.not_lt]
    constructor
    · intro hle
      exact Or.inl (Nat.lt_of_le_of_ne hle (fun e => h e.symm))
    · rintro (hlt | ⟨he, _⟩)
      · exact Nat.le_of_lt hlt
      · exact absurd he.symm h

theorem voucherLess_asymm (a b : SignedVoucher) (h : voucherLess a b = true) :
    voucherLess b a = false := by
  rw [voucherLess_false_iff]
  unfold voucherLess at h
  by_cases hl : a.Lane = b.Lane
  · simp only [hl, if_true, decide_eq_true_eq] at h
    exact Or.inr ⟨hl, Nat.le_of_lt h⟩
  · simp only [hl, if_false, decide_eq_true_eq] at h
    exact Or.inl h

theorem voucherLess_negtrans (a b c : SignedVoucher) (h1 : voucherLess a b = false)
    (h2 : voucherLess b c = false) : voucherLess a c = false := by
  rw [voucherLess_false_iff] at *
  omega

theorem flowoutputVoucher_append (codec : VoucherCodec) (w : List String) (v : SignedVoucher)
    (exportEnc : Bool) :
    flowoutputVoucher codec w v exportEnc =
      ((flowoutputVoucher codec [] v exportEnc).1,
        w ++ (flowoutputVoucher codec [] v exportEnc).2) := by
  unfold flowoutputVoucher
  cases exportEnc with
  | false => simp
  | true =>
    simp only [if_true]
    cases FlowEncodedString codec v <;> simp

theorem printVouchers_prefix (codec : VoucherCodec) (exportEnc : Bool)
    (vs : List SignedVoucher) :
    ∀ w : List String, ∃ n, n ≤ vs.length ∧
      (printVouchers codec exportEnc vs w).2 =
        w ++ (vs.take n).flatMap (fun v => (flowoutputVoucher codec [] v exportEnc).2) ∧
      ((printVouchers codec exportEnc vs w).1 = none → n = vs.length) ∧
      (exportEnc = false → (printVouchers codec exportEnc vs w).1 = none) := by
  induction vs with
  | nil => intro w; exact ⟨0, by simp [printVouchers]⟩
  | cons v rest ih =>
    intro w
    unfold printVouchers
    rw [flowoutputVoucher_append]
    cases herr : (flowoutputVoucher codec [] v exportEnc).1 with
    | some e =>
      refine ⟨0, Nat.zero_le _, ?_, ?_, ?_⟩
      · have h2 : (flowoutputVoucher codec [] v exportEnc).2 = [] := by
          unfold flowoutputVoucher at herr ⊢
          cases exportEnc with
          | false => simp at herr
          | true =>
            simp only [if_true] at herr ⊢
            cases hf : FlowEncodedString codec v with
            | error e' => rfl
            | ok enc => rw [hf] at herr; simp at herr
        simp [h2]
      · intro h; simp at h
      · intro hex
        subst hex
        simp [flowoutputVoucher] at herr
    | none =>
      simp only
      obtain ⟨n, hn, hout, hfull, hex⟩ := ih (w ++ (flowoutputVoucher codec [] v exportEnc).2)
      refine ⟨n + 1, by simpa using hn, ?_, ?_, hex⟩
      · rw [hout]
        simp [List.flatMap_cons, List.append_assoc]
      · intro h
        simp [hfull h]

/-- C9: for every list of vouchers `flowsortVouchers` returns a permutation of its input,
ordered by ascending lane and, within one lane, by ascending nonce; and the voucher list
command and the best-spendable command write what `flowoutputVoucher` writes for the
vouchers in exactly the order of `flowsortVouchers`: for all of them when the command
returns no error (as it does without the export flag), and for the first of them up to the
voucher whose encoding failed otherwise. -/
theorem flowsortVouchers_sorted_perm :
    (∀ vs : List SignedVoucher, (flowsortVouchers vs).Perm vs) ∧
    (∀ vs : List SignedVoucher, (flowsortVouchers vs).Pairwise
      (fun a b => a.Lane < b.Lane ∨ (a.Lane = b.Lane ∧ a.Nonce ≤ b.Nonce))) ∧
    (∀ (api : SettlerAPI σ) (codec : VoucherCodec) (ch : Address) (exportEnc : Bool)
      (out : List String) (w : World σ) (vs : List SignedVoucher) (s' : σ),
      api.FlowchVoucherList ch w.st = (.ok vs, s') →
      ∃ n, n ≤ (flowsortVouchers vs).length ∧
        (flowchVoucherListCmd api codec ch exportEnc out w).1.2 =
          out ++ ((flowsortVouchers vs).take n).flatMap
            (fun v => (flowoutputVoucher codec [] v exportEnc).2) ∧
        ((flowchVoucherListCmd api codec ch exportEnc out w).1.1 = none →
          n = (flowsortVouchers vs).length) ∧
        (exportEnc = false →
          (flowchVoucherListCmd api codec ch exportEnc out w).1.1 = none)) ∧
    (∀ (api : SettlerAPI σ) (codec : VoucherCodec) (ord : MapOrder) (ch : Address)
      (exportEnc : Bool) (out : List String) (w w1 : World σ) (best : LaneMap),
      BestSpendableByLane api ch w = (.ok best, w1) →
      ∃ n, n ≤ (flowsortVouchers ((ord.order best).map Prod.snd)).length ∧
        (flowchVoucherBestSpendableCmd api codec ord ch exportEnc out w).1.2 =
          out ++ ((flowsortVouchers ((ord.order best).map Prod.snd)).take n).flatMap
            (fun v => (flowoutputVoucher codec [] v exportEnc).2) ∧
        ((flowchVoucherBestSpendableCmd api codec ord ch exportEnc out w).1.1 = none →
          n = (flowsortVouchers ((ord.order best).map Prod.snd)).length) ∧
        (exportEnc = false →
          (flowchVoucherBestSpendableCmd api codec ord ch exportEnc out w).1.1 = none)) := by
  refine ⟨fun vs => sortSlice_perm voucherLess vs, ?_, ?_, ?_⟩
  · intro vs
    have h := sortSlice_pairwise voucherLess voucherLess_asymm voucherLess_negtrans vs
    exact h.imp (fun {a b} hab => (voucherLess_false_iff a b).mp hab)
  · intro api codec ch exportEnc out w vs s' hlist
    have hrun : (flowchVoucherListCmd api codec ch exportEnc out w).1 =
        printVouchers codec exportEnc (flowsortVouchers vs) out := by
      unfold flowchVoucherListCmd
      simp [callFlowchVoucherList, hlist]
    rw [hrun]
    exact printVouchers_prefix codec exportEnc (flowsortVouchers vs) out
  · intro api codec ord ch exportEnc out w w1 best hbest
    have hrun : (flowchVoucherBestSpendableCmd api codec ord ch exportEnc out w).1 =
        printVouchers codec exportEnc (flowsortVouchers ((ord.order best).map Prod.snd)) out := by
      unfold flowchVoucherBestSpendableCmd
      simp [hbest]
    rw [hrun]
    exact printVouchers_prefix codec exportEnc _ out

/-- C9 at a concrete node: the list command writes the three stored vouchers by lane and
nonce. -/
theorem flowsortVouchers_sorted_perm_witness :
    flowsortVouchers [voucherOf 2 1 3, voucherOf 0 2 20, voucherOf 1 1 5, voucherOf 0 1 10] =
      [voucherOf 0 1 10, voucherOf 0 2 20, voucherOf 1 1 5, voucherOf 2 1 3] ∧
    (flowsortVouchers [voucherOf 2 1 3, voucherOf 0 2 20, voucherOf 1 1 5,
      voucherOf 0 1 10]).Perm
      [voucherOf 2 1 3, voucherOf 0 2 20, voucherOf 1 1 5, voucherOf 0 1 10] ∧
    (flowchVoucherListCmd goodNode laneNonceCodec 7 false [] freshWorld).1 =
      (none, ["Lane 0, Nonce 1: 10", "\n", "Lane 0, Nonce 2: 20", "\n",
        "Lane 1, Nonce 1: 5", "\n"]) :=
  ⟨by decide, (@flowsortVouchers_sorted_perm Nat).1 _, by decide⟩

/-! ## The text form of a voucher -/

theorem decodeChar_encodeChar : ∀ n, n < 64 →
    (decodeChar (encodeChar n) = some n ∧ encodeChar n ≠ '\r' ∧ encodeChar n ≠ '\n' ∧
      encodeChar n ∈ encodeURL) := by
  decide

theorem encodeQuanta_lt (src : Bytes) : ∀ s ∈ encodeQuanta src, s < 64 := by
  induction src using encodeQuanta.induct with
  | case1 a b c rest ih =>
    intro s hs
    simp only [encodeQuanta, List.mem_cons] at hs
    rcases hs with h | h | h | h | h
    · rw [h]; exact Nat.mod_lt _ (by decide)
    · rw [h]; exact Nat.mod_lt _ (by decide)
    · rw [h]; exact Nat.mod_lt _ (by decide)
    · rw [h]; exact Nat.mod_lt _ (by decide)
    · exact ih s h
  | case2 a b =>
    intro s hs
    simp only [encodeQuanta, List.mem_cons, List.mem_singleton, List.not_mem_nil, or_false] at hs
    rcases hs with h | h | h
    · rw [h]; exact Nat.mod_lt _ (by decide)
    · rw [h]; exact Nat.mod_lt _ (by decide)
    · rw [h]; exact Nat.mod_lt _ (by decide)
  | case3 a =>
    intro s hs
    simp only [encodeQuanta, List.mem_cons, List.mem_singleton, List.not_mem_nil, or_false] at hs
    rcases hs with h | h
    · rw [h]; exact Nat.mod_lt _ (by decide)
    · rw [h]; exact Nat.mod_lt _ (by decide)
  | case4 =>
    intro s hs
    simp [encodeQuanta] at hs

theorem decodeChars_encode (l : List Nat) (hl : ∀ s ∈ l, s < 64) :
    decodeChars (l.map encodeChar) = .ok l := by
  induction l with
  | nil => rfl
  | cons s rest ih =>
    have hs := (decodeChar_encodeChar s (hl s (List.mem_cons_self _ _))).1
    have hrest := ih (fun t ht => hl t (List.mem_cons_of_mem _ ht))
    simp only [List.map_cons, decodeChars, hs, hrest]

theorem filter_encode (l : List Nat) (hl : ∀ s ∈ l, s < 64) :
    (l.map encodeChar).filter (fun c => c ≠ '\r' ∧ c ≠ '\n') = l.map encodeChar := by
  apply List.filter_eq_self.mpr
  intro c hc
  obtain ⟨s, hs, rfl⟩ := List.mem_map.mp hc
  obtain ⟨_, h1, h2, _⟩ := decodeChar_encodeChar s (hl s hs)
  simp [h1, h2]

theorem byteOf_eq (x : Nat) (a : Byte) (h : x % 256 = a.val) : byteOf x = a :=
  Fin.ext h

theorem decodeQuanta_encodeQuanta (src : Bytes) :
    decodeQuanta (encodeQuanta src) = .ok src := by
  induction src using encodeQuanta.induct with
  | case1 a b c rest ih =>
    have ha := a.isLt
    have hb := b.isLt
    have hc := c.isLt
    simp only [encodeQuanta, decodeQuanta, ih]
    have e1 : byteOf ((((a.val * 65536 + b.val * 256 + c.val) / 262144 % 64) * 262144 +
        ((a.val * 65536 + b.val * 256 + c.val) / 4096 % 64) * 4096 +
        ((a.val * 65536 + b.val * 256 + c.val) / 64 % 64) * 64 +
        (a.val * 65536 + b.val * 256 + c.val) % 64) / 65536) = a :=
      byteOf_eq _ a (by omega)
    have e2 : byteOf ((((a.val * 65536 + b.val * 256 + c.val) / 262144 % 64) * 262144 +
        ((a.val * 65536 + b.val * 256 + c.val) / 4096 % 64) * 4096 +
        ((a.val * 65536 + b.val * 256 + c.val) / 64 % 64) * 64 +
        (a.val * 65536 + b.val * 256 + c.val) % 64) / 256) = b :=
      byteOf_eq _ b (by omega)
    have e3 : byteOf (((a.val * 65536 + b.val * 256 + c.val) / 262144 % 64) * 262144 +
        ((a.val * 65536 + b.val * 256 + c.val) / 4096 % 64) * 4096 +
        ((a.val * 65536 + b.val * 256 + c.val) / 64 % 64) * 64 +
        (a.val * 65536 + b.val * 256 + c.val) % 64) = c :=
      byteOf_eq _ c (by omega)
    rw [e1, e2, e3]
  | case2 a b =>
    have ha := a.isLt
    have hb := b.isLt
    simp only [encodeQuanta, decodeQuanta]
    have e1 : byteOf ((((a.val * 65536 + b.val * 256) / 262144 % 64) * 262144 +
        ((a.val * 65536 + b.val * 256) / 4096 % 64) * 4096 +
        ((a.val * 65536 + b.val * 256) / 64 % 64) * 64) / 65536) = a :=
      byteOf_eq _ a (by omega)
    have e2 : byteOf ((((a.val * 65536 + b.val * 256) / 262144 % 64) * 262144 +
        ((a.val * 65536 + b.val * 256) / 4096 % 64) * 4096 +
        ((a.val * 65536 + b.val * 256) / 64 % 64) * 64) / 256) = b :=
      byteOf_eq _ b (by omega)
    rw [e1, e2]
  | case3 a =>
    have ha := a.isLt
    simp only [encodeQuanta, decodeQuanta]
    have e1 : byteOf ((((a.val * 65536) / 262144 % 64) * 262144 +
        ((a.val * 65536) / 4096 % 64) * 4096) / 65536) = a :=
      byteOf_eq _ a (by omega)
    rw [e1]
  | case4 => rfl

theorem encodeQuanta_length (src : Bytes) :
    (encodeQuanta src).length = (4 * src.length + 2) / 3 := by
  induction src using encodeQuanta.induct with
  | case1 a b c rest ih =>
    simp only [encodeQuanta, List.length_cons, ih]
    omega
  | case2 a b => simp [encodeQuanta]
  | case3 a => simp [encodeQuanta]
  | case4 => rfl

/-- Decoding the unpadded URL-safe base64 text of a byte string gives the byte string. -/
theorem DecodeString_EncodeToString (src : Bytes) :
    DecodeString (EncodeToString src) = .ok src := by
  unfold DecodeString EncodeToString
  simp only
  rw [filter_encode _ (encodeQuanta_lt src), decodeChars_encode _ (encodeQuanta_lt src)]
  exact decodeQuanta_encodeQuanta src

theorem byteOf_val (x : Nat) : (byteOf x).val = x % 256 := rfl

theorem beBytes_length (k n : Nat) : (beBytes k n).length = k := by
  induction k with
  | zero => rfl
  | succ k ih => simp [beBytes, ih]

theorem foldl_beBytes (k n acc : Nat) :
    (beBytes k n).foldl (fun a x => a * 256 + x.val) acc = acc * 256 ^ k + n % 256 ^ k := by
  induction k generalizing acc with
  | zero => simp [beBytes, Nat.mod_one]
  | succ k ih =>
    simp only [beBytes, List.foldl_cons, ih, byteOf_val]
    rw [Nat.mod_pow_succ]
    ring

/-- The bytes of a number write the number back if they are enough for it. -/
theorem beNat_beBytes (k n : Nat) (h : n < 256 ^ k) : beNat (beBytes k n) = n := by
  simp only [beNat, foldl_beBytes, Nat.zero_mul, Nat.zero_add]
  exact Nat.mod_eq_of_lt h

theorem readArg_beBytes (k least major n : Nat) (rest : Bytes) (h : n < 256 ^ k)
    (hleast : least ≤ n) :
    readArg k least major (beBytes k n ++ rest) = .ok (major, n, rest) := by
  have hlen := beBytes_length k n
  have htake : (beBytes k n ++ rest).take k = beBytes k n := by
    rw [List.take_append_of_le_length (by omega), List.take_of_length_le (by omega)]
  have hdrop : (beBytes k n ++ rest).drop k = rest := by
    have hd := List.drop_left (beBytes k n) rest
    rwa [hlen] at hd
  simp only [readArg, htake, hdrop, beNat_beBytes k n h, List.length_append, hlen]
  rw [if_neg (by omega), if_neg (by omega)]

/-- The head that is written is the head that is read. -/
theorem readHead_cborHead (major n : Nat) (rest : Bytes) (hmajor : major < 8)
    (hn : n < 2 ^ 64) :
    readHead (cborHead major n ++ rest) = .ok (major, n, rest) := by
  have hfirst : ∀ low, low < 32 → (byteOf (major * 32 + low)).val / 32 = major ∧
      (byteOf (major * 32 + low)).val % 32 = low := by
    intro low hlow
    rw [byteOf_val]
    omega
  unfold cborHead
  split
  · obtain ⟨h1, h2⟩ := hfirst n (by omega)
    simp only [List.singleton_append, readHead, h1, h2]
    rw [if_pos (by omega)]
  · obtain ⟨h1, h2⟩ := hfirst 24 (by omega)
    split
    · simp [readHead, h1, h2, readArg_beBytes 1 24 major n rest (by omega) (by omega)]
    · obtain ⟨h1, h2⟩ := hfirst 25 (by omega)
      split
      · simp [readHead, h1, h2, readArg_beBytes 2 256 major n rest (by omega) (by omega)]
      · obtain ⟨h1, h2⟩ := hfirst 26 (by omega)
        split
        · simp [readHead, h1, h2,
            readArg_beBytes 4 65536 major n rest (by omega) (by omega)]
        · obtain ⟨h1, h2⟩ := hfirst 27 (by omega)
          simp [readHead, h1, h2,
            readArg_beBytes 8 4294967296 major n rest (by omega) (by omega)]

theorem readUint_cborHead (n : Nat) (rest : Bytes) (hn : n < 2 ^ 64) :
    readUint (cborHead 0 n ++ rest) = .ok (n, rest) := by
  simp [readUint, readHead_cborHead 0 n rest (by omega) hn]

theorem readBytes_cborBytes (most : Nat) (b rest : Bytes) (hmost : b.length ≤ most)
    (hlen : b.length < 2 ^ 64) :
    readBytes most (cborBytes b ++ rest) = .ok (b, rest) := by
  simp only [readBytes, cborBytes, List.append_assoc,
    readHead_cborHead 2 b.length (b ++ rest) (by omega) hlen]
  simp [hmost, Nat.not_lt.mpr hmost]

theorem byteLen_bound (fuel : Nat) :
    ∀ n, byteLen fuel n < fuel → n < 256 ^ byteLen fuel n := by
  induction fuel with
  | zero =>
    intro n h
    simp [byteLen] at h
  | succ fuel ih =>
    intro n h
    simp only [byteLen] at h ⊢
    split
    · rename_i h0
      subst h0
      simp
    · rename_i h0
      rw [if_neg h0] at h
      have hlt := ih (n / 256) (by omega)
      rw [pow_succ]
      omega

/-- The bytes of a big integer that is not too long write it back. -/
theorem readBigInt_bigIntBytes (a : Int)
    (h : (bigIntBytes a).length ≤ BigIntMaxSerializedLen) :
    readBigInt (bigIntBytes a) = .ok a := by
  unfold bigIntBytes at h ⊢
  split
  · rename_i h0
    subst h0
    rfl
  · rename_i h0
    rw [if_neg h0] at h
    simp only [List.length_cons, beBytes_length] at h
    have hb := byteLen_bound BigIntMaxSerializedLen a.natAbs (by omega)
    have hnat := beNat_beBytes _ _ hb
    split
    · rename_i hpos
      simp only [readBigInt, byteOf_val]
      simp only [Nat.zero_mod, if_true, hnat]
      congr 1
      omega
    · rename_i hpos
      simp only [readBigInt, byteOf_val]
      have h1 : (1 % 256 = 0) = False := by simp
      simp only [h1, if_false, if_true, hnat]
      congr 1
      omega

theorem uvarint_length (fuel : Nat) : ∀ x, (uvarint fuel x).length ≤ fuel + 1 := by
  induction fuel with
  | zero =>
    intro x
    simp [uvarint]
  | succ fuel ih =>
    intro x
    simp only [uvarint]
    split
    · simp
    · have := ih (x / 128)
      simp only [List.length_cons]
      omega

/-- The variable-length form of a number writes it back. -/
theorem fromUvarint_uvarint (fuel : Nat) :
    ∀ x, x < 128 ^ (fuel + 1) → fromUvarint (uvarint fuel x) = .ok x := by
  induction fuel with
  | zero =>
    intro x hx
    have hx' : x < 128 := by simpa using hx
    have hval : (byteOf x).val = x := by rw [byteOf_val]; omega
    simp [uvarint, fromUvarint, hval, hx']
  | succ fuel ih =>
    intro x hx
    simp only [uvarint]
    split
    · rename_i hlt
      have hval : (byteOf x).val = x := by rw [byteOf_val]; omega
      simp [fromUvarint, hval, hlt]
    · rename_i hge
      have hval : (byteOf (x % 128 + 128)).val = x % 128 + 128 := by
        rw [byteOf_val]; omega
      have hrec := ih (x / 128) (by
        rw [pow_succ] at hx
        omega)
      have hne : ¬ (x / 128 = 0) := by omega
      simp only [fromUvarint, hval, hrec]
      rw [if_neg (by omega), if_neg hne]
      congr 1
      omega

/-- The bytes of an address write it back. -/
theorem readAddress_addressBytes (a : Address) (h : a < 2 ^ 63) :
    readAddress (addressBytes a) = .ok a := by
  have h' : a < 9223372036854775808 := by
    norm_num at h
    exact h
  have hrec := fromUvarint_uvarint 9 a (by
    have : (9223372036854775808 : Nat) < 128 ^ (9 + 1) := by norm_num
    exact Nat.lt_trans h' this)
  have h0 : (byteOf 0).val = 0 := rfl
  simp only [addressBytes, readAddress, h0, hrec]
  simp [Nat.not_le.mpr h']

theorem addressBytes_length (a : Address) : (addressBytes a).length ≤ 11 := by
  have := uvarint_length 9 a
  simp only [addressBytes, List.length_cons]
  omega

theorem readMerge_marshalMerge (m : Merge) (rest : Bytes) (hl : m.Lane < 2 ^ 64)
    (hn : m.Nonce < 2 ^ 64) :
    readMerge (marshalMerge m ++ rest) = .ok (m, rest) := by
  simp only [readMerge, marshalMerge, List.append_assoc,
    readHead_cborHead 4 2 _ (by omega) (by norm_num),
    readUint_cborHead m.Lane _ hl, readUint_cborHead m.Nonce _ hn]
  simp

theorem readMerges_flatMap (ms : List Merge) (rest : Bytes)
    (h : ∀ m ∈ ms, m.Lane < 2 ^ 64 ∧ m.Nonce < 2 ^ 64) :
    readMerges ms.length (ms.flatMap marshalMerge ++ rest) = .ok (ms, rest) := by
  induction ms with
  | nil => rfl
  | cons m tail ih =>
    have hm := h m (List.mem_cons_self _ _)
    have ht := ih (fun x hx => h x (List.mem_cons_of_mem _ hx))
    simp only [List.length_cons, List.flatMap_cons, List.append_assoc, readMerges,
      readMerge_marshalMerge m _ hm.1 hm.2, ht]

theorem readEpoch_cborHead (n : Nat) (rest : Bytes) (hn : n < 2 ^ 63) :
    readEpoch (cborHead 0 n ++ rest) = .ok (n, rest) := by
  have hn' : n < 9223372036854775808 := by
    norm_num at hn
    exact hn
  simp only [readEpoch, readHead_cborHead 0 n rest (by omega) (by omega)]
  simp [Nat.not_le.mpr hn']

theorem cborHead_ne_nil (major n : Nat) : cborHead major n ≠ [] := by
  unfold cborHead
  split
  · simp
  · split
    · simp
    · split
      · simp
      · split <;> simp

theorem cborHead_first (n : Nat) :
    ∃ first tail, cborHead 2 n = first :: tail ∧ first ≠ CborNull := by
  have key : ∀ low, low < 32 → byteOf (2 * 32 + low) ≠ CborNull := by
    intro low hlow h
    have hv := congrArg Fin.val h
    simp only [byteOf_val, CborNull] at hv
    omega
  unfold cborHead
  split
  · exact ⟨_, _, rfl, key n (by omega)⟩
  · split
    · exact ⟨_, _, rfl, key 24 (by omega)⟩
    · split
      · exact ⟨_, _, rfl, key 25 (by omega)⟩
      · split
        · exact ⟨_, _, rfl, key 26 (by omega)⟩
        · exact ⟨_, _, rfl, key 27 (by omega)⟩

theorem readSignature_marshalSignature (sig : Option Bytes) (rest : Bytes)
    (h : validSignature sig = true) :
    readSignature (marshalSignature sig ++ rest) = .ok (sig, rest) := by
  cases sig with
  | none => simp [marshalSignature, readSignature]
  | some s =>
    cases s with
    | nil => simp [validSignature] at h
    | cons typ data =>
      simp only [validSignature, Bool.and_eq_true, decide_eq_true_eq, Bool.or_eq_true,
        beq_iff_eq] at h
      obtain ⟨hlen, htyp⟩ := h
      obtain ⟨first, tail, hhead, hne⟩ := cborHead_first (typ :: data).length
      have hread := readBytes_cborBytes SignatureMaxLength (typ :: data) rest hlen (by
        simp only [SignatureMaxLength] at hlen
        omega)
      have hshape : marshalSignature (some (typ :: data)) ++ rest
          = first :: (tail ++ (typ :: data) ++ rest) := by
        simp only [marshalSignature, cborBytes, hhead, List.cons_append, List.append_assoc]
      have hback : first :: (tail ++ (typ :: data) ++ rest)
          = cborBytes (typ :: data) ++ rest := by
        simp only [cborBytes, hhead, List.cons_append, List.append_assoc]
      rw [hshape]
      simp only [readSignature, if_neg hne]
      rw [hback, hread]
      simp only [if_pos htyp]

/-- The binary form of a validly constructed voucher is read back as the voucher. -/
theorem UnmarshalCBOR_MarshalCBOR (v : SignedVoucher) (hv : v.Valid) :
    ∃ buf, MarshalCBOR v = .ok buf ∧ UnmarshalCBOR buf = .ok v := by
  obtain ⟨haddr, hlane, hnonce, hamt, hheight, hcount, hmerges, hsig⟩ := hv
  have hcount' : v.Merges.length ≤ 8192 := hcount
  have hamt' : (bigIntBytes v.Amount).length ≤ 128 := hamt
  have hm : MarshalCBOR v = .ok (cborHead 4 7 ++ cborBytes (addressBytes v.ChannelAddr) ++
      cborHead 0 v.Lane ++ cborHead 0 v.Nonce ++ cborBytes (bigIntBytes v.Amount) ++
      cborHead 0 v.MinSettleHeight ++ cborHead 4 v.Merges.length ++
      v.Merges.flatMap marshalMerge ++ marshalSignature v.Signature) := by
    simp only [MarshalCBOR]
    rw [if_neg (Nat.not_lt.mpr hamt), if_neg (Nat.not_lt.mpr hcount)]
  refine ⟨_, hm, ?_⟩
  · have h1 : ∀ rest, readAddressField (cborBytes (addressBytes v.ChannelAddr) ++ rest)
        = .ok (v.ChannelAddr, rest) := by
      intro rest
      have hl := addressBytes_length v.ChannelAddr
      simp only [readAddressField,
        readBytes_cborBytes MaxAddressLength (addressBytes v.ChannelAddr) rest
          (by simp only [MaxAddressLength]; omega) (by omega),
        readAddress_addressBytes v.ChannelAddr haddr]
    have h2 : ∀ rest, readAmountField (cborBytes (bigIntBytes v.Amount) ++ rest)
        = .ok (v.Amount, rest) := by
      intro rest
      simp only [readAmountField,
        readBytes_cborBytes BigIntMaxSerializedLen (bigIntBytes v.Amount) rest hamt
          (by omega),
        readBigInt_bigIntBytes v.Amount hamt]
    have h3 : ∀ rest, readMergeArray
        (cborHead 4 v.Merges.length ++ (v.Merges.flatMap marshalMerge ++ rest))
        = .ok (v.Merges, rest) := by
      intro rest
      simp only [readMergeArray,
        readHead_cborHead 4 v.Merges.length _ (by omega) (by omega),
        readMerges_flatMap v.Merges rest hmerges]
      simp [Nat.not_lt.mpr hcount]
    simp only [UnmarshalCBOR, List.append_assoc,
      readHead_cborHead 4 7 _ (by omega) (by norm_num), h1, h2, h3,
      readUint_cborHead v.Lane _ hlane, readUint_cborHead v.Nonce _ hnonce,
      readEpoch_cborHead v.MinSettleHeight _ hheight]
    have h4 := readSignature_marshalSignature v.Signature [] hsig
    simp only [List.append_nil] at h4
    simp [h4]

/-- Claim C10. For every validly constructed signed voucher `v`, `FlowEncodedString v`
returns a text, which is the unpadded URL-safe base64 text of the CBOR serialisation `buf`
of `v` (characters of the URL-safe alphabet only, `(4 * len + 2) / 3` of them, no
padding); `DecodeSignedVoucher` reads the text back as `v`; and `FlowEncodedString` of
whatever voucher `DecodeSignedVoucher` reads from the text is the very same text. -/
theorem voucher_text_round_trip (v : SignedVoucher) (hv : v.Valid) :
    ∃ buf text, MarshalCBOR v = .ok buf ∧ text = EncodeToString buf ∧
      FlowEncodedString cborCodec v = .ok text ∧
      text.length = (4 * buf.length + 2) / 3 ∧
      (∀ c ∈ text.data, c ∈ encodeURL) ∧
      DecodeSignedVoucher cborCodec text = .ok v ∧
      ∀ v', DecodeSignedVoucher cborCodec text = .ok v' →
        FlowEncodedString cborCodec v' = .ok text := by
  obtain ⟨buf, hm, hu⟩ := UnmarshalCBOR_MarshalCBOR v hv
  have henc : FlowEncodedString cborCodec v = .ok (EncodeToString buf) := by
    simp only [FlowEncodedString, cborCodec, hm]
  have hdec : DecodeSignedVoucher cborCodec (EncodeToString buf) = .ok v := by
    simp only [DecodeSignedVoucher, DecodeString_EncodeToString, cborCodec, hu]
  refine ⟨buf, EncodeToString buf, hm, rfl, henc, ?_, ?_, hdec, ?_⟩
  · unfold EncodeToString
    rw [String.length_mk, List.length_map]
    exact encodeQuanta_length buf
  · intro c hc
    unfold EncodeToString at hc
    obtain ⟨s, hs, rfl⟩ := List.mem_map.mp hc
    exact (decodeChar_encodeChar s (encodeQuanta_lt buf s hs)).2.2.2
  · intro v' hv'
    rw [hdec] at hv'
    cases hv'
    exact henc

/-- The claim C10 at the voucher `signedVoucher`: it is validly constructed, its text form
has 43 characters, the text is read back as the voucher, and the voucher read back has the
same text form. -/
theorem voucher_text_round_trip_witness :
    signedVoucher.Valid ∧
    FlowEncodedString cborCodec signedVoucher
      = .ok "h0MA6AcDGQEsRAABEXAYGYKCAQKCAhoAAQAARAGqu8w" ∧
    DecodeSignedVoucher cborCodec "h0MA6AcDGQEsRAABEXAYGYKCAQKCAhoAAQAARAGqu8w"
      = .ok signedVoucher ∧
    ∃ buf text, MarshalCBOR signedVoucher = .ok buf ∧ text = EncodeToString buf ∧
      FlowEncodedString cborCodec signedVoucher = .ok text ∧
      text.length = (4 * buf.length + 2) / 3 ∧
      (∀ c ∈ text.data, c ∈ encodeURL) ∧
      DecodeSignedVoucher cborCodec text = .ok signedVoucher ∧
      ∀ v', DecodeSignedVoucher cborCodec text = .ok v' →
        FlowEncodedString cborCodec v' = .ok text :=
  ⟨by decide, rfl, rfl, voucher_text_round_trip signedVoucher (by decide)⟩

/-! ## The channel commands -/

/-- C11, the code at the failing input: the settle (resp. collect) message is pushed and
waiting for its receipt fails with the error `wait failed`. Both commands return a nil
error and so end as a success; the voucher submit command, on the same failure, returns
the error. -/
theorem settle_and_collect_swallow_wait_error :
    (cliWaitFailsNode.FlowchSettle 7 0).1 = .ok 207 ∧
    (cliWaitFailsNode.StateWaitMsg 207 MessageConfidence 1).1 = ⟨none, some "wait failed"⟩ ∧
    (flowchSettleCmd cliWaitFailsNode 7 [] 0).1 = (.returned none, []) ∧
    (cliWaitFailsNode.FlowchCollect 7 0).1 = .ok 307 ∧
    (cliWaitFailsNode.StateWaitMsg 307 MessageConfidence 1).1 = ⟨none, some "wait failed"⟩ ∧
    (flowchCloseCmd cliWaitFailsNode 7 [] 0).1 = (.returned none, []) ∧
    (flowchVoucherSubmitCmd cliWaitFailsNode 7 (voucherOf 0 1 10) [] 0).1 =
      (.returned (some "wait failed"), []) :=
  ⟨rfl, rfl, rfl, rfl, rfl, rfl, rfl⟩

/-- C12: the add-funds command writes a channel address only when `FlowchGet` and then
`FlowchGetWaitReady` on the wait sentinel that `FlowchGet` returned both succeed, and what
it writes is the address `FlowchGetWaitReady` returned; if `FlowchGet` fails, or
`FlowchGetWaitReady` fails, it returns that error and writes nothing. -/
theorem addFunds_writes_only_the_confirmed_address (api : FullNodeAPI σ)
    (sender target : Address) (amt : Int) (restartRetrievals : Bool) (out : List String)
    (s : σ) :
    (∀ e s1, api.FlowchGet sender target amt s = (.error e, s1) →
      (flowchAddFundsCmd api sender target amt restartRetrievals out s).1 = (some e, out)) ∧
    (∀ info s1 e s2, api.FlowchGet sender target amt s = (.ok info, s1) →
      api.FlowchGetWaitReady info.WaitSentinel s1 = (.error e, s2) →
      (flowchAddFundsCmd api sender target amt restartRetrievals out s).1 = (some e, out)) ∧
    (∀ info s1 chAddr s2, api.FlowchGet sender target amt s = (.ok info, s1) →
      api.FlowchGetWaitReady info.WaitSentinel s1 = (.ok chAddr, s2) →
      (flowchAddFundsCmd api sender target amt restartRetrievals out s).1.2 =
        out ++ [toString chAddr ++ "\n"]) ∧
    ((flowchAddFundsCmd api sender target amt restartRetrievals out s).1.2 = out ∨
      ∃ info s1 chAddr s2, api.FlowchGet sender target amt s = (.ok info, s1) ∧
        api.FlowchGetWaitReady info.WaitSentinel s1 = (.ok chAddr, s2) ∧
        (flowchAddFundsCmd api sender target amt restartRetrievals out s).1.2 =
          out ++ [toString chAddr ++ "\n"]) := by
  have hboth : ∀ info s1 chAddr s2, api.FlowchGet sender target amt s = (.ok info, s1) →
      api.FlowchGetWaitReady info.WaitSentinel s1 = (.ok chAddr, s2) →
      (flowchAddFundsCmd api sender target amt restartRetrievals out s).1.2 =
        out ++ [toString chAddr ++ "\n"] := by
    intro info s1 chAddr s2 hget hready
    unfold flowchAddFundsCmd
    simp only [hget, hready]
    cases restartRetrievals <;> simp
  refine ⟨?_, ?_, hboth, ?_⟩
  · intro e s1 hget
    unfold flowchAddFundsCmd
    simp only [hget]
  · intro info s1 e s2 hget hready
    unfold flowchAddFundsCmd
    simp only [hget, hready]
  · rcases hget : api.FlowchGet sender target amt s with ⟨r, s1⟩
    cases r with
    | error e =>
      left
      unfold flowchAddFundsCmd
      simp only [hget]
    | ok info =>
      rcases hready : api.FlowchGetWaitReady info.WaitSentinel s1 with ⟨r2, s2⟩
      cases r2 with
      | error e =>
        left
        unfold flowchAddFundsCmd
        simp only [hget, hready]
      | ok chAddr =>
        right
        refine ⟨info, s1, chAddr, s2, rfl, hready, ?_⟩
        exact hboth info s1 chAddr s2 hget hready

/-- C12 at concrete nodes: the address 7 is written after both calls succeeded, and nothing
is written when the confirmation fails. -/
theorem addFunds_writes_only_the_confirmed_address_witness :
    (flowchAddFundsCmd cliNode 1 2 10 true [] 0).1.2 = [] ++ [toString (7 : Address) ++ "\n"] ∧
    (flowchAddFundsCmd cliNotReadyNode 1 2 10 true [] 0).1 =
      (some "context deadline exceeded", []) :=
  ⟨(addFunds_writes_only_the_confirmed_address cliNode 1 2 10 true [] 0).2.2.1
      ⟨7, 55⟩ 1 7 2 rfl rfl,
    (addFunds_writes_only_the_confirmed_address cliNotReadyNode 1 2 10 true [] 0).2.1
      ⟨7, 55⟩ 1 "context deadline exceeded" 2 rfl rfl⟩

/-- C13: the voucher create command prints a voucher or reports a shortfall, never both.
When the API result carries no voucher it returns the insufficient-funds error with the
shortfall of the result and prints nothing; when it carries a voucher it prints exactly
the text `FlowEncodedString` gives for that voucher (and returns the error of
`FlowEncodedString`, printing nothing, if the voucher cannot be serialised); an error of
the API call is returned as it is. -/
theorem voucherCreate_prints_voucher_or_reports_shortfall (api : FullNodeAPI σ)
    (codec : VoucherCodec) (ch : Address) (amt : Int) (lane : Nat) (out : List String)
    (s : σ) :
    (∀ e s1, api.FlowchVoucherCreate ch amt lane s = (.error e, s1) →
      (flowchVoucherCreateCmd api codec ch amt lane out s).1 = (some e, out)) ∧
    (∀ v s1, api.FlowchVoucherCreate ch amt lane s = (.ok v, s1) → v.Voucher = none →
      (flowchVoucherCreateCmd api codec ch amt lane out s).1 =
        (some ("Could not create voucher: insufficient funds in channel, shortfall: " ++
          toString v.Shortfall), out)) ∧
    (∀ v s1 voucher enc, api.FlowchVoucherCreate ch amt lane s = (.ok v, s1) →
      v.Voucher = some voucher → FlowEncodedString codec voucher = .ok enc →
      (flowchVoucherCreateCmd api codec ch amt lane out s).1 = (none, out ++ [enc ++ "\n"])) ∧
    (∀ v s1 voucher e, api.FlowchVoucherCreate ch amt lane s = (.ok v, s1) →
      v.Voucher = some voucher → FlowEncodedString codec voucher = .error e →
      (flowchVoucherCreateCmd api codec ch amt lane out s).1 = (some e, out)) := by
  refine ⟨?_, ?_, ?_, ?_⟩
  · intro e s1 h
    unfold flowchVoucherCreateCmd
    simp only [h]
  · intro v s1 h hv
    unfold flowchVoucherCreateCmd
    simp only [h, hv]
  · intro v s1 voucher enc h hv henc
    unfold flowchVoucherCreateCmd
    simp only [h, hv, henc]
  · intro v s1 voucher e h hv henc
    unfold flowchVoucherCreateCmd
    simp only [h, hv, henc]

/-- C13 at a concrete node: an amount of 60 prints the voucher, an amount of 110 reports the
shortfall 10. -/
theorem voucherCreate_prints_voucher_or_reports_shortfall_witness :
    (flowchVoucherCreateCmd cliNode laneNonceCodec 7 60 0 [] 0).1 = (none, [] ++ ["AAE" ++ "\n"]) ∧
    (flowchVoucherCreateCmd cliNode laneNonceCodec 7 110 0 [] 0).1 =
      (some ("Could not create voucher: insufficient funds in channel, shortfall: " ++
        toString (10 : Int)), []) :=
  ⟨(voucherCreate_prints_voucher_or_reports_shortfall cliNode laneNonceCodec 7 60 0 [] 0).2.2.1
      ⟨some (voucherOf 0 1 60), 0⟩ 1 (voucherOf 0 1 60) "AAE" rfl rfl rfl,
    (voucherCreate_prints_voucher_or_reports_shortfall cliNode laneNonceCodec 7 110 0 [] 0).2.1
      ⟨none, 10⟩ 1 rfl rfl⟩

theorem settle_by_receipt (api : FullNodeAPI σ) (ch : Address) (out : List String) (s : σ) :
    (∀ mcid s1 mwait s2, api.FlowchSettle ch s = (.ok mcid, s1) →
      api.StateWaitMsg mcid MessageConfidence s1 = (⟨some mwait, none⟩, s2) →
      mwait.Receipt.ExitCode ≠ 0 →
      (flowchSettleCmd api ch out s).1 =
        (.returned (some ("settle message execution failed (exit code " ++
          toString mwait.Receipt.ExitCode ++ ")")), out)) ∧
    ((flowchSettleCmd api ch out s).1.2 = out ∨
      ∃ mcid s1 mwait s2, api.FlowchSettle ch s = (.ok mcid, s1) ∧
        api.StateWaitMsg mcid MessageConfidence s1 = (⟨some mwait, none⟩, s2) ∧
        mwait.Receipt.ExitCode = 0 ∧
        (flowchSettleCmd api ch out s).1 =
          (.returned none, out ++ ["Settled channel " ++ toString ch ++ "\n"])) := by
  constructor
  · intro mcid s1 mwait s2 hpush hwait hcode
    unfold flowchSettleCmd
    simp only [hpush, hwait, hcode, ne_eq, not_false_eq_true, if_true]
  · unfold flowchSettleCmd
    rcases hpush : api.FlowchSettle ch s with ⟨r, s1⟩
    cases r with
    | error e => left; rfl
    | ok mcid =>
      rcases hwait : api.StateWaitMsg mcid MessageConfidence s1 with ⟨⟨lookup, err⟩, s2⟩
      cases err with
      | some e => left; simp [hwait]
      | none =>
        cases lookup with
        | none => left; simp [hwait]
        | some mwait =>
          by_cases hcode : mwait.Receipt.ExitCode = 0
          · right
            exact ⟨mcid, s1, mwait, s2, rfl, hwait, hcode, by simp [hwait, hcode]⟩
          · left
            simp [hwait, hcode]

theorem collect_by_receipt (api : FullNodeAPI σ) (ch : Address) (out : List String) (s : σ) :
    (∀ mcid s1 mwait s2, api.FlowchCollect ch s = (.ok mcid, s1) →
      api.StateWaitMsg mcid MessageConfidence s1 = (⟨some mwait, none⟩, s2) →
      mwait.Receipt.ExitCode ≠ 0 →
      (flowchCloseCmd api ch out s).1 =
        (.returned (some ("collect message execution failed (exit code " ++
          toString mwait.Receipt.ExitCode ++ ")")), out)) ∧
    ((flowchCloseCmd api ch out s).1.2 = out ∨
      ∃ mcid s1 mwait s2, api.FlowchCollect ch s = (.ok mcid, s1) ∧
        api.StateWaitMsg mcid MessageConfidence s1 = (⟨some mwait, none⟩, s2) ∧
        mwait.Receipt.ExitCode = 0 ∧
        (flowchCloseCmd api ch out s).1 =
          (.returned none, out ++ ["Collected funds for channel " ++ toString ch ++ "\n"])) := by
  constructor
  · intro mcid s1 mwait s2 hpush hwait hcode
    unfold flowchCloseCmd
    simp only [hpush, hwait, hcode, ne_eq, not_false_eq_true, if_true]
  · unfold flowchCloseCmd
    rcases hpush : api.FlowchCollect ch s with ⟨r, s1⟩
    cases r with
    | error e => left; rfl
    | ok mcid =>
      rcases hwait : api.StateWaitMsg mcid MessageConfidence s1 with ⟨⟨lookup, err⟩, s2⟩
      cases err with
      | some e => left; simp [hwait]
      | none =>
        cases lookup with
        | none => left; simp [hwait]
        | some mwait =>
          by_cases hcode : mwait.Receipt.ExitCode = 0
          · right
            exact ⟨mcid, s1, mwait, s2, rfl, hwait, hcode, by simp [hwait, hcode]⟩
          · left
            simp [hwait, hcode]

theorem submit_by_receipt (api : FullNodeAPI σ) (ch : Address) (sv : SignedVoucher)
    (out : List String) (s : σ) :
    (∀ mcid s1 mwait s2, api.FlowchVoucherSubmit ch sv none none s = (.ok mcid, s1) →
      api.StateWaitMsg mcid MessageConfidence s1 = (⟨some mwait, none⟩, s2) →
      mwait.Receipt.ExitCode ≠ 0 →
      (flowchVoucherSubmitCmd api ch sv out s).1 =
        (.returned (some ("message execution failed (exit code " ++
          toString mwait.Receipt.ExitCode ++ ")")), out)) ∧
    ((flowchVoucherSubmitCmd api ch sv out s).1.2 = out ∨
      ∃ mcid s1 mwait s2, api.FlowchVoucherSubmit ch sv none none s = (.ok mcid, s1) ∧
        api.StateWaitMsg mcid MessageConfidence s1 = (⟨some mwait, none⟩, s2) ∧
        mwait.Receipt.ExitCode = 0 ∧
        (flowchVoucherSubmitCmd api ch sv out s).1 =
          (.returned none, out ++ ["channel updated successfully\n"])) := by
  constructor
  · intro mcid s1 mwait s2 hpush hwait hcode
    unfold flowchVoucherSubmitCmd
    simp only [hpush, hwait, hcode, ne_eq, not_false_eq_true, if_true]
  · unfold flowchVoucherSubmitCmd
    rcases hpush : api.FlowchVoucherSubmit ch sv none none s with ⟨r, s1⟩
    cases r with
    | error e => left; rfl
    | ok mcid =>
      rcases hwait : api.StateWaitMsg mcid MessageConfidence s1 with ⟨⟨lookup, err⟩, s2⟩
      cases err with
      | some e => left; simp [hwait]
      | none =>
        cases lookup with
        | none => left; simp [hwait]
        | some mwait =>
          by_cases hcode : mwait.Receipt.ExitCode = 0
          · right
            exact ⟨mcid, s1, mwait, s2, rfl, hwait, hcode, by simp [hwait, hcode]⟩
          · left
            simp [hwait, hcode]

/-- C16: for the settle, collect and voucher submit commands, when the wait hands back a
receipt (a lookup and a nil error) with a non-zero exit code, the command returns the
error that names that exit code and writes nothing; and whatever the node answers, the
command either writes nothing or it obtained a receipt with exit code 0 and wrote its
success line (`Settled channel`, `Collected funds for channel`,
`channel updated successfully`) and returned nil. -/
theorem success_line_needs_exit_code_zero (api : FullNodeAPI σ) (ch : Address)
    (sv : SignedVoucher) (out : List String) (s : σ) :
    ((∀ mcid s1 mwait s2, api.FlowchSettle ch s = (.ok mcid, s1) →
        api.StateWaitMsg mcid MessageConfidence s1 = (⟨some mwait, none⟩, s2) →
        mwait.Receipt.ExitCode ≠ 0 →
        (flowchSettleCmd api ch out s).1 =
          (.returned (some ("settle message execution failed (exit code " ++
            toString mwait.Receipt.ExitCode ++ ")")), out)) ∧
      ((flowchSettleCmd api ch out s).1.2 = out ∨
        ∃ mcid s1 mwait s2, api.FlowchSettle ch s = (.ok mcid, s1) ∧
          api.StateWaitMsg mcid MessageConfidence s1 = (⟨some mwait, none⟩, s2) ∧
          mwait.Receipt.ExitCode = 0 ∧
          (flowchSettleCmd api ch out s).1 =
            (.returned none, out ++ ["Settled channel " ++ toString ch ++ "\n"]))) ∧
    ((∀ mcid s1 mwait s2, api.FlowchCollect ch s = (.ok mcid, s1) →
        api.StateWaitMsg mcid MessageConfidence s1 = (⟨some mwait, none⟩, s2) →
        mwait.Receipt.ExitCode ≠ 0 →
        (flowchCloseCmd api ch out s).1 =
          (.returned (some ("collect message execution failed (exit code " ++
            toString mwait.Receipt.ExitCode ++ ")")), out)) ∧
      ((flowchCloseCmd api ch out s).1.2 = out ∨
        ∃ mcid s1 mwait s2, api.FlowchCollect ch s = (.ok mcid, s1) ∧
          api.StateWaitMsg mcid MessageConfidence s1 = (⟨some mwait, none⟩, s2) ∧
          mwait.Receipt.ExitCode = 0 ∧
          (flowchCloseCmd api ch out s).1 =
            (.returned none,
              out ++ ["Collected funds for channel " ++ toString ch ++ "\n"]))) ∧
    ((∀ mcid s1 mwait s2, api.FlowchVoucherSubmit ch sv none none s = (.ok mcid, s1) →
        api.StateWaitMsg mcid MessageConfidence s1 = (⟨some mwait, none⟩, s2) →
        mwait.Receipt.ExitCode ≠ 0 →
        (flowchVoucherSubmitCmd api ch sv out s).1 =
          (.returned (some ("message execution failed (exit code " ++
            toString mwait.Receipt.ExitCode ++ ")")), out)) ∧
      ((flowchVoucherSubmitCmd api ch sv out s).1.2 = out ∨
        ∃ mcid s1 mwait s2, api.FlowchVoucherSubmit ch sv none none s = (.ok mcid, s1) ∧
          api.StateWaitMsg mcid MessageConfidence s1 = (⟨some mwait, none⟩, s2) ∧
          mwait.Receipt.ExitCode = 0 ∧
          (flowchVoucherSubmitCmd api ch sv out s).1 =
            (.returned none, out ++ ["channel updated successfully\n"]))) :=
  ⟨settle_by_receipt api ch out s, collect_by_receipt api ch out s,
    submit_by_receipt api ch sv out s⟩

/-- C16 at a concrete node that executes every message with exit code 16. -/
theorem success_line_needs_exit_code_zero_witness :
    (flowchSettleCmd cliExitCodeNode 7 [] 0).1 =
      (.returned (some ("settle message execution failed (exit code " ++
        toString (16 : Int) ++ ")")), []) ∧
    (flowchCloseCmd cliExitCodeNode 7 [] 0).1 =
      (.returned (some ("collect message execution failed (exit code " ++
        toString (16 : Int) ++ ")")), []) ∧
    (flowchVoucherSubmitCmd cliExitCodeNode 7 (voucherOf 0 1 10) [] 0).1 =
      (.returned (some ("message execution failed (exit code " ++
        toString (16 : Int) ++ ")")), []) :=
  ⟨(success_line_needs_exit_code_zero cliExitCodeNode 7 (voucherOf 0 1 10) [] 0).1.1
      207 1 ⟨207, ⟨16, [], 0⟩, 1⟩ 2 rfl rfl (by decide),
    (success_line_needs_exit_code_zero cliExitCodeNode 7 (voucherOf 0 1 10) [] 0).2.1.1
      307 1 ⟨307, ⟨16, [], 0⟩, 1⟩ 2 rfl rfl (by decide),
    (success_line_needs_exit_code_zero cliExitCodeNode 7 (voucherOf 0 1 10) [] 0).2.2.1
      100 1 ⟨100, ⟨16, [], 0⟩, 1⟩ 2 rfl rfl (by decide)⟩

theorem formatLabel_values :
    formatLabel "Channel does not exist\n" = none ∧
    formatLabel "Creating channel\n" = none ∧
    formatLabel "Channel exists\n" = none ∧
    formatLabel "Adding Funds to channel\n" = none ∧
    formatLabel "  From: %s\n" = some "From" ∧
    formatLabel "  To:   %s\n" = some "To" ∧
    formatLabel "  From:          %s\n" = some "From" ∧
    formatLabel "  To:            %s\n" = some "To" ∧
    formatLabel "  Pending Amt:   %d\n" = some "Pending Amt" ∧
    formatLabel "  Wait Sentinel: %s\n" = some "Wait Sentinel" := by
  decide

theorem listedLabels_absent (a b : String) :
    listedLabels [.printf "Channel does not exist\n" [], .printf "  From: %s\n" [a],
      .printf "  To:   %s\n" [b]] = ["From", "To"] := by
  obtain ⟨h1, _, _, _, h5, h6, _⟩ := formatLabel_values
  simp [listedLabels, Piece.labels, h1, h5, h6]

theorem listedLabels_creating (a b c d : String) :
    listedLabels [.printf "Creating channel\n" [], .printf "  From:          %s\n" [a],
      .printf "  To:            %s\n" [b], .printf "  Pending Amt:   %d\n" [c],
      .printf "  Wait Sentinel: %s\n" [d]] = ["From", "To", "Pending Amt", "Wait Sentinel"] := by
  obtain ⟨_, h2, _, _, _, _, h7, h8, h9, h10⟩ := formatLabel_values
  simp [listedLabels, Piece.labels, h2, h7, h8, h9, h10]

theorem listedLabels_present (header : String) (hheader : formatLabel header = none)
    (nameValues : List (String × String)) :
    listedLabels [.printf header [], .table nameValues] = nameValues.map Prod.fst := by
  simp [listedLabels, Piece.labels, hheader]

/-- C17: for every snapshot `flowchStatus` writes exactly one of the four headers, and
which one is decided by the presence of the channel address and of the wait sentinel:
`Channel does not exist` (neither), `Creating channel` (sentinel only), `Channel exists`
(address only), `Adding Funds to channel` (both). The confirmed, pending, queued and
voucher-redeemed amounts are all listed exactly when the channel address is present (with
the amounts of the snapshot), and a wait sentinel is listed exactly when it is present. -/
theorem flowchStatus_header_and_fields (writer : List Piece) (avail : ChannelAvailableFunds) :
    ∃ header rest, flowchStatus writer avail = writer ++ header :: rest ∧
      header = (match avail.Channel, avail.PendingWaitSentinel with
        | none, none => Piece.printf "Channel does not exist\n" []
        | none, some _ => Piece.printf "Creating channel\n" []
        | some _, none => Piece.printf "Channel exists\n" []
        | some _, some _ => Piece.printf "Adding Funds to channel\n" []) ∧
      header ∈ statusHeaders ∧
      (∀ p ∈ rest, p ∉ statusHeaders) ∧
      ((∀ l ∈ ["Confirmed Amt", "Pending Amt", "Queued Amt", "Voucher Redeemed Amt"],
          l ∈ listedLabels (header :: rest)) ↔ avail.Channel ≠ none) ∧
      (avail.Channel ≠ none →
        ∃ nameValues, Piece.table nameValues ∈ rest ∧
          ("Confirmed Amt", toString avail.ConfirmedAmt) ∈ nameValues ∧
          ("Pending Amt", toString avail.PendingAmt) ∈ nameValues ∧
          ("Queued Amt", toString avail.QueuedAmt) ∈ nameValues ∧
          ("Voucher Redeemed Amt", toString avail.VoucherReedeemedAmt) ∈ nameValues) ∧
      (("Wait Sentinel" ∈ listedLabels (header :: rest) ∨
          "Add Funds Wait Sentinel" ∈ listedLabels (header :: rest)) ↔
        avail.PendingWaitSentinel ≠ none) := by
  obtain ⟨channel, sender, target, confirmed, pending, sentinel, queued, redeemed⟩ := avail
  obtain ⟨_, _, h3, h4, _⟩ := formatLabel_values
  cases channel with
  | none =>
    cases sentinel with
    | none =>
      refine ⟨_, _, rfl, rfl, by simp [statusHeaders], ?_, ?_, ?_, ?_⟩
      · intro p hp
        simp only [List.mem_cons, List.mem_singleton, List.not_mem_nil, or_false] at hp
        rcases hp with rfl | rfl <;> simp [statusHeaders]
      · simp only [ne_eq, not_true_eq_false, iff_false, listedLabels_absent]
        intro h
        have := h "Confirmed Amt" (by simp)
        simp at this
      · intro h; exact absurd rfl h
      · simp [listedLabels_absent]
    | some sn =>
      refine ⟨_, _, rfl, rfl, by simp [statusHeaders], ?_, ?_, ?_, ?_⟩
      · intro p hp
        simp only [List.mem_cons, List.mem_singleton, List.not_mem_nil, or_false] at hp
        rcases hp with rfl | rfl | rfl | rfl <;> simp [statusHeaders]
      · simp only [ne_eq, not_true_eq_false, iff_false, listedLabels_creating]
        intro h
        have := h "Confirmed Amt" (by simp)
        simp at this
      · intro h; exact absurd rfl h
      · simp [listedLabels_creating]
  | some ch =>
    cases sentinel with
    | none =>
      refine ⟨_, _, rfl, rfl, by simp [statusHeaders], ?_, ?_, ?_, ?_⟩
      · intro p hp
        simp only [List.mem_singleton] at hp
        subst hp
        simp [statusHeaders]
      · simp [listedLabels_present _ h3, statusNameValues]
      · intro _
        exact ⟨_, List.mem_singleton_self _, by simp [statusNameValues]⟩
      · simp [listedLabels_present _ h3, statusNameValues]
    | some sn =>
      refine ⟨_, _, rfl, rfl, by simp [statusHeaders], ?_, ?_, ?_, ?_⟩
      · intro p hp
        simp only [List.mem_singleton] at hp
        subst hp
        simp [statusHeaders]
      · simp [listedLabels_present _ h4, statusNameValues]
      · intro _
        exact ⟨_, List.mem_singleton_self _, by simp [statusNameValues]⟩
      · simp [listedLabels_present _ h4, statusNameValues]

/-! ## The channel manager, from the spec -/

/-- C14: `CreateVoucher(ref, lane, amount)` returns a voucher only if `amount` does not
exceed Confirmed + Pending minus the best-voucher amounts of all other lanes, and then the
voucher carries that amount on that lane; if `amount` exceeds that sum it returns the
shortfall `amount` minus the sum and the record is unchanged. With 100 confirmed and one
lane, `CreateVoucher(lane, 60)` gives a voucher and a following `CreateVoucher(lane, 110)`
gives the shortfall 10 and changes nothing. -/
theorem createVoucher_backed_or_shortfall (sign : Address → SignedVoucher → Bytes)
    (ref : Address) (ch : FlowChannel) (lane : Nat) (amount : Int) :
    (∀ sv, (CreateVoucher sign ref ch lane amount).1 = .voucher sv →
      amount ≤ ch.ConfirmedAmount + ch.PendingAmount - ch.otherLanesTotal lane ∧
      sv.Amount = amount ∧ sv.Lane = lane ∧ sv.Nonce = (ch.lane lane).CurrentNonce + 1) ∧
    (amount ≤ ch.ConfirmedAmount + ch.PendingAmount - ch.otherLanesTotal lane →
      ∃ sv, (CreateVoucher sign ref ch lane amount).1 = .voucher sv) ∧
    (amount > ch.ConfirmedAmount + ch.PendingAmount - ch.otherLanesTotal lane →
      CreateVoucher sign ref ch lane amount =
        (.shortfall
          (amount - (ch.ConfirmedAmount + ch.PendingAmount - ch.otherLanesTotal lane)), ch)) ∧
    (∃ sv, (CreateVoucher fixedSigner 7 oneLaneChannel 0 60).1 = .voucher sv ∧
      sv.Amount = 60 ∧
      CreateVoucher fixedSigner 7 (CreateVoucher fixedSigner 7 oneLaneChannel 0 60).2 0 110 =
        (.shortfall 10, (CreateVoucher fixedSigner 7 oneLaneChannel 0 60).2)) := by
  refine ⟨?_, ?_, ?_, ?_⟩
  · intro sv h
    unfold CreateVoucher at h
    by_cases hgt : amount > ch.available lane
    · simp [hgt] at h
    · simp only [hgt, if_false] at h
      injection h with h
      subst h
      refine ⟨?_, rfl, rfl, rfl⟩
      unfold FlowChannel.available at hgt
      omega
  · intro hle
    have hgt : ¬ amount > ch.available lane := by
      unfold FlowChannel.available
      omega
    unfold CreateVoucher
    simp only [hgt, if_false]
    exact ⟨_, rfl⟩
  · intro hgt
    have hgt' : amount > ch.available lane := by
      unfold FlowChannel.available
      omega
    unfold CreateVoucher
    simp only [hgt', if_true]
    rfl
  · exact ⟨_, rfl, rfl, by decide⟩

/-- C14 at a record with 100 confirmed, 20 pending and a best voucher of 30 on another
lane: 90 can be backed, 91 leaves a shortfall of 1. -/
theorem createVoucher_backed_or_shortfall_witness :
    (∃ sv, (CreateVoucher fixedSigner 7 twoLaneChannel 0 90).1 = .voucher sv) ∧
    CreateVoucher fixedSigner 7 twoLaneChannel 0 91 =
      (.shortfall (91 - (twoLaneChannel.ConfirmedAmount + twoLaneChannel.PendingAmount -
        twoLaneChannel.otherLanesTotal 0)), twoLaneChannel) ∧
    (91 : Int) - (twoLaneChannel.ConfirmedAmount + twoLaneChannel.PendingAmount -
        twoLaneChannel.otherLanesTotal 0) = 1 :=
  ⟨(createVoucher_backed_or_shortfall fixedSigner 7 twoLaneChannel 0 90).2.1 (by decide),
    (createVoucher_backed_or_shortfall fixedSigner 7 twoLaneChannel 0 91).2.2.1 (by decide),
    by decide⟩

theorem findLane_id (lanes : List LaneState) (lane : Nat) (ls : LaneState)
    (h : findLane lanes lane = some ls) : ls.LaneID = lane := by
  induction lanes with
  | nil => simp [findLane] at h
  | cons x rest ih =>
    unfold findLane at h
    by_cases hx : x.LaneID = lane
    · simp only [hx, if_true, Option.some.injEq] at h
      rw [← h]; exact hx
    · simp only [hx, if_false] at h
      exact ih h

theorem lane_id (ch : FlowChannel) (lane : Nat) : (ch.lane lane).LaneID = lane := by
  unfold FlowChannel.lane
  cases h : findLane ch.Lanes lane with
  | none => rfl
  | some ls => exact findLane_id _ _ _ h

theorem findLane_setLane_same (lanes : List LaneState) (ls : LaneState) :
    findLane (setLane lanes ls) ls.LaneID = some ls := by
  induction lanes with
  | nil => simp [setLane, findLane]
  | cons x rest ih =>
    unfold setLane
    by_cases hx : x.LaneID = ls.LaneID
    · simp [hx, findLane]
    · simp [hx, findLane, ih]

theorem findLane_setLane_other (lanes : List LaneState) (ls : LaneState) (lane : Nat)
    (h : lane ≠ ls.LaneID) : findLane (setLane lanes ls) lane = findLane lanes lane := by
  induction lanes with
  | nil =>
    have : ¬ ls.LaneID = lane := fun e => h e.symm
    simp [setLane, findLane, this]
  | cons x rest ih =>
    unfold setLane
    by_cases hx : x.LaneID = ls.LaneID
    · have h1 : ¬ ls.LaneID = lane := fun e => h e.symm
      have h2 : ¬ x.LaneID = lane := fun e => h (by rw [← e, hx])
      simp [hx, findLane, h1, h2]
    · simp only [hx, if_false, findLane, ih]

theorem lane_setLane_same (ch : FlowChannel) (ls : LaneState) :
    ({ ch with Lanes := setLane ch.Lanes ls } : FlowChannel).lane ls.LaneID = ls := by
  show (findLane (setLane ch.Lanes ls) ls.LaneID).getD _ = ls
  rw [findLane_setLane_same]
  rfl

theorem lane_setLane_other (ch : FlowChannel) (ls : LaneState) (lane : Nat)
    (h : lane ≠ ls.LaneID) :
    ({ ch with Lanes := setLane ch.Lanes ls } : FlowChannel).lane lane = ch.lane lane := by
  show (findLane (setLane ch.Lanes ls) lane).getD _ = (findLane ch.Lanes lane).getD _
  rw [findLane_setLane_other _ _ _ h]

/-- What `AddVoucher` does to the record: it leaves it unchanged, or it stores the voucher
in its lane, and then the lane had no best voucher or one of a smaller amount. -/
theorem addVoucher_cases (verify : SignedVoucher → Option Err) (ch : FlowChannel)
    (v : SignedVoucher) (proof : Option Bytes) :
    ((∃ e, (AddVoucher verify ch v proof).1 = .error e) ∧
      (AddVoucher verify ch v proof).2 = ch) ∨
    ((∃ gain, (AddVoucher verify ch v proof).1 = .ok gain) ∧
      verify v = none ∧
      (AddVoucher verify ch v proof).2 =
        { ch with Lanes := setLane ch.Lanes ((ch.lane v.Lane).store v) } ∧
      ((ch.lane v.Lane).BestVoucher = none ∨
        ∃ best, (ch.lane v.Lane).BestVoucher = some best ∧ v.Amount > best.Amount)) := by
  cases hv : verify v with
  | some e =>
    left
    simp [AddVoucher, CheckValid, hv]
  | none =>
    by_cases hn : v.Nonce > (ch.lane v.Lane).CurrentNonce
    · cases hb : (ch.lane v.Lane).BestVoucher with
      | none =>
        right
        simp [AddVoucher, CheckValid, hv, hn, hb]
      | some best =>
        by_cases hgt : v.Amount > best.Amount
        · right
          simp [AddVoucher, CheckValid, hv, hn, hb, hgt]
        · left
          simp [AddVoucher, CheckValid, hv, hn, hb, hgt]
    · left
      simp [AddVoucher, CheckValid, hv, hn]

/-- C15: `AddVoucher` replaces the best voucher of a lane only if the lane is the lane of
the new voucher and the amount of the new voucher is strictly greater than the amount of
the current best voucher (or the lane has none); a rejected voucher leaves the record
unchanged; and adding the same voucher a second time is rejected, leaves the record
unchanged and does not increase the spendable total. -/
theorem addVoucher_replaces_only_greater (verify : SignedVoucher → Option Err)
    (ch : FlowChannel) (v : SignedVoucher) (proof : Option Bytes) :
    (∀ lane, ((AddVoucher verify ch v proof).2.lane lane).BestVoucher ≠
        (ch.lane lane).BestVoucher →
      lane = v.Lane ∧
      ((AddVoucher verify ch v proof).2.lane lane).BestVoucher = some v ∧
      ((ch.lane lane).BestVoucher = none ∨
        ∃ best, (ch.lane lane).BestVoucher = some best ∧ v.Amount > best.Amount)) ∧
    (∀ e, (AddVoucher verify ch v proof).1 = .error e →
      (AddVoucher verify ch v proof).2 = ch) ∧
    (∃ e, (AddVoucher verify (AddVoucher verify ch v proof).2 v proof).1 = .error e) ∧
    (AddVoucher verify (AddVoucher verify ch v proof).2 v proof).2 =
      (AddVoucher verify ch v proof).2 ∧
    (AddVoucher verify (AddVoucher verify ch v proof).2 v proof).2.spendableTotal =
      (AddVoucher verify ch v proof).2.spendableTotal := by
  have hlaneid := lane_id ch v.Lane
  have hstoreid : ((ch.lane v.Lane).store v).LaneID = v.Lane := hlaneid
  have hsecond : (∃ e, (AddVoucher verify (AddVoucher verify ch v proof).2 v proof).1 =
        .error e) ∧
      (AddVoucher verify (AddVoucher verify ch v proof).2 v proof).2 =
        (AddVoucher verify ch v proof).2 := by
    rcases addVoucher_cases verify ch v proof with ⟨⟨e, he⟩, hst⟩ | ⟨_, hv, hst, _⟩
    · rw [hst]
      exact ⟨⟨e, he⟩, hst⟩
    · rw [hst]
      have hlane : ({ ch with Lanes := setLane ch.Lanes ((ch.lane v.Lane).store v) } :
          FlowChannel).lane v.Lane = (ch.lane v.Lane).store v := by
        have := lane_setLane_same ch ((ch.lane v.Lane).store v)
        rw [hstoreid] at this
        exact this
      have hn : ¬ v.Nonce > ((ch.lane v.Lane).store v).CurrentNonce := by
        simp [LaneState.store]
      simp [AddVoucher, CheckValid, hv, hlane, hn]
  refine ⟨?_, ?_, hsecond.1, hsecond.2, by rw [hsecond.2]⟩
  · intro lane hne
    rcases addVoucher_cases verify ch v proof with ⟨_, hst⟩ | ⟨_, _, hst, hbest⟩
    · rw [hst] at hne
      exact absurd rfl hne
    · rw [hst] at hne ⊢
      by_cases hl : lane = v.Lane
      · subst hl
        refine ⟨rfl, ?_, hbest⟩
        have := lane_setLane_same ch ((ch.lane v.Lane).store v)
        rw [hstoreid] at this
        rw [this]
        rfl
      · exfalso
        apply hne
        rw [lane_setLane_other ch _ lane (by rw [hstoreid]; exact hl)]
  · intro e he
    rcases addVoucher_cases verify ch v proof with ⟨_, hst⟩ | ⟨⟨gain, hg⟩, _⟩
    · exact hst
    · rw [hg] at he
      cases he

/-- C15 at a concrete record: a voucher of 10 on the empty lane 0 is stored, and adding it
again changes nothing. -/
theorem addVoucher_replaces_only_greater_witness :
    ((AddVoucher (fun _ => none) oneLaneChannel (voucherOf 0 1 10) none).2.lane 0).BestVoucher =
      some (voucherOf 0 1 10) ∧
    (oneLaneChannel.lane 0).BestVoucher = none ∧
    (AddVoucher (fun _ => none)
      (AddVoucher (fun _ => none) oneLaneChannel (voucherOf 0 1 10) none).2
      (voucherOf 0 1 10) none).2 =
      (AddVoucher (fun _ => none) oneLaneChannel (voucherOf 0 1 10) none).2 :=
  ⟨((addVoucher_replaces_only_greater (fun _ => none) oneLaneChannel (voucherOf 0 1 10)
      none).1 0 (by decide)).2.1,
    rfl,
    (addVoucher_replaces_only_greater (fun _ => none) oneLaneChannel (voucherOf 0 1 10)
      none).2.2.2.1⟩

end Flowch

namespace Blockstore

open Flowch

variable {ρ ω : Type}

/-! ## The buffered blockstore -/

/-- When the callback never returns `ErrNotFound`, `View` does what the path through `Get`
does, whether the stores are viewable or not. -/
theorem View_eq_get_path (bs : BufferedBlockstore ρ ω) (c : Cid)
    (callback : Bytes → Option Err) (calls : List Bytes) (r : ρ) (w : ω)
    (hcb : ∀ data, callback data ≠ some ErrNotFound) :
    bs.View c callback calls r w =
      (match bs.Get c r w with
        | .error err => (some err, calls)
        | .ok blk => (callback blk.RawData, calls ++ [blk.RawData])) := by
  unfold BufferedBlockstore.View
  by_cases hv : bs.writeviewer = false ∨ bs.readviewer = false
  · simp only [hv, if_true]
  · simp only [hv, if_false]
    unfold BufferedBlockstore.Get Store.View
    cases hw : bs.write.Get c w with
    | error err =>
      simp only
      by_cases he : err = ErrNotFound
      · simp only [he, if_true, ne_eq, not_true_eq_false, if_false]
      · simp only [he, if_false, ne_eq, not_false_eq_true, if_true]
    | ok blk =>
      simp only
      cases hc : callback blk.RawData with
      | none => rfl
      | some e =>
        have : e ≠ ErrNotFound := fun h => hcb blk.RawData (by rw [hc, h])
        simp only [this, if_false]

/-- C18, the code at the failing input: both stores are viewable and both hold the block
with cid 1, and the callback returns `ErrNotFound`. The path through `Get` calls the
callback once, on the data of the block that `Get` returns; `View` takes the error of the
callback for a miss of the write store and calls the callback a second time, through the
read store. -/
theorem View_calls_callback_twice :
    (NewBuffered listStore listStore).Get 1 [blockOne] [blockOne] = .ok blockOne ∧
    notFoundCallback blockOne.RawData = some ErrNotFound ∧
    (NewTieredBstore listStore listStore).View 1 notFoundCallback [] [blockOne] [blockOne] =
      (some ErrNotFound, [blockOne.RawData]) ∧
    (NewBuffered listStore listStore).View 1 notFoundCallback [] [blockOne] [blockOne] =
      (some ErrNotFound, [blockOne.RawData, blockOne.RawData]) ∧
    ((NewBuffered listStore listStore).View 1 notFoundCallback [] [blockOne]
      [blockOne]).2.length = 2 :=
  ⟨rfl, rfl, rfl, rfl, rfl⟩

variable {μ : Type}

/-- The list store is a correct key-value map, with the table `listContent`. -/
theorem listStore_isMap : listStore.IsMap listContent := by
  have hcid : ∀ (b : List Block) (c : Cid) (blk : Block), findBlock b c = some blk →
      blk.Cid = c := by
    intro b c blk
    induction b with
    | nil => simp [findBlock]
    | cons x xs ih =>
      simp only [findBlock]
      split
      · rename_i hx
        intro h
        cases h
        exact hx
      · exact ih
  refine ⟨?_, ?_, ?_, ?_, ?_, ?_⟩
  · intro c b d h
    simp only [listContent] at h
    cases hf : findBlock b c with
    | none => simp [hf] at h
    | some blk =>
      simp [hf] at h
      have := hcid b c blk hf
      simp [listStore, hf]
      cases blk
      simp_all
  · intro c b h
    simp only [listContent] at h
    cases hf : findBlock b c with
    | none => simp [listStore, hf]
    | some blk => simp [hf] at h
  · intro c b
    simp [listStore, listContent]
  · intro c b d h
    simp only [listContent] at h
    cases hf : findBlock b c with
    | none => simp [hf] at h
    | some blk =>
      simp [hf] at h
      simp [listStore, hf, h]
  · intro c b h
    simp only [listContent] at h
    cases hf : findBlock b c with
    | none => simp [listStore, hf]
    | some blk => simp [hf] at h
  · intro blk b _ c
    simp only [listStore, listContent, findBlock]
    by_cases hc : c = blk.Cid
    · simp [hc]
    · have : ¬ blk.Cid = c := fun h => hc h.symm
      simp [hc, this]

/-- A correct key-value map stays one when it lives in the first part of a memory. -/
theorem IsMap_onFst {st : Store ρ} {content : ρ → Cid → Option Bytes}
    (h : st.IsMap content) :
    (Store.onFst st : Store (ρ × ω)).IsMap (fun m => content m.1) :=
  ⟨fun c m d hd => h.get_some c m.1 d hd, fun c m hd => h.get_none c m.1 hd,
   fun c m => h.has c m.1, fun c m d hd => h.getSize_some c m.1 d hd,
   fun c m hd => h.getSize_none c m.1 hd, fun blk m hp c => h.put blk m.1 hp c⟩

/-- A correct key-value map stays one when it lives in the second part of a memory. -/
theorem IsMap_onSnd {st : Store ω} {content : ω → Cid → Option Bytes}
    (h : st.IsMap content) :
    (Store.onSnd st : Store (ρ × ω)).IsMap (fun m => content m.2) :=
  ⟨fun c m d hd => h.get_some c m.2 d hd, fun c m hd => h.get_none c m.2 hd,
   fun c m => h.has c m.2, fun c m d hd => h.getSize_some c m.2 d hd,
   fun c m hd => h.getSize_none c m.2 hd, fun blk m hp c => h.put blk m.2 hp c⟩

/-- Claim C21. Let the read store and the write store of a buffered blockstore be correct
key-value maps with the tables `cr` and `cw`, in a memory `m` that holds both (they may be
the same store), and let `blk` be a block whose cid names its data: what either store holds
under that cid is the data of `blk`. If `Put blk` returns nil, then in the memory after it
`Has` of the cid returns `(true, nil)` and `Get` of the cid returns `blk`; and either the
read store already held `blk` and the memory is as before, or the read store lacked the cid
and the write store now holds `blk`. -/
theorem Put_then_Has_and_Get (bs : BufferedBlockstore μ μ) (cr cw : μ → Cid → Option Bytes)
    (hr : bs.read.IsMap cr) (hw : bs.write.IsMap cw) (blk : Block) (m : μ)
    (hcr : ∀ d, cr m blk.Cid = some d → d = blk.RawData)
    (hcw : ∀ d, cw m blk.Cid = some d → d = blk.RawData)
    (hput : (bs.Put blk m).1 = none) :
    bs.Has blk.Cid (bs.Put blk m).2 (bs.Put blk m).2 = .ok true ∧
    bs.Get blk.Cid (bs.Put blk m).2 (bs.Put blk m).2 = .ok blk ∧
    ((cr m blk.Cid = some blk.RawData ∧ (bs.Put blk m).2 = m) ∨
     (cr m blk.Cid = none ∧ cw (bs.Put blk m).2 blk.Cid = some blk.RawData)) := by
  have hblk : (⟨blk.Cid, blk.RawData⟩ : Block) = blk := by cases blk; rfl
  cases hc : cr m blk.Cid with
  | some d =>
    have hd : d = blk.RawData := hcr d hc
    subst hd
    have hP : bs.Put blk m = (none, m) := by
      simp [BufferedBlockstore.Put, hr.has, hc]
    rw [hP]
    refine ⟨?_, ?_, Or.inl ⟨rfl, rfl⟩⟩
    · simp [BufferedBlockstore.Has, hw.has, hr.has, hc]
    · cases hcw' : cw m blk.Cid with
      | some d' =>
        have hd' : d' = blk.RawData := hcw d' hcw'
        subst hd'
        simp [BufferedBlockstore.Get, hw.get_some _ _ _ hcw', hblk]
      | none =>
        simp [BufferedBlockstore.Get, hw.get_none _ _ hcw', hr.get_some _ _ _ hc, hblk]
  | none =>
    have hP : bs.Put blk m = bs.write.Put blk m := by
      simp [BufferedBlockstore.Put, hr.has, hc]
    rw [hP] at hput ⊢
    have hnew : cw (bs.write.Put blk m).2 blk.Cid = some blk.RawData := by
      rw [hw.put blk m hput blk.Cid]
      simp
    refine ⟨?_, ?_, Or.inr ⟨rfl, hnew⟩⟩
    · simp [BufferedBlockstore.Has, hw.has, hnew]
    · simp [BufferedBlockstore.Get, hw.get_some _ _ _ hnew, hblk]

/-- The claim C21 at two inputs, over two distinct list stores: a block the read store
already holds, which `Put` does not write again, and a block neither store holds, which
`Put` writes to the write store. -/
theorem Put_then_Has_and_Get_witness :
    ((tieredListStore.Put blockOne ([blockOne], [])).1 = none ∧
      (tieredListStore.Put blockOne ([blockOne], [])).2 = ([blockOne], []) ∧
      tieredListStore.Has 1 ([blockOne], []) ([blockOne], []) = .ok true ∧
      tieredListStore.Get 1 ([blockOne], []) ([blockOne], []) = .ok blockOne) ∧
    ((tieredListStore.Put blockOne ([], [])).1 = none ∧
      (tieredListStore.Put blockOne ([], [])).2 = ([], [blockOne]) ∧
      tieredListStore.Has 1 ([], [blockOne]) ([], [blockOne]) = .ok true ∧
      tieredListStore.Get 1 ([], [blockOne]) ([], [blockOne]) = .ok blockOne) := by
  have h1 := Put_then_Has_and_Get tieredListStore (fun m => listContent m.1)
    (fun m => listContent m.2) (IsMap_onFst listStore_isMap) (IsMap_onSnd listStore_isMap)
    blockOne ([blockOne], []) (by intro d h; cases h; rfl) (by intro d h; cases h) rfl
  have h2 := Put_then_Has_and_Get tieredListStore (fun m => listContent m.1)
    (fun m => listContent m.2) (IsMap_onFst listStore_isMap) (IsMap_onSnd listStore_isMap)
    blockOne ([], []) (by intro d h; cases h) (by intro d h; cases h) rfl
  exact ⟨⟨rfl, rfl, h1.1, h1.2.1⟩, ⟨rfl, rfl, h2.1, h2.2.1⟩⟩

/-- Claim C22. Let the read store `base` and the write store `buf` of a buffered blockstore
be distinct: they live in the two parts of the memory. Then `Put` and `PutMany` leave the
part of the read store as it was, whatever the two stores do; `Put` leaves the whole memory
as it was unless the read store answers that it does not have the block, and in that case
`Put` is the `Put` of the write store. -/
theorem Put_and_PutMany_leave_read_store (base : Store ρ) (buf : Store ω)
    (bs : BufferedBlockstore (ρ × ω) (ρ × ω))
    (hread : bs.read = Store.onFst base) (hwrite : bs.write = Store.onSnd buf)
    (blk : Block) (blks : List Block) (m : ρ × ω) :
    (bs.Put blk m).2.1 = m.1 ∧ (bs.PutMany blks m).2.1 = m.1 ∧
    (base.Has blk.Cid m.1 ≠ .ok false → (bs.Put blk m).2 = m) ∧
    (base.Has blk.Cid m.1 = .ok false →
      bs.Put blk m = ((buf.Put blk m.2).1, (m.1, (buf.Put blk m.2).2))) := by
  have hP : bs.Put blk m =
      match base.Has blk.Cid m.1 with
      | .error err => (some err, m)
      | .ok has => if has then (none, m) else ((buf.Put blk m.2).1, (m.1, (buf.Put blk m.2).2)) := by
    simp only [BufferedBlockstore.Put, hread, hwrite, Store.onFst, Store.onSnd]
  refine ⟨?_, ?_, ?_, ?_⟩
  · rw [hP]
    cases base.Has blk.Cid m.1 with
    | error err => rfl
    | ok has => cases has <;> rfl
  · simp only [BufferedBlockstore.PutMany, hwrite, Store.onSnd]
  · intro hne
    rw [hP]
    cases hh : base.Has blk.Cid m.1 with
    | error err => rfl
    | ok has =>
      cases has
      · exact absurd hh hne
      · rfl
  · intro hh
    rw [hP, hh]
    rfl

/-- The claim C22 at the two list stores: a block the read store has is not written, a
block it lacks goes to the write store, and the read store keeps its one block. -/
theorem Put_and_PutMany_leave_read_store_witness :
    (tieredListStore.Put blockOne ([blockOne], [])).2 = ([blockOne], []) ∧
    (tieredListStore.Put emptyBlock ([blockOne], [])).2 = ([blockOne], [emptyBlock]) ∧
    (tieredListStore.PutMany [blockOne, emptyBlock] ([blockOne], [])).2 =
      ([blockOne], [emptyBlock, blockOne]) ∧
    (tieredListStore.Put emptyBlock ([blockOne], [])).2.1 = [blockOne] ∧
    (tieredListStore.PutMany [blockOne, emptyBlock] ([blockOne], [])).2.1 = [blockOne] :=
  ⟨rfl, rfl, rfl,
   (Put_and_PutMany_leave_read_store listStore listStore tieredListStore rfl rfl emptyBlock
      [blockOne, emptyBlock] ([blockOne], [])).1,
   (Put_and_PutMany_leave_read_store listStore listStore tieredListStore rfl rfl emptyBlock
      [blockOne, emptyBlock] ([blockOne], [])).2.1⟩

/-- When the two stores are one and the same store, as `NewBuffered` makes them when
buffering is disabled, `Put` does change the read store. -/
theorem Put_changes_a_shared_store :
    (NewBuffered listStore listStore).Put blockOne [] = (none, [blockOne]) := rfl

/-- Where `GetSize` is right: over correct key-value maps that agree on the data of the cid
`c`, if `Has c` returns true then `GetSize c` returns the length of the data of the block
that `Get c` returns, unless the block is empty and held by the read store only. -/
theorem GetSize_eq_length_unless_empty_in_read_only (bs : BufferedBlockstore ρ ω)
    (cr : ρ → Cid → Option Bytes) (cw : ω → Cid → Option Bytes)
    (hr : bs.read.IsMap cr) (hw : bs.write.IsMap cw) (c : Cid) (r : ρ) (w : ω)
    (hagree : ∀ d d', cr r c = some d → cw w c = some d' → d = d')
    (hhas : bs.Has c r w = .ok true)
    (hcase : cr r c ≠ some [] ∨ cw w c ≠ none) :
    ∃ blk, bs.Get c r w = .ok blk ∧ bs.GetSize c r w = ((blk.RawData.length : Int), none) := by
  cases hcw : cw w c with
  | some d' =>
    refine ⟨⟨c, d'⟩, ?_, ?_⟩
    · simp [BufferedBlockstore.Get, hw.get_some _ _ _ hcw]
    · cases hcr : cr r c with
      | some d =>
        have hd : d = d' := hagree d d' hcr hcw
        subst hd
        simp only [BufferedBlockstore.GetSize, hr.getSize_some _ _ _ hcr,
          hw.getSize_some _ _ _ hcw]
        split <;> rfl
      | none =>
        have h2 := hr.getSize_none c r hcr
        rcases hg : bs.read.GetSize c r with ⟨s, e⟩
        rw [hg] at h2
        simp only at h2
        subst h2
        simp [BufferedBlockstore.GetSize, hg, hw.getSize_some _ _ _ hcw]
  | none =>
    cases hcr : cr r c with
    | none =>
      simp [BufferedBlockstore.Has, hw.has, hr.has, hcw, hcr] at hhas
    | some d =>
      have hne : d ≠ [] := by
        rcases hcase with h | h
        · intro hd
          exact h (by rw [hcr, hd])
        · exact absurd hcw h
      refine ⟨⟨c, d⟩, ?_, ?_⟩
      · simp [BufferedBlockstore.Get, hw.get_none _ _ hcw, hr.get_some _ _ _ hcr]
      · have hlen : (d.length : Int) ≠ 0 := by
          simpa using hne
        simp [BufferedBlockstore.GetSize, hr.getSize_some _ _ _ hcr, hlen]

/-- Claim C23, at the input that breaks it: the read store holds the empty block
`emptyBlock` under the cid 2 and the write store holds nothing. `Has 2` returns true and
`Get 2` returns the empty block, but `GetSize 2` returns `ErrNotFound`: the read store
answers the size 0, which `GetSize` takes for the block being absent and asks the write
store. For a block with data the same stores give the length. -/
theorem GetSize_misses_empty_block_of_read_store :
    (NewBuffered listStore listStore).Has 2 [emptyBlock] [] = .ok true ∧
    (NewBuffered listStore listStore).Get 2 [emptyBlock] [] = .ok emptyBlock ∧
    emptyBlock.RawData.length = 0 ∧
    (NewBuffered listStore listStore).GetSize 2 [emptyBlock] [] = (0, some ErrNotFound) ∧
    (NewBuffered listStore listStore).GetSize 2 [] [emptyBlock] = (0, none) ∧
    (NewBuffered listStore listStore).GetSize 1 [blockOne] [] = (3, none) :=
  ⟨rfl, rfl, rfl, rfl, rfl, rfl⟩

end Blockstore

namespace Genesis

open Flowch

variable {A : Type}

/-! ## Genesis allocation and the seed commands -/

/-- C19, the code as it is: the balance of `DefaultFundraisingAccountActor` is
`FromEpk(100_000_000)`, that is 100M EPK (10^26 attoEPK), and not the 150M EPK its comment
states: it is 50M EPK short of it. -/
theorem fundraising_balance_is_not_150M (EpochsInDay : Nat) :
    (DefaultFundraisingAccountActor EpochsInDay).Balance = FromEpk 100000000 ∧
    (DefaultFundraisingAccountActor EpochsInDay).Balance = 100000000000000000000000000 ∧
    (DefaultFundraisingAccountActor EpochsInDay).Balance ≠ FromEpk fundraisingCommentEpk ∧
    FromEpk fundraisingCommentEpk - (DefaultFundraisingAccountActor EpochsInDay).Balance =
      FromEpk 50000000 :=
  ⟨rfl,
    show FromEpk 100000000 = 100000000000000000000000000 from by decide,
    show FromEpk 100000000 ≠ FromEpk fundraisingCommentEpk from by decide,
    show FromEpk fundraisingCommentEpk - FromEpk 100000000 = FromEpk 50000000 from by decide⟩

theorem addMinerLoop_ok (lib : AddressLib A) (miners : List (String × Miner)) :
    ∀ (template template1 : Template), addMinerLoop lib miners template = .ok template1 →
      (∀ i entry, miners[i]? = some entry →
        ∃ maddr, lib.NewFromString entry.1 = .ok maddr ∧
          lib.IDFromAddress maddr = .ok (MinerStart + (template.Miners.length + i) + 1)) ∧
      template1.Miners = template.Miners ++ miners.map Prod.snd ∧
      template1.Accounts.length = template.Accounts.length + miners.length := by
  induction miners with
  | nil =>
    intro template template1 h
    simp only [addMinerLoop, Except.ok.injEq] at h
    subst h
    simp
  | cons entry rest ih =>
    intro template template1 h
    obtain ⟨mn, miner⟩ := entry
    unfold addMinerLoop at h
    cases hparse : lib.NewFromString mn with
    | error e => simp [hparse] at h
    | ok maddr =>
      cases hid : lib.IDFromAddress maddr with
      | error e => simp [hparse, hid] at h
      | ok mid =>
        simp only [hparse, hid] at h
        by_cases hne : mid ≠ MinerStart + (template.Miners.length + 1)
        · simp [hne] at h
        · have hmid : mid = MinerStart + (template.Miners.length + 1) := by
            simpa using hne
          simp only [hne, if_false] at h
          obtain ⟨hids, hminers, haccounts⟩ := ih _ _ h
          refine ⟨?_, ?_, ?_⟩
          · intro i entry hentry
            cases i with
            | zero =>
              simp only [List.getElem?_cons_zero, Option.some.injEq] at hentry
              subst hentry
              exact ⟨maddr, hparse, by rw [hid, hmid]; rfl⟩
            | succ k =>
              simp only [List.getElem?_cons_succ] at hentry
              obtain ⟨maddr', hp', hi'⟩ := hids k entry hentry
              refine ⟨maddr', hp', ?_⟩
              rw [hi']
              simp only [List.length_append, List.length_cons, List.length_nil]
              congr 1
              omega
          · rw [hminers]
            simp
          · rw [haccounts]
            simp
            omega

theorem addMinerLoop_reject (lib : AddressLib A) (pre : List (String × Miner)) :
    ∀ (template : Template) (mn : String) (miner : Miner) (post : List (String × Miner))
      (maddr : A) (mid : Nat),
      (∀ i entry, pre[i]? = some entry →
        ∃ a, lib.NewFromString entry.1 = .ok a ∧
          lib.IDFromAddress a = .ok (MinerStart + (template.Miners.length + i) + 1)) →
      lib.NewFromString mn = .ok maddr → lib.IDFromAddress maddr = .ok mid →
      mid ≠ MinerStart + (template.Miners.length + pre.length) + 1 →
      addMinerLoop lib (pre ++ (mn, miner) :: post) template =
        .error ("tried to set miner t0" ++ toString mid ++ " as t0" ++
          toString (MinerStart + (template.Miners.length + pre.length) + 1)) := by
  induction pre with
  | nil =>
    intro template mn miner post maddr mid _ hparse hid hne
    simp only [List.nil_append, List.length_nil, Nat.add_zero] at hne ⊢
    unfold addMinerLoop
    have hne' : mid ≠ MinerStart + (template.Miners.length + 1) := by omega
    simp only [hparse, hid, hne', ne_eq, not_false_eq_true, if_true]
    rfl
  | cons entry rest ih =>
    intro template mn miner post maddr mid hpre hparse hid hne
    obtain ⟨mn0, miner0⟩ := entry
    obtain ⟨a0, hp0, hi0⟩ := hpre 0 (mn0, miner0) (by simp)
    simp only [List.cons_append]
    unfold addMinerLoop
    have hi0' : lib.IDFromAddress a0 = .ok (MinerStart + (template.Miners.length + 1)) := by
      rw [hi0]
      rfl
    simp only [hp0, hi0', ne_eq, not_true_eq_false, if_false]
    have := ih
      { template with
        Miners := template.Miners ++ [miner0]
        Accounts := template.Accounts ++
          [{ Typ := .TAccount, Balance := 2002 * (EpkPrecision : Int),
             Meta := .account miner0.Owner }] }
      mn miner post maddr mid
      (by
        intro i entry hentry
        obtain ⟨a, hp, hi⟩ := hpre (i + 1) entry (by simpa using hentry)
        refine ⟨a, hp, ?_⟩
        rw [hi]
        simp only [List.length_append, List.length_cons, List.length_nil]
        congr 1
        omega)
      hparse hid
      (by
        simp only [List.length_append, List.length_cons, List.length_nil] at hne ⊢
        omega)
    rw [this]
    have hlen : MinerStart + ((template.Miners ++ [miner0]).length + rest.length) + 1 =
        MinerStart + (template.Miners.length + ((mn0, miner0) :: rest).length) + 1 := by
      simp only [List.length_append, List.length_cons, List.length_nil]
      omega
    simp only [hlen]

/-- C20: the add-miner command accepts the preseal miners only if, for each of them in the
order of the loop, the id number of its address equals `MinerStart` plus the number of
miners in the template when it is visited (those of the template file and those added
before it) plus 1; then the template written holds the miners of the file followed by the
new ones. When the address of a miner, after miners that were accepted, has any other id
number, the command returns the error `tried to set miner t0<id> as t0<expected>` and does
not write the template file. -/
theorem addMiner_accepts_only_the_next_id (lib : AddressLib A) (template : Template)
    (miners : List (String × Miner)) (writeErr : Option Err) :
    (∀ written, (genesisAddMinerCmd lib template miners writeErr).2 = some written →
      (∀ i entry, miners[i]? = some entry →
        ∃ maddr, lib.NewFromString entry.1 = .ok maddr ∧
          lib.IDFromAddress maddr = .ok (MinerStart + (template.Miners.length + i) + 1)) ∧
      written.Miners = template.Miners ++ miners.map Prod.snd ∧
      (genesisAddMinerCmd lib template miners writeErr).1 = writeErr) ∧
    (∀ pre mn miner post maddr mid, miners = pre ++ (mn, miner) :: post →
      (∀ i entry, pre[i]? = some entry →
        ∃ a, lib.NewFromString entry.1 = .ok a ∧
          lib.IDFromAddress a = .ok (MinerStart + (template.Miners.length + i) + 1)) →
      lib.NewFromString mn = .ok maddr → lib.IDFromAddress maddr = .ok mid →
      mid ≠ MinerStart + (template.Miners.length + pre.length) + 1 →
      genesisAddMinerCmd lib template miners writeErr =
        (some ("tried to set miner t0" ++ toString mid ++ " as t0" ++
          toString (MinerStart + (template.Miners.length + pre.length) + 1)), none)) := by
  constructor
  · intro written hw
    unfold genesisAddMinerCmd at hw ⊢
    cases hloop : addMinerLoop lib miners template with
    | error e => simp [hloop] at hw
    | ok template1 =>
      simp only [hloop, Option.some.injEq] at hw ⊢
      subst hw
      obtain ⟨hids, hminers, _⟩ := addMinerLoop_ok lib miners template template1 hloop
      exact ⟨hids, hminers, trivial⟩
  · intro pre mn miner post maddr mid hsplit hpre hparse hid hne
    unfold genesisAddMinerCmd
    rw [hsplit, addMinerLoop_reject lib pre template mn miner post maddr mid hpre hparse hid hne]

/-- C20 at a template with one miner: `t01002` is accepted as the second miner, and
`t01005` after it is refused, and nothing is written. -/
theorem addMiner_accepts_only_the_next_id_witness :
    (genesisAddMinerCmd textAddressLib oneMinerTemplate
      [("t01002", ⟨"t01002", "t1ccc", "t1ddd"⟩)] none).2 ≠ none ∧
    genesisAddMinerCmd textAddressLib oneMinerTemplate
      ([("t01002", ⟨"t01002", "t1ccc", "t1ddd"⟩)] ++
        ("t01005", ⟨"t01005", "t1eee", "t1fff"⟩) :: []) none =
      (some ("tried to set miner t0" ++ toString 1005 ++ " as t0" ++
        toString (MinerStart + (oneMinerTemplate.Miners.length + 1) + 1)), none) :=
  ⟨by decide,
    (addMiner_accepts_only_the_next_id textAddressLib oneMinerTemplate
      ([("t01002", ⟨"t01002", "t1ccc", "t1ddd"⟩)] ++
        ("t01005", ⟨"t01005", "t1eee", "t1fff"⟩) :: []) none).2
      [("t01002", ⟨"t01002", "t1ccc", "t1ddd"⟩)] "t01005" ⟨"t01005", "t1eee", "t1fff"⟩ []
      (some 1005) 1005 rfl
      (by
        intro i entry hentry
        cases i with
        | zero =>
          simp only [List.getElem?_cons_zero, Option.some.injEq] at hentry
          subst hentry
          exact ⟨some 1002, rfl, rfl⟩
        | succ k => simp at hentry)
      rfl rfl (by decide)⟩

/-- The running sum of the `ForEach` loop is the start value plus the sum of the balances. -/
theorem foldl_balance_eq (l : List (Nat × TreeActor)) (init : Int) :
    l.foldl (fun acc p => acc + p.2.Balance) init
      = init + (l.map (fun p => p.2.Balance)).sum := by
  induction l generalizing init with
  | nil => simp
  | cons x xs ih =>
    simp only [List.foldl_cons, List.map_cons, List.sum_cons]
    rw [ih]
    ring

/-- The total of a tree is the sum of the balances of its entries. -/
theorem totalBalance_eq_sum (st : StateTree) :
    st.totalBalance = (st.actors.map (fun p => p.2.Balance)).sum := by
  simp only [StateTree.totalBalance, StateTree.ForEach]
  rw [foldl_balance_eq]
  simp

/-- The balances of a list split into those at one address and those elsewhere. -/
theorem sum_split_at (l : List (Nat × TreeActor)) (a : Nat) :
    (l.map (fun p => p.2.Balance)).sum
      = ((l.filter (fun p => p.1 = a)).map (fun p => p.2.Balance)).sum
        + ((l.filter (fun p => p.1 ≠ a)).map (fun p => p.2.Balance)).sum := by
  induction l with
  | nil => simp
  | cons x xs ih =>
    by_cases hx : x.1 = a
    · simp [List.filter_cons, hx, ih]
      ring
    · simp [List.filter_cons, hx, ih]
      ring

/-- Setting an actor changes the total by its balance less what the address held. -/
theorem totalBalance_SetActor (st : StateTree) (a : Nat) (x : TreeActor) :
    (st.SetActor a x).totalBalance = st.totalBalance - st.balanceAt a + x.Balance := by
  rw [totalBalance_eq_sum, totalBalance_eq_sum, sum_split_at st.actors a]
  simp only [StateTree.SetActor, StateTree.balanceAt, List.map_cons, List.sum_cons]
  ring

/-- After setting an actor its address holds its balance, and the others what they held. -/
theorem balanceAt_SetActor (st : StateTree) (a b : Nat) (x : TreeActor) :
    (st.SetActor a x).balanceAt b = if b = a then x.Balance else st.balanceAt b := by
  simp only [StateTree.SetActor, StateTree.balanceAt]
  by_cases hb : b = a
  · subst hb
    simp [List.filter_cons, List.filter_filter]
  · have hab : ¬ a = b := fun h => hb h.symm
    simp only [List.filter_cons, hab, decide_False, Bool.false_eq_true, if_false, hb,
      List.filter_filter]
    congr 2
    apply List.filter_congr
    intro p _
    by_cases hp : p.1 = b
    · simp [hp, hb]
    · simp [hp]

/-- An address without actor holds no balance. -/
theorem balanceAt_of_GetActorID_none (st : StateTree) (a : Nat)
    (h : st.GetActorID a = none) : st.balanceAt a = 0 := by
  simp only [StateTree.GetActorID, Option.map_eq_none', List.find?_eq_none] at h
  have hf : st.actors.filter (fun p => p.1 = a) = [] := by
    rw [List.filter_eq_nil_iff]
    intro p hp
    simpa using h p hp
  simp [StateTree.balanceAt, hf]

/-- The actor set last at an address is the actor of that address. -/
theorem GetActorID_SetActor (st : StateTree) (a : Nat) (x : TreeActor) :
    (st.SetActor a x).GetActorID a = some x := by
  simp [StateTree.SetActor, StateTree.GetActorID]

/-- The signers that `createMultisigAccount` sets up add no balance anywhere. -/
theorem createSigners_balance (keyIDs : KeyIDs) (signers : List String) :
    ∀ (state state1 : StateTree), createSigners keyIDs signers state = .ok state1 →
      state1.totalBalance = state.totalBalance ∧
      ∀ a, state1.balanceAt a = state.balanceAt a := by
  induction signers with
  | nil =>
    intro state state1 h
    simp only [createSigners, Except.ok.injEq] at h
    subst h
    exact ⟨rfl, fun _ => rfl⟩
  | cons e rest ih =>
    intro state state1 h
    simp only [createSigners] at h
    cases hk : keyIDs e with
    | none => simp [hk] at h
    | some idAddress =>
      simp only [hk] at h
      cases hg : state.GetActor keyIDs e with
      | some act =>
        simp only [hg] at h
        exact ih state state1 h
      | none =>
        simp only [hg] at h
        have hnone : state.GetActorID idAddress = none := by
          simpa [StateTree.GetActor, hk] using hg
        have h0 := balanceAt_of_GetActorID_none state idAddress hnone
        obtain ⟨ht, hb⟩ := ih _ state1 h
        refine ⟨?_, ?_⟩
        · rw [ht, totalBalance_SetActor, h0]
          simp
        · intro a
          rw [hb a, balanceAt_SetActor]
          by_cases ha : a = idAddress
          · simp [ha, h0]
          · simp [ha]

/-- What `createMultisigAccount` does to the balances when it succeeds. -/
theorem createMultisigAccount_ok (state state1 : StateTree) (ida : Nat) (info : Actor)
    (keyIDs : KeyIDs) (h : createMultisigAccount state ida info keyIDs = .ok state1) :
    state1.GetActorID ida = some ⟨MultisigActorCodeID, info.Balance⟩ ∧
    state1.totalBalance = state.totalBalance - state.balanceAt ida + info.Balance := by
  simp only [createMultisigAccount] at h
  split at h
  · cases h
  · cases hs : createSigners keyIDs info.Meta.Signers state with
    | error e => simp [hs] at h
    | ok s1 =>
      simp only [hs, Except.ok.injEq] at h
      subst h
      obtain ⟨ht, hb⟩ := createSigners_balance keyIDs _ state s1 hs
      refine ⟨GetActorID_SetActor _ _ _, ?_⟩
      rw [totalBalance_SetActor, ht, hb]

/-- The product `EpkBase` times `EpkPrecision`, both converted to `int64`, is 10^27. -/
theorem totalEpk_eq : toInt64 EpkBase * toInt64 EpkPrecision = 10 ^ 27 := by decide

/-- The error of a failed set-up of the foundation account is not the over-allocation
error. -/
theorem wrapped_ne_overallocated (S : Setup) (e : Err) (t : Int) :
    "failed to set up foundation account" ++ ": " ++ e ≠ overallocated S t := by
  intro h
  have h1 := congrArg (fun s => s.data.head?) h
  simp [overallocated, String.data_append] at h1

/-- Claim C24. Let `prior` be the state tree of `MakeInitialStateTree` before the balances
are summed. `MakeInitialStateTree` fails with the over-allocation error exactly when the
balances of `prior` sum to more than 10^27. Whenever it succeeds, the foundation address
holds a multisig actor whose balance is 10^27 (that is `EpkBase` times `EpkPrecision`) less
the sum of the balances of `prior`, whatever balance the template states for the
foundation; and when no actor sat at the foundation address before, the balances of the
returned tree sum to exactly 10^27. -/
theorem foundation_balance_is_the_remainder (B : Builtin) (S : Setup) (template : Template)
    (prior : StateTree) (keyIDs : KeyIDs)
    (hprior : stateBeforeFoundation B S template = .ok (prior, keyIDs)) :
    (MakeInitialStateTree B S template = .error (overallocated S prior.totalBalance) ↔
      10 ^ 27 < prior.totalBalance) ∧
    ∀ (state : StateTree) (k : KeyIDs),
      MakeInitialStateTree B S template = .ok (state, k) →
        prior.totalBalance ≤ 10 ^ 27 ∧
        state.GetActorID B.FoundationAddress
          = some ⟨MultisigActorCodeID, 10 ^ 27 - prior.totalBalance⟩ ∧
        (prior.GetActorID B.FoundationAddress = none → state.totalBalance = 10 ^ 27) := by
  have hM : MakeInitialStateTree B S template =
      if 10 ^ 27 - prior.totalBalance < 0 then
        .error (overallocated S prior.totalBalance)
      else
        match wrapErr "failed to set up foundation account"
            (createMultisigAccount prior B.FoundationAddress
              (withBalance template.FoundationAccountActor (10 ^ 27 - prior.totalBalance))
              keyIDs) with
        | .error e => .error e
        | .ok state1 => .ok (state1, keyIDs) := by
    simp only [MakeInitialStateTree, hprior, totalEpk_eq, withBalance]
  generalize hc : createMultisigAccount prior B.FoundationAddress
    (withBalance template.FoundationAccountActor (10 ^ 27 - prior.totalBalance)) keyIDs
    = res at hM
  constructor
  · constructor
    · intro h
      by_contra hle
      have hnot : ¬ (10 ^ 27 - prior.totalBalance < 0) := by omega
      rw [hM, if_neg hnot] at h
      cases res with
      | error e =>
        simp only [wrapErr, Except.error.injEq] at h
        exact wrapped_ne_overallocated S e _ h
      | ok s1 =>
        simp [wrapErr] at h
    · intro hlt
      have hneg : 10 ^ 27 - prior.totalBalance < 0 := by omega
      rw [hM, if_pos hneg]
  · intro state k hok
    have hnot : ¬ (10 ^ 27 - prior.totalBalance < 0) := by
      intro hneg
      rw [hM, if_pos hneg] at hok
      cases hok
    rw [hM, if_neg hnot] at hok
    cases res with
    | error e => simp [wrapErr] at hok
    | ok s1 =>
      simp only [wrapErr, Except.ok.injEq, Prod.mk.injEq] at hok
      obtain ⟨hs, _⟩ := hok
      subst hs
      obtain ⟨hget, htot⟩ := createMultisigAccount_ok _ _ _ _ _ hc
      refine ⟨by omega, ?_, ?_⟩
      · simpa [withBalance] using hget
      · intro hfresh
        rw [htot, balanceAt_of_GetActorID_none prior _ hfresh]
        simp [withBalance]

/-- The claim C24 on `exampleTemplate`, whose template gives the foundation 100M EPK: the
balances before the foundation sum to 850000005 EPK, the run succeeds, the foundation gets
the remaining 149999995 EPK and the returned tree sums to 10^27; and on `greedyTemplate`,
whose balances before the foundation sum to 1250000005 EPK, the run fails with the
over-allocation error. -/
theorem foundation_balance_is_the_remainder_witness :
    (stateBeforeFoundation exampleBuiltin exampleSetup exampleTemplate
        = .ok (priorOf exampleTemplate, exampleKeyIDs) ∧
      (priorOf exampleTemplate).totalBalance = FromEpk 850000005 ∧
      exampleTemplate.FoundationAccountActor.Balance = FromEpk 100000000 ∧
      MakeInitialStateTree exampleBuiltin exampleSetup exampleTemplate
        = .ok (resultOf exampleTemplate, exampleKeyIDs) ∧
      (resultOf exampleTemplate).GetActorID exampleBuiltin.FoundationAddress
        = some ⟨MultisigActorCodeID, 10 ^ 27 - (priorOf exampleTemplate).totalBalance⟩ ∧
      10 ^ 27 - (priorOf exampleTemplate).totalBalance = FromEpk 149999995 ∧
      (resultOf exampleTemplate).totalBalance = 10 ^ 27) ∧
    (stateBeforeFoundation exampleBuiltin exampleSetup greedyTemplate
        = .ok (priorOf greedyTemplate, exampleKeyIDs) ∧
      (priorOf greedyTemplate).totalBalance = FromEpk 1250000005 ∧
      MakeInitialStateTree exampleBuiltin exampleSetup greedyTemplate
        = .error (overallocated exampleSetup (priorOf greedyTemplate).totalBalance)) := by
  have h1 := (foundation_balance_is_the_remainder exampleBuiltin exampleSetup exampleTemplate
    (priorOf exampleTemplate) exampleKeyIDs rfl).2 (resultOf exampleTemplate) exampleKeyIDs rfl
  have h2 := (foundation_balance_is_the_remainder exampleBuiltin exampleSetup greedyTemplate
    (priorOf greedyTemplate) exampleKeyIDs rfl).1.mpr (by decide)
  exact ⟨⟨rfl, by decide, by decide, rfl, h1.2.1, by decide, h1.2.2 (by decide)⟩,
    ⟨rfl, by decide, h2⟩⟩

/-- Two steps in sequence give a value exactly when both do. -/
theorem Outcome.bind_eq_ok {α β : Type} (x : Outcome α) (f : α → Outcome β) (b : β) :
    (x >>= f) = .ok b ↔ ∃ a, x = .ok a ∧ f a = .ok b := by
  cases x with
  | ok a =>
    constructor
    · intro h
      exact ⟨a, rfl, h⟩
    · rintro ⟨a', ha, hf⟩
      cases ha
      exact hf
  | failed err =>
    constructor
    · intro h
      cases h
    · rintro ⟨a', ha, _⟩
      cases ha
  | panicked =>
    constructor
    · intro h
      cases h
    · rintro ⟨a', ha, _⟩
      cases ha

/-- A field that is read is a field of the row. -/
theorem field_eq_ok (e : List String) (n : Nat) (s : String) (h : field e n = .ok s) :
    e.get? n = some s := by
  simp only [field] at h
  split at h
  · rename_i s' hs
    cases h
    exact hs
  · cases h

/-- The initial vested fraction that the code reads is 0 and 0 for the empty text and has
the claim's form otherwise. -/
theorem parseInitialVested_ok (s : String) (num den : Int)
    (h : parseInitialVested s = .ok (num, den)) :
    (s = "" ∧ num = 0 ∧ den = 0) ∨ (s ≠ "" ∧ IsVestedFraction s num den) := by
  simp only [parseInitialVested] at h
  split at h
  · rename_i hlen
    right
    have hne : s ≠ "" := by
      intro hs
      rw [hs] at hlen
      simp at hlen
    refine ⟨hne, ?_⟩
    split at h
    · rename_i a b hsplit
      split at h
      · cases h
      · rename_i n hn
        split at h
        · cases h
        · rename_i d hd
          split at h
          · cases h
          · rename_i hcond
            simp only [Except.ok.injEq, Prod.mk.injEq] at h
            obtain ⟨h1, h2⟩ := h
            subst h1
            subst h2
            exact ⟨a, b, hsplit, hn, hd, by omega, by omega, by omega⟩
    · cases h
  · rename_i hlen
    left
    simp only [Except.ok.injEq, Prod.mk.injEq] at h
    refine ⟨?_, h.1.symm, h.2.symm⟩
    have h0 : s.length = 0 := by omega
    cases s with
    | mk data =>
      cases data with
      | nil => rfl
      | cons c cs => simp [String.length] at h0

/-- An entry that the loop body makes of a row carries what `parseInitialVested` reads from
the trimmed initial vested field of the row. -/
theorem parseRow_ok {A : Type} (lib : AddressLib A) (ParseEPK : String → Except Err Int)
    (i : Nat) (e : List String) (entry : GenAccountEntry A)
    (h : parseRow lib ParseEPK i e = .ok entry) :
    ∃ f, e.get? 11 = some f ∧
      parseInitialVested (TrimSpace f) = .ok (entry.InitialVestedNum, entry.InitialVestedDen) := by
  simp only [parseRow, Outcome.bind_eq_ok] at h
  obtain ⟨e7, -, addrs, -, e11, h11, initial, hinit, e2, -, balance, -, e3, -, vesting, -, e4, -,
    custodianID, -, e5, -, threshold, -, e6, -, num, -, e0, -, hrest⟩ := h
  refine ⟨e11, field_eq_ok _ _ _ h11, ?_⟩
  split at hrest
  · cases hrest
  · simp only [Outcome.bind_eq_ok] at hrest
    obtain ⟨e1, -, e8, -, e9, -, e10, -, hpure⟩ := hrest
    have hentry : entry = _ := (Outcome.ok.inj hpure).symm
    subst hentry
    simp only
    cases hv : parseInitialVested (TrimSpace e11) with
    | error err =>
      rw [hv] at hinit
      cases hinit
    | ok v =>
      rw [hv] at hinit
      cases hinit
      rfl

/-- Two steps in sequence panic exactly when the first does or the second does after it. -/
theorem Outcome.bind_eq_panicked {α β : Type} (x : Outcome α) (f : α → Outcome β) :
    (x >>= f) = .panicked ↔ x = .panicked ∨ ∃ a, x = .ok a ∧ f a = .panicked := by
  cases x with
  | ok a =>
    constructor
    · intro h
      exact Or.inr ⟨a, rfl, h⟩
    · rintro (h | ⟨a', ha, hf⟩)
      · cases h
      · cases ha
        exact hf
  | failed err =>
    constructor
    · intro h
      cases h
    · rintro (h | ⟨a', ha, _⟩)
      · cases h
      · cases ha
  | panicked =>
    constructor
    · intro _
      exact Or.inl rfl
    · intro _
      rfl

/-- Reading a field that the row has does not panic. -/
theorem field_ne_panicked (e : List String) (n : Nat) (h : n < e.length) :
    field e n ≠ .panicked := by
  simp only [field, List.get?_eq_getElem?, List.getElem?_eq_getElem h]
  intro h'
  cases h'

/-- A step that returns a value or a wrapped error does not panic. -/
theorem orFail_ne_panicked {α : Type} (msg : String) (x : Except Err α) :
    orFail msg x ≠ .panicked := by
  cases x <;> simp [orFail]

/-- A step that returns a value or an error does not panic. -/
theorem orReturn_ne_panicked {α : Type} (x : Except Err α) : orReturn x ≠ .panicked := by
  cases x <;> simp [orReturn]

/-- The loop over the addresses of a row does not panic. -/
theorem parseAddrs_ne_panicked {A : Type} (lib : AddressLib A) (i : Nat) (l : List String) :
    ∀ (j : Nat) (addrs : List A), parseAddrs lib i l j addrs ≠ .panicked := by
  induction l with
  | nil =>
    intro j addrs
    simp [parseAddrs]
  | cons a rest ih =>
    intro j addrs
    simp only [parseAddrs]
    split
    · simp
    · exact ih _ _

/-- The loop body does not panic on a row of twelve fields or more. -/
theorem parseRow_ne_panicked {A : Type} (lib : AddressLib A)
    (ParseEPK : String → Except Err Int) (i : Nat) (e : List String) (h : 12 ≤ e.length) :
    parseRow lib ParseEPK i e ≠ .panicked := by
  have hf : ∀ n, n < 12 → field e n ≠ .panicked :=
    fun n hn => field_ne_panicked e n (by omega)
  intro hp
  simp only [parseRow, Outcome.bind_eq_panicked, hf 0 (by omega), hf 1 (by omega),
    hf 2 (by omega), hf 3 (by omega), hf 4 (by omega), hf 5 (by omega), hf 6 (by omega),
    hf 7 (by omega), hf 8 (by omega), hf 9 (by omega), hf 10 (by omega), hf 11 (by omega),
    parseAddrs_ne_panicked, orFail_ne_panicked, orReturn_ne_panicked, false_or] at hp
  obtain ⟨e7, -, addrs, -, e11, -, initial, -, e2, -, balance, -, e3, -, vesting, -, e4, -,
    custodianID, -, e5, -, threshold, -, e6, -, num, -, e0, -, hrest⟩ := hp
  split at hrest
  · cases hrest
  · simp only [Outcome.bind_eq_panicked, hf 1 (by omega), hf 8 (by omega), hf 9 (by omega),
      hf 10 (by omega), false_or] at hrest
    obtain ⟨e1, -, e8, -, e9, -, e10, -, hpure⟩ := hrest
    cases hpure

/-- The entries that the loop over the rows returns are the entries it started with and,
after them, one entry for each row, which carries what the claim says of the row. -/
theorem parseRows_ok {A : Type} (lib : AddressLib A) (ParseEPK : String → Except Err Int)
    (rows : List (List String)) :
    ∀ (i : Nat) (acc entries : List (GenAccountEntry A)),
      parseRows lib ParseEPK rows i acc = .ok entries →
      ∃ new, entries = acc ++ new ∧ List.Forall₂ vestedMatches rows new := by
  induction rows with
  | nil =>
    intro i acc entries h
    simp only [parseRows, Outcome.ok.injEq] at h
    exact ⟨[], by simp [h], List.Forall₂.nil⟩
  | cons e rest ih =>
    intro i acc entries h
    simp only [parseRows] at h
    cases hrow : parseRow lib ParseEPK i e with
    | failed err => simp [hrow] at h
    | panicked => simp [hrow] at h
    | ok entry =>
      simp only [hrow] at h
      obtain ⟨new, hnew, hall⟩ := ih _ _ _ h
      obtain ⟨f, hf, hv⟩ := parseRow_ok lib ParseEPK i e entry hrow
      refine ⟨entry :: new, by simp [hnew], List.Forall₂.cons ⟨f, hf, ?_⟩ hall⟩
      exact parseInitialVested_ok _ _ _ hv

/-- A row with an ill-formed initial vested field makes no entry. -/
theorem parseRow_illFormed {A : Type} (lib : AddressLib A)
    (ParseEPK : String → Except Err Int) (i : Nat) (e : List String) (hbad : vestedIllFormed e)
    (entry : GenAccountEntry A) : parseRow lib ParseEPK i e ≠ .ok entry := by
  intro h
  obtain ⟨f, hf, hv⟩ := parseRow_ok lib ParseEPK i e entry h
  obtain ⟨g, hg, hne, hnot⟩ := hbad
  rw [hf] at hg
  cases hg
  rcases parseInitialVested_ok _ _ _ hv with ⟨hempty, _, _⟩ | ⟨_, hfrac⟩
  · exact hne hempty
  · exact hnot ⟨_, _, hfrac⟩

/-- The loop over rows of twelve fields or more, one of which has an ill-formed initial
vested field, returns an error. -/
theorem parseRows_illFormed {A : Type} (lib : AddressLib A)
    (ParseEPK : String → Except Err Int) (rows : List (List String))
    (hlen : ∀ e ∈ rows, 12 ≤ e.length) (hbad : ∃ e ∈ rows, vestedIllFormed e) :
    ∀ (i : Nat) (acc : List (GenAccountEntry A)),
      ∃ err, parseRows lib ParseEPK rows i acc = .failed err := by
  induction rows with
  | nil =>
    obtain ⟨e, he, _⟩ := hbad
    cases he
  | cons e rest ih =>
    intro i acc
    simp only [parseRows]
    cases hrow : parseRow lib ParseEPK i e with
    | failed err => exact ⟨err, rfl⟩
    | panicked =>
      exact absurd hrow (parseRow_ne_panicked lib ParseEPK i e (hlen e (List.mem_cons_self _ _)))
    | ok entry =>
      simp only
      obtain ⟨b, hb, hbb⟩ := hbad
      rcases List.mem_cons.mp hb with hbe | hbr
      · subst hbe
        exact absurd hrow (parseRow_illFormed lib ParseEPK i b hbb entry)
      · exact ih (fun x hx => hlen x (List.mem_cons_of_mem _ hx)) ⟨b, hbr, hbb⟩ _ _

/-- The loop over rows one of which has an ill-formed initial vested field returns no
entries. -/
theorem parseRows_illFormed_not_ok {A : Type} (lib : AddressLib A)
    (ParseEPK : String → Except Err Int) (rows : List (List String))
    (hbad : ∃ e ∈ rows, vestedIllFormed e) :
    ∀ (i : Nat) (acc entries : List (GenAccountEntry A)),
      parseRows lib ParseEPK rows i acc ≠ .ok entries := by
  induction rows with
  | nil =>
    obtain ⟨e, he, _⟩ := hbad
    cases he
  | cons e rest ih =>
    intro i acc entries
    simp only [parseRows]
    cases hrow : parseRow lib ParseEPK i e with
    | failed err => simp
    | panicked => simp
    | ok entry =>
      simp only
      obtain ⟨b, hb, hbb⟩ := hbad
      rcases List.mem_cons.mp hb with hbe | hbr
      · subst hbe
        exact absurd hrow (parseRow_illFormed lib ParseEPK i b hbb entry)
      · exact ih ⟨b, hbr, hbb⟩ _ _ _

/-- Claim C25. Let the file give the records `header :: rows`. Every entry that
`parseMultisigCsv` returns comes from one row, in order, and has a well-formed initial
vested fraction: if the initial vested field of the row, white space at its ends apart, is
empty, the entry carries 0 and 0; otherwise the field has the form `num/den` with
`0 ≤ num ≤ den` and `den > 0` and the entry carries these two integers. If the field of
some row has any other content, `parseMultisigCsv` returns no entries; and it returns an
error when, as the reader of the file makes sure, every row has as many fields as the
header. -/
theorem accepted_entries_have_well_formed_initial_vested {A : Type} (lib : AddressLib A)
    (ParseEPK : String → Except Err Int) (records : Except Err (List (List String)))
    (header : List String) (rows : List (List String))
    (hrecords : records = .ok (header :: rows)) :
    (∀ entries, parseMultisigCsv lib ParseEPK records = .ok entries →
      List.Forall₂ vestedMatches rows entries) ∧
    ((∃ e ∈ rows, vestedIllFormed e) →
      (∀ entries, parseMultisigCsv lib ParseEPK records ≠ .ok entries) ∧
      ((∀ e ∈ rows, e.length = header.length) →
        ∃ err, parseMultisigCsv lib ParseEPK records = .failed err)) := by
  subst hrecords
  have hA : ∀ entries, parseMultisigCsv lib ParseEPK (.ok (header :: rows)) = .ok entries →
      List.Forall₂ vestedMatches rows entries := by
    intro entries h
    simp only [parseMultisigCsv] at h
    obtain ⟨new, hnew, hall⟩ := parseRows_ok lib ParseEPK rows 0 [] entries h
    simp only [List.nil_append] at hnew
    rw [hnew]
    exact hall
  refine ⟨hA, ?_⟩
  intro hbad
  constructor
  · intro entries h
    simp only [parseMultisigCsv] at h
    exact parseRows_illFormed_not_ok lib ParseEPK rows hbad 0 [] entries h
  · intro hlen
    obtain ⟨b, hb, hbb⟩ := hbad
    have h12 : 12 ≤ b.length := by
      obtain ⟨f, hf, _⟩ := hbb
      have := List.get?_eq_some.mp hf
      obtain ⟨hlt, _⟩ := this
      omega
    have hall : ∀ e ∈ rows, 12 ≤ e.length := by
      intro e he
      rw [hlen e he, ← hlen b hb]
      exact h12
    simp only [parseMultisigCsv]
    exact parseRows_illFormed lib ParseEPK rows hall ⟨b, hb, hbb⟩ 0 []

/-- The claim C25 on two tables. The two rows of `exampleCsv`, with the fields ` 1 / 8 ` and
of white space only, give entries with 1 and 8 and with 0 and 0. The table `illFormedCsv`,
whose second row has the field `9/8`, is refused with an error. -/
theorem accepted_entries_have_well_formed_initial_vested_witness :
    (parseMultisigCsv textAddressLib exampleParseEPK (.ok exampleCsv)
        = .ok (entriesOf exampleCsv) ∧
      (entriesOf exampleCsv).map (fun x => (x.InitialVestedNum, x.InitialVestedDen))
        = [(1, 8), (0, 0)] ∧
      List.Forall₂ vestedMatches exampleCsv.tail (entriesOf exampleCsv)) ∧
    ((∃ e ∈ illFormedCsv.tail, vestedIllFormed e) ∧
      (∀ e ∈ illFormedCsv.tail, e.length = 12) ∧
      ∃ err, parseMultisigCsv textAddressLib exampleParseEPK (.ok illFormedCsv)
        = .failed err) := by
  have hbad : ∃ e ∈ illFormedCsv.tail, vestedIllFormed e := by
    refine ⟨["1", "a2", "50", "6", "4", "1", "1", "t0102", "custodian", "s3", "s4", "9/8"],
      by simp [illFormedCsv], "9/8", rfl, by decide, ?_⟩
    rintro ⟨num, den, a, b, hs, ha, hb, -, hle, -⟩
    have hsplit : Split (TrimSpace "9/8") '/' = ["9", "8"] := by decide
    rw [hsplit] at hs
    simp only [List.cons.injEq, and_true] at hs
    obtain ⟨h1, h2⟩ := hs
    subst h1
    subst h2
    have h9 : Atoi (TrimSpace "9") = .ok 9 := rfl
    have h8 : Atoi (TrimSpace "8") = .ok 8 := rfl
    rw [h9] at ha
    rw [h8] at hb
    cases ha
    cases hb
    omega
  have hlen : ∀ e ∈ illFormedCsv.tail, e.length = 12 := by
    intro e he
    simp only [illFormedCsv, List.tail_cons, List.mem_cons, List.mem_singleton,
      List.not_mem_nil, or_false] at he
    rcases he with rfl | rfl <;> rfl
  have h1 := (accepted_entries_have_well_formed_initial_vested textAddressLib exampleParseEPK
    (.ok exampleCsv) exampleHeader exampleCsv.tail rfl).1 (entriesOf exampleCsv) rfl
  have h2 := ((accepted_entries_have_well_formed_initial_vested textAddressLib exampleParseEPK
    (.ok illFormedCsv) exampleHeader illFormedCsv.tail rfl).2 hbad).2 hlen
  exact ⟨⟨rfl, by decide, h1⟩, ⟨hbad, hlen, h2⟩⟩

end Genesis
